import Mathlib

/-!
# OneWaySMS Go SDK: request building and response decoding

A shallow embedding of `owsms/client.go`, `owsms/types.go` and `owerr/*.go`.

Conventions of the embedding.

* A Go `string` is a sequence of bytes.  It is held as a `List Nat`, one entry per byte; every
  function below treats an entry of 256 or more as a byte that matches nothing.
* A Go `int` is a 64-bit two's complement integer, held as an `Int`; where the Go code can wrap,
  the wrap is written out with `toInt64`.
* A `rune` is held as a `Nat`.
* A pointer result that may be `nil` is an `Option`.
* The functions of the Go standard library that the client calls (`strings`, `strconv`,
  `unicode/utf8`, `unicode`, `fmt`, `net/url`) are written out after their Go implementation.
-/

namespace OneWaySMS

/-! ## Go strings -/

/-- A Go string: its bytes in order. -/
abbrev GoString := List Nat

/-- The rune `utf8.RuneError` (U+FFFD). -/
def RuneError : Nat := 0xFFFD

/-- The rune `utf8.MaxRune` (U+10FFFF). -/
def MaxRune : Nat := 0x10FFFF

/-- The function `utf8.EncodeRune`: the UTF-8 bytes of a rune; a surrogate or a value above
`MaxRune` is encoded as `RuneError`. -/
def EncodeRune (r : Nat) : GoString :=
  if r ≤ 0x7F then [r]
  else if r ≤ 0x7FF then [0xC0 + r / 64, 0x80 + r % 64]
  else if MaxRune < r ∨ (0xD800 ≤ r ∧ r ≤ 0xDFFF) then [0xEF, 0xBF, 0xBD]
  else if r ≤ 0xFFFF then [0xE0 + r / 4096, 0x80 + r / 64 % 64, 0x80 + r % 64]
  else [0xF0 + r / 262144, 0x80 + r / 4096 % 64, 0x80 + r / 64 % 64, 0x80 + r % 64]

/-- The conversion `string(runes)`: the concatenated UTF-8 encodings. -/
def encodeRunes (rs : List Nat) : GoString :=
  rs.flatMap EncodeRune

/-- The bytes of a string literal of the Go source (UTF-8). -/
def str (s : String) : GoString :=
  encodeRunes (s.toList.map Char.toNat)

/-- A Unicode scalar value: a code point that is not a surrogate. -/
def isScalar (r : Nat) : Prop :=
  r < 0xD800 ∨ (0xDFFF < r ∧ r ≤ 0x10FFFF)

instance (r : Nat) : Decidable (isScalar r) := by
  unfold isScalar; infer_instance

/-- The size and the accepted range of the second byte for a leading byte of a multi-byte
sequence (`utf8.first` and `utf8.acceptRanges`); `none` for a byte that cannot lead one. -/
def firstInfo (s0 : Nat) : Option (Nat × Nat × Nat) :=
  if 0xC2 ≤ s0 ∧ s0 ≤ 0xDF then some (2, 0x80, 0xBF)
  else if s0 = 0xE0 then some (3, 0xA0, 0xBF)
  else if 0xE1 ≤ s0 ∧ s0 ≤ 0xEC then some (3, 0x80, 0xBF)
  else if s0 = 0xED then some (3, 0x80, 0x9F)
  else if 0xEE ≤ s0 ∧ s0 ≤ 0xEF then some (3, 0x80, 0xBF)
  else if s0 = 0xF0 then some (4, 0x90, 0xBF)
  else if 0xF1 ≤ s0 ∧ s0 ≤ 0xF3 then some (4, 0x80, 0xBF)
  else if s0 = 0xF4 then some (4, 0x80, 0x8F)
  else none

/-- The function `utf8.DecodeRuneInString`: the first rune of `s` and its width in bytes.
The empty string gives `(RuneError, 0)`, an invalid encoding gives `(RuneError, 1)`. -/
def DecodeRuneInString (s : GoString) : Nat × Nat :=
  match s with
  | [] => (RuneError, 0)
  | s0 :: rest =>
    if s0 < 0x80 then (s0, 1)
    else
      match firstInfo s0 with
      | none => (RuneError, 1)
      | some (sz, lo, hi) =>
        if rest.length + 1 < sz then (RuneError, 1)
        else
          match rest with
          | [] => (RuneError, 1)
          | s1 :: rest1 =>
            if s1 < lo ∨ hi < s1 then (RuneError, 1)
            else if sz ≤ 2 then (s0 % 32 * 64 + s1 % 64, 2)
            else
              match rest1 with
              | [] => (RuneError, 1)
              | s2 :: rest2 =>
                if s2 < 0x80 ∨ 0xBF < s2 then (RuneError, 1)
                else if sz ≤ 3 then (s0 % 16 * 4096 + s1 % 64 * 64 + s2 % 64, 3)
                else
                  match rest2 with
                  | [] => (RuneError, 1)
                  | s3 :: _ =>
                    if s3 < 0x80 ∨ 0xBF < s3 then (RuneError, 1)
                    else (s0 % 8 * 262144 + s1 % 64 * 4096 + s2 % 64 * 64 + s3 % 64, 4)

/-- The function `utf8.RuneStart`: the byte is not a continuation byte. -/
def RuneStart (b : Nat) : Bool :=
  !(0x80 ≤ b && b ≤ 0xBF)

/-- The backward scan of `utf8.DecodeLastRuneInString`, `for start--; start >= lim; start--`:
given the bytes before the last one in reverse order and the number `lim` of bytes the scan may
test, the distance from the last byte to `start` when the scan is over.  The scan stops on a rune
start; when it has tested `lim` bytes without finding one it has stepped one byte further, if
there is one. -/
def scanBack : Nat → GoString → Nat
  | 0, [] => 0
  | 0, _ :: _ => 1
  | _ + 1, [] => 0
  | lim + 1, b :: before => if RuneStart b then 1 else 1 + scanBack lim before

/-- The function `utf8.DecodeLastRuneInString`: the last rune of `s` and its width in bytes.
The empty string gives `(RuneError, 0)`, an invalid encoding gives `(RuneError, 1)`. -/
def DecodeLastRuneInString (s : GoString) : Nat × Nat :=
  match s.reverse with
  | [] => (RuneError, 0)
  | last :: before =>
    if last < 0x80 then (last, 1)
    else
      let back := scanBack 3 before
      let tail := s.drop (s.length - (back + 1))
      let d := DecodeRuneInString tail
      if d.2 ≠ back + 1 then (RuneError, 1) else d

/-- The predicate `unicode.IsSpace`: the code points with the White_Space property. -/
def IsSpace (r : Nat) : Bool :=
  r = 0x09 || r = 0x0A || r = 0x0B || r = 0x0C || r = 0x0D || r = 0x20 || r = 0x85 || r = 0xA0
    || r = 0x1680 || (0x2000 ≤ r && r ≤ 0x200A) || r = 0x2028 || r = 0x2029 || r = 0x202F
    || r = 0x205F || r = 0x3000

/-- The loop of `strings.TrimLeftFunc(s, unicode.IsSpace)`: drop leading white space runes. -/
def trimLeftSpace : Nat → GoString → GoString
  | 0, s => s
  | fuel + 1, s =>
    if s.length = 0 then s
    else
      let d := DecodeRuneInString s
      if IsSpace d.1 then trimLeftSpace fuel (s.drop d.2) else s

/-- The loop of `strings.TrimRightFunc(s, unicode.IsSpace)`: drop trailing white space runes. -/
def trimRightSpace : Nat → GoString → GoString
  | 0, s => s
  | fuel + 1, s =>
    if s.length = 0 then s
    else
      let d := DecodeLastRuneInString s
      if IsSpace d.1 then trimRightSpace fuel (s.take (s.length - d.2)) else s

/-- The function `strings.TrimSpace`: `s` without its leading and trailing white space, as
defined by Unicode.  Each loop removes at least one byte per turn, so `len(s)` turns suffice. -/
def TrimSpace (s : GoString) : GoString :=
  let l := trimLeftSpace s.length s
  trimRightSpace l.length l

/-- The function `strings.Split(s, sep)` for a separator of one byte: the pieces of `s` between
the occurrences of `sep`; a string with `n` separators gives `n + 1` pieces. -/
def Split (s : GoString) (sep : Nat) : List GoString :=
  match s with
  | [] => [[]]
  | b :: rest =>
    if b = sep then [] :: Split rest sep
    else
      match Split rest sep with
      | [] => [[b]]
      | piece :: pieces => (b :: piece) :: pieces

/-- The function `strings.Join(elems, sep)`. -/
def Join (elems : List GoString) (sep : GoString) : GoString :=
  match elems with
  | [] => []
  | [e] => e
  | e :: rest => e ++ sep ++ Join rest sep

/-! ## `strconv.Atoi` -/

/-- The conversion `int64(x)` of an integer to 64-bit two's complement. -/
def toInt64 (x : Int) : Int :=
  (x + 2 ^ 63) % 2 ^ 64 - 2 ^ 63

/-- The digit loop of the fast path of `strconv.Atoi`: `ch -= '0'; if ch > 9` is a syntax error,
else `n = n*10 + int(ch)`.  The fast path runs on at most 18 bytes, so `n` cannot wrap. -/
def atoiLoop : GoString → Int → Option Int
  | [], n => some n
  | ch :: rest, n =>
    if ch < 48 ∨ 57 < ch then none
    else atoiLoop rest (n * 10 + ((ch - 48 : Nat) : Int))

/-- The digit loop of `strconv.ParseUint(s, 10, 64)`: a byte that is not a digit of base 10 is a
syntax error, a value beyond `1<<64 - 1` a range error; both are `none`. -/
def parseUintLoop : GoString → Nat → Option Nat
  | [], n => some n
  | c :: rest, n =>
    if c < 48 ∨ 57 < c then none
    else if n ≥ (2 ^ 64 - 1) / 10 + 1 then none
    else
      let n10 := n * 10
      let n1 := (n10 + (c - 48)) % 2 ^ 64
      if n1 < n10 then none
      else parseUintLoop rest n1

/-- The function `strconv.ParseUint(s, 10, 64)`; `none` stands for its error. -/
def ParseUint (s : GoString) : Option Nat :=
  if s.length = 0 then none else parseUintLoop s 0

/-- The function `strconv.ParseInt(s, 10, 0)`; `none` stands for its error. -/
def ParseInt (s : GoString) : Option Int :=
  match s with
  | [] => none
  | s0 :: rest =>
    let neg := decide (s0 = 45)
    let digits := if s0 = 43 ∨ s0 = 45 then rest else s
    match ParseUint digits with
    | none => none
    | some un =>
      if ¬ neg ∧ un ≥ 2 ^ 63 then none
      else if neg ∧ un > 2 ^ 63 then none
      else
        let n := toInt64 un
        some (if neg then toInt64 (-n) else n)

/-- The function `strconv.Atoi`; `none` stands for its error (a `*strconv.NumError`, which the
client never inspects). -/
def Atoi (s : GoString) : Option Int :=
  if 0 < s.length ∧ s.length < 19 then
    match s with
    | [] => none
    | s0 :: rest =>
      let digits := if s0 = 45 ∨ s0 = 43 then rest else s
      if (s0 = 45 ∨ s0 = 43) ∧ digits.length < 1 then none
      else
        match atoiLoop digits 0 with
        | none => none
        | some n => some (if s0 = 45 then -n else n)
  else ParseInt s

/-- Every byte is a decimal digit. -/
def allDigits (ds : GoString) : Bool :=
  ds.all (fun c => decide (48 ≤ c) && decide (c ≤ 57))

/-- The number that a string of decimal digits denotes. -/
def digitsValue (ds : GoString) : Nat :=
  ds.foldl (fun n c => n * 10 + (c - 48)) 0

/-- The integer that a decimal numeral denotes: an optional sign `+` or `-`, then one digit or
more; `none` when the string is not such a numeral. -/
def decimalInteger (s : GoString) : Option Int :=
  match s with
  | [] => none
  | c :: rest =>
    if c = 43 then
      if rest ≠ [] ∧ allDigits rest then some (digitsValue rest : Int) else none
    else if c = 45 then
      if rest ≠ [] ∧ allDigits rest then some (-(digitsValue rest : Int)) else none
    else if allDigits s then some (digitsValue s : Int) else none

/-- The values of the Go type `int`. -/
def inIntRange (v : Int) : Prop :=
  -2 ^ 63 ≤ v ∧ v < 2 ^ 63

instance (v : Int) : Decidable (inIntRange v) := by
  unfold inIntRange; infer_instance

/-- The function `strconv.Itoa` digit loop: the decimal digits of `u`, most significant first,
in front of `acc`. -/
def utoaLoop : Nat → Nat → GoString → GoString
  | 0, u, acc => (48 + u % 10) :: acc
  | fuel + 1, u, acc =>
    if u ≥ 10 then utoaLoop fuel (u / 10) ((48 + u % 10) :: acc) else (48 + u) :: acc

/-- The function `strconv.Itoa`. -/
def Itoa (i : Int) : GoString :=
  if i < 0 then 45 :: utoaLoop (-i).toNat (-i).toNat [] else utoaLoop i.toNat i.toNat []

/-! ## `fmt`, `strings.Trim`, `net/url` -/

/-- The digit table of `fmt`, `"0123456789ABCDEFX"`, on the sixteen hexadecimal digits. -/
def udigit (d : Nat) : Nat :=
  if d < 10 then 48 + d else 55 + d

/-- The digit loop of `fmt.fmtUnicode`: while `u >= 16` the digit `udigits[u&0xF]` is written
and `u` shifted right by four bits, then the last digit is written; the result is the
hexadecimal digits of `u` in front of `acc`. -/
def fmtUnicodeLoop : Nat → Nat → GoString → GoString
  | 0, u, acc => udigit (u % 16) :: acc
  | fuel + 1, u, acc =>
    if u ≥ 16 then fmtUnicodeLoop fuel (u / 16) (udigit (u % 16) :: acc) else udigit u :: acc

/-- The call `fmt.Sprintf("%U", r)` for a rune `r ≥ 0`: `U+`, then the upper-case hexadecimal
digits of `r`, padded with zeros on the left to four digits. -/
def SprintfU (r : Nat) : GoString :=
  let digits := fmtUnicodeLoop r r []
  85 :: 43 :: (List.replicate (4 - digits.length) 48 ++ digits)

/-- The function `strings.Trim(s, cutset)` for a cutset of ASCII bytes: `s` without the leading
and the trailing bytes that are in the cutset. -/
def Trim (s cutset : GoString) : GoString :=
  ((s.dropWhile (fun b => decide (b ∈ cutset))).reverse.dropWhile
    (fun b => decide (b ∈ cutset))).reverse

/-- The function `url.shouldEscape(c, encodeQueryComponent)`: every byte is escaped but the
letters, the digits and `-`, `_`, `.`, `~`. -/
def shouldEscape (c : Nat) : Bool :=
  !((97 ≤ c && c ≤ 122) || (65 ≤ c && c ≤ 90) || (48 ≤ c && c ≤ 57)
    || c = 45 || c = 95 || c = 46 || c = 126)

/-- The function `url.QueryEscape`: a space becomes `+`, any other escaped byte becomes `%XX`. -/
def QueryEscape (s : GoString) : GoString :=
  s.flatMap (fun c =>
    if shouldEscape c then
      if c = 32 then [43] else [37, udigit (c / 16), udigit (c % 16)]
    else [c])

/-- The order `<` of Go strings: lexicographic on the bytes. -/
def strLess : GoString → GoString → Bool
  | [], [] => false
  | [], _ :: _ => true
  | _ :: _, [] => false
  | a :: s, b :: t => if a < b then true else if b < a then false else strLess s t

/-- One insertion into a sorted list of strings. -/
def insertString (k : GoString) : List GoString → List GoString
  | [] => [k]
  | x :: xs => if strLess k x then k :: x :: xs else x :: insertString k xs

/-- The function `sort.Strings`. -/
def sortStrings (keys : List GoString) : List GoString :=
  keys.foldr insertString []

/-- The type `url.Values`, a `map[string][]string`: the keys, each once, with their values. -/
abbrev Values := List (GoString × List GoString)

/-- The method `url.Values.Add`: append the value to the values of the key. -/
def Values.Add (v : Values) (key value : GoString) : Values :=
  match v with
  | [] => [(key, [value])]
  | (k, vs) :: rest =>
    if k = key then (k, vs ++ [value]) :: rest else (k, vs) :: Values.Add rest key value

/-- The method `url.Values.Encode`: `key=value` for every value of every key, the keys sorted,
key and value escaped, joined with `&`. -/
def Values.Encode (v : Values) : GoString :=
  (sortStrings (v.map Prod.fst)).foldl
    (fun buf k =>
      ((v.lookup k).getD []).foldl
        (fun buf val =>
          (if buf.length > 0 then buf ++ [38] else buf) ++ QueryEscape k ++ [61]
            ++ QueryEscape val)
        buf)
    []

/-! ## Package `owerr` -/

/-- The struct `owerr.baseError`. -/
structure baseError where
  code : GoString
  message : GoString
  statusCode : Int
deriving DecidableEq, Repr

/-- A Go `error` value: an `owerr.Error` (a `*baseError`), or any other error, known by its
text (`errors.New`, an error of the transport, of `net/url` or of reading the body). -/
inductive GoError where
  | ow (e : baseError)
  | other (text : GoString)
deriving DecidableEq, Repr

/-- The function `owerr.newBaseError`. -/
def newBaseError (code message : GoString) (statusCode : Int) : baseError :=
  { code := code, message := message, statusCode := statusCode }

/-- The function `owerr.New`. -/
def owerr.New (code message : GoString) (statusCode : Int) : GoError :=
  GoError.ow (newBaseError code message statusCode)

/-- The method `baseError.Message`. -/
def baseError.Message (e : baseError) : GoString := e.message

/-- The method `baseError.Code`. -/
def baseError.Code (e : baseError) : GoString := e.code

/-- The method `baseError.StatusCode`. -/
def baseError.StatusCode (e : baseError) : Int := e.statusCode

/-- The method `baseError.Error`, `fmt.Sprintf("OneWaySMS: Error %d (%s): %s", ...)`: the verb
`%d` writes the status code in decimal, as `strconv.Itoa` does.  The function `http.StatusText`
of `net/http` is taken as given. -/
def baseError.Error (statusText : Int → GoString) (e : baseError) : GoString :=
  str "OneWaySMS: Error " ++ Itoa e.statusCode ++ str " (" ++ statusText e.statusCode
    ++ str "): " ++ e.message

/-- The function `http.StatusText` of `net/http`: the text of the status codes that the
package knows, the empty string for every other code. -/
def StatusText (code : Int) : GoString :=
  if code = 100 then str "Continue"
  else if code = 101 then str "Switching Protocols"
  else if code = 102 then str "Processing"
  else if code = 103 then str "Early Hints"
  else if code = 200 then str "OK"
  else if code = 201 then str "Created"
  else if code = 202 then str "Accepted"
  else if code = 203 then str "Non-Authoritative Information"
  else if code = 204 then str "No Content"
  else if code = 205 then str "Reset Content"
  else if code = 206 then str "Partial Content"
  else if code = 207 then str "Multi-Status"
  else if code = 208 then str "Already Reported"
  else if code = 226 then str "IM Used"
  else if code = 300 then str "Multiple Choices"
  else if code = 301 then str "Moved Permanently"
  else if code = 302 then str "Found"
  else if code = 303 then str "See Other"
  else if code = 304 then str "Not Modified"
  else if code = 305 then str "Use Proxy"
  else if code = 307 then str "Temporary Redirect"
  else if code = 308 then str "Permanent Redirect"
  else if code = 400 then str "Bad Request"
  else if code = 401 then str "Unauthorized"
  else if code = 402 then str "Payment Required"
  else if code = 403 then str "Forbidden"
  else if code = 404 then str "Not Found"
  else if code = 405 then str "Method Not Allowed"
  else if code = 406 then str "Not Acceptable"
  else if code = 407 then str "Proxy Authentication Required"
  else if code = 408 then str "Request Timeout"
  else if code = 409 then str "Conflict"
  else if code = 410 then str "Gone"
  else if code = 411 then str "Length Required"
  else if code = 412 then str "Precondition Failed"
  else if code = 413 then str "Request Entity Too Large"
  else if code = 414 then str "Request URI Too Long"
  else if code = 415 then str "Unsupported Media Type"
  else if code = 416 then str "Requested Range Not Satisfiable"
  else if code = 417 then str "Expectation Failed"
  else if code = 418 then str "I\x27m a teapot"
  else if code = 421 then str "Misdirected Request"
  else if code = 422 then str "Unprocessable Entity"
  else if code = 423 then str "Locked"
  else if code = 424 then str "Failed Dependency"
  else if code = 425 then str "Too Early"
  else if code = 426 then str "Upgrade Required"
  else if code = 428 then str "Precondition Required"
  else if code = 429 then str "Too Many Requests"
  else if code = 431 then str "Request Header Fields Too Large"
  else if code = 451 then str "Unavailable For Legal Reasons"
  else if code = 500 then str "Internal Server Error"
  else if code = 501 then str "Not Implemented"
  else if code = 502 then str "Bad Gateway"
  else if code = 503 then str "Service Unavailable"
  else if code = 504 then str "Gateway Timeout"
  else if code = 505 then str "HTTP Version Not Supported"
  else if code = 506 then str "Variant Also Negotiates"
  else if code = 507 then str "Insufficient Storage"
  else if code = 508 then str "Loop Detected"
  else if code = 510 then str "Not Extended"
  else if code = 511 then str "Network Authentication Required"
  else []

def owerr.RequestFailure : GoString := str "RequestFailure"
def owerr.InvalidCredentials : GoString := str "InvalidCredentials"
def owerr.InvalidSenderID : GoString := str "InvalidSenderID"
def owerr.InvalidMobileNo : GoString := str "InvalidMobileNo"
def owerr.InvalidLanguageType : GoString := str "InvalidLanguageType"
def owerr.InvalidMessageCharacters : GoString := str "InvalidMessageCharacters"
def owerr.InsufficientCreditBalance : GoString := str "InsufficientCreditBalance"
def owerr.MTInvalidNotFound : GoString := str "MTInvalidNotFound"
def owerr.MessageDeliveryFailure : GoString := str "MessageDeliveryFailure"
def owerr.UnknownError : GoString := str "UnknownError"

/-! ## Package `owsms`: types -/

/-- The type `owsms.LanguageType`, a string. -/
abbrev LanguageType := GoString

/-- Normal text message. -/
def LanguageTypeNormal : LanguageType := str "1"

/-- Unicode text message. -/
def LanguageTypeUnicode : LanguageType := str "2"

/-- The type `owsms.MTTransactionStatus`, a string. -/
abbrev MTTransactionStatus := GoString

def MTTransactionStatusSuccess : MTTransactionStatus := str "success"
def MTTransactionStatusTelcoDelivered : MTTransactionStatus := str "telco_delivered"

/-- The struct `owsms.SendSMSInput`. -/
structure SendSMSInput where
  LanguageType : LanguageType
  Message : GoString
  MobileNo : List GoString
deriving DecidableEq, Repr

/-- The struct `owsms.SendSMSOutput`. -/
structure SendSMSOutput where
  MTIDs : List Int
deriving DecidableEq, Repr

/-- The struct `owsms.CheckTransactionStatusInput`. -/
structure CheckTransactionStatusInput where
  MTID : Int
deriving DecidableEq, Repr

/-- The struct `owsms.CheckTransactionStatusOutput`. -/
structure CheckTransactionStatusOutput where
  Status : MTTransactionStatus
deriving DecidableEq, Repr

/-- The method `SendSMSInput.Validate`; `none` is the `nil` error. -/
def SendSMSInput.Validate (i : SendSMSInput) : Option GoError :=
  if i.Message = [] then
    some (GoError.other (str "SendSMSInput: Error: Message is required"))
  else if i.MobileNo.length ≤ 0 then
    some (GoError.other (str "SendSMSInput: Error: MobileNo is required"))
  else if i.LanguageType ≠ LanguageTypeNormal ∧ i.LanguageType ≠ LanguageTypeUnicode then
    some (GoError.other (str "SendSMSInput: Error: LanguageType is invalid"))
  else none

/-- The method `CheckTransactionStatusInput.Validate`; `none` is the `nil` error. -/
def CheckTransactionStatusInput.Validate (i : CheckTransactionStatusInput) : Option GoError :=
  if i.MTID = 0 then
    some (GoError.other (str "CheckTransactionStatusInput: Error: MTID is required"))
  else none

/-! ## Package `owsms`: the transport -/

/-- A request handed to the transport. -/
structure Request where
  Method : GoString
  URL : GoString
  Header : List (GoString × GoString)
deriving DecidableEq, Repr

/-- A response of the transport: its status code and what `ioutil.ReadAll(resp.Body)` gives,
the bytes of the body or a read error. -/
structure Response where
  StatusCode : Int
  Body : Except GoError GoString

/-- A call of `Do` that returns an error: the error, and the response that `Do` returns beside
it, `none` for a `nil` response. -/
structure Failure where
  resp : Option Response
  err : GoError

/-- The interface `doer`: the method `Do`, which returns the pair `(*http.Response, error)`.
`Except.ok resp` is the response `resp` with a `nil` error; `Except.error ⟨resp, err⟩` is the
error `err` with the response `resp` beside it, `nil` or not.  With a `nil` error the response is
not `nil`, as `http.Client.Do` promises. -/
abbrev doer := Request → Except Failure Response

/-- What the client takes from `net/http` and `net/url`: the default client, and the error, if
any, with which `url.Parse` (and so `http.NewRequest`) rejects a URL. -/
structure Net where
  DefaultClient : doer
  parseError : GoString → Option GoError

/-- The struct `owsms.Client`; a `nil` client is `none`. -/
structure Client where
  client : Option doer
  baseURL : GoString
  apiUsername : GoString
  apiPassword : GoString
  senderID : GoString

/-- The constant `version`. -/
def version : GoString := str "0.1.0"

/-- The function `NewClient`. -/
def NewClient (net : Net) (baseURL apiUsername apiPassword senderID : GoString) : Client :=
  { client := some net.DefaultClient, baseURL := baseURL, apiUsername := apiUsername,
    apiPassword := apiPassword, senderID := senderID }

/-- The function `NewClientWithHTTP`. -/
def NewClientWithHTTP (net : Net) (baseURL apiUsername apiPassword senderID : GoString)
    (client : doer) : Client :=
  { NewClient net baseURL apiUsername apiPassword senderID with client := some client }

/-- The three results of an operation: the output, the response and the error. -/
structure Result (α : Type) where
  output : Option α
  resp : Option Response
  err : Option GoError

/-! ## Package `owsms`: the client -/

/-- The loop `for _, r := range message`: the runes of the string in order, an invalid byte
giving `RuneError`. -/
def rangeRunes : Nat → GoString → List Nat
  | 0, _ => []
  | fuel + 1, s =>
    if s.length = 0 then []
    else
      let d := DecodeRuneInString s
      d.1 :: rangeRunes fuel (s.drop d.2)

/-- The method `Client.messageToHex`. -/
def messageToHex (message : GoString) : GoString :=
  (rangeRunes message.length message).foldl
    (fun buf r => buf ++ Trim (SprintfU r) (str "U+")) []

/-- The loop of `Client.getLanguageType`. -/
def getLanguageTypeLoop : Nat → GoString → LanguageType
  | 0, _ => LanguageTypeNormal
  | fuel + 1, m =>
    if m.length > 0 then
      let size := (DecodeRuneInString m).2
      if size > 1 then LanguageTypeUnicode
      else getLanguageTypeLoop fuel (m.drop size)
    else LanguageTypeNormal

/-- The method `Client.getLanguageType`.  A turn of the loop that does not return removes one
byte of `m`, so `len(message)` turns empty it. -/
def getLanguageType (message : GoString) : LanguageType :=
  getLanguageTypeLoop message.length message

/-- The method `Client.buildRequestURL`.  The parameters, a Go map, are given with each key
once; `Encode` sorts the keys, so the order of the map's iteration does not show. -/
def buildRequestURL (c : Client) (path : GoString) (urlParams : List (GoString × GoString)) :
    GoString :=
  let params := urlParams.foldl (fun params kv => Values.Add params kv.1 kv.2) []
  c.baseURL ++ str "/" ++ path ++ str "?" ++ Values.Encode params

/-- The method `Client.buildSendSMSRequestURL`: the URL, and the input as the method leaves
it. -/
def buildSendSMSRequestURL (c : Client) (input : SendSMSInput) : GoString × SendSMSInput :=
  let input :=
    if input.LanguageType = [] then
      { input with LanguageType := getLanguageType input.Message }
    else input
  let input :=
    if input.LanguageType = LanguageTypeUnicode then
      { input with Message := messageToHex input.Message }
    else input
  (buildRequestURL c (str "api.aspx")
    [ (str "apiusername", c.apiUsername),
      (str "apipassword", c.apiPassword),
      (str "senderid", c.senderID),
      (str "mobileno", Join input.MobileNo (str ",")),
      (str "languagetype", input.LanguageType),
      (str "message", input.Message) ],
   input)

/-- The method `Client.buildCheckTransactionStatusRequestURL`. -/
def buildCheckTransactionStatusRequestURL (c : Client) (input : CheckTransactionStatusInput) :
    GoString :=
  buildRequestURL c (str "bulktrx.aspx") [(str "mtid", Itoa input.MTID)]

/-- The method `Client.buildCheckCreditBalanceRequestURL`. -/
def buildCheckCreditBalanceRequestURL (c : Client) : GoString :=
  buildRequestURL c (str "bulkcredit.aspx")
    [(str "apiusername", c.apiUsername), (str "apipassword", c.apiPassword)]

/-- The method `Client.getRequest`.  A `nil` client is replaced by the default one. -/
def getRequest (net : Net) (c : Client) (requestURL : GoString) : Except Failure Response :=
  let client := match c.client with
    | none => net.DefaultClient
    | some d => d
  match net.parseError requestURL with
  | some err => Except.error ⟨none, err⟩
  | none =>
    client
      { Method := str "GET", URL := requestURL,
        Header := [(str "User-Agent", str "onewaysms-sdk-go/" ++ version)] }

/-- The loop of `Client.SendSMS` over the pieces of the body; `none` when a piece is not an
integer, else the list `mtIDs`. -/
def parseMTIDs : List GoString → List Int → Option (List Int)
  | [], mtIDs => some mtIDs
  | _mtID :: rest, mtIDs =>
    match Atoi (TrimSpace _mtID) with
    | none => none
    | some mtID => parseMTIDs rest (mtIDs ++ [mtID])

/-- The method `Client.SendSMS`: its three results, and the input as the call leaves it. -/
def SendSMS (net : Net) (c : Client) (input : SendSMSInput) :
    Result SendSMSOutput × SendSMSInput :=
  let built := buildSendSMSRequestURL c input
  let res : Result SendSMSOutput :=
    match getRequest net c built.1 with
    | Except.error failure => ⟨none, failure.resp, some failure.err⟩
    | Except.ok resp =>
      if resp.StatusCode ≠ 200 then
        ⟨none, some resp,
          some (owerr.New owerr.RequestFailure (str "request failure") resp.StatusCode)⟩
      else
        match resp.Body with
        | Except.error err => ⟨none, some resp, some err⟩
        | Except.ok b =>
          match parseMTIDs (Split b 44) [] with
          | none =>
            ⟨none, some resp,
              some (owerr.New owerr.UnknownError (str "unknown error") resp.StatusCode)⟩
          | some [] =>
            ⟨none, some resp,
              some (owerr.New owerr.UnknownError (str "unknown error") resp.StatusCode)⟩
          | some (first :: others) =>
            if first > 0 then ⟨some ⟨first :: others⟩, some resp, none⟩
            else if first = -100 then
              ⟨none, some resp, some (owerr.New owerr.InvalidCredentials
                (str "apiusername or apipassword is invalid") resp.StatusCode)⟩
            else if first = -200 then
              ⟨none, some resp, some (owerr.New owerr.InvalidSenderID
                (str "senderid parameter is invalid") resp.StatusCode)⟩
            else if first = -300 then
              ⟨none, some resp, some (owerr.New owerr.InvalidMobileNo
                (str "mobileno parameter is invalid") resp.StatusCode)⟩
            else if first = -400 then
              ⟨none, some resp, some (owerr.New owerr.InvalidLanguageType
                (str "languagetype is invalid") resp.StatusCode)⟩
            else if first = -500 then
              ⟨none, some resp, some (owerr.New owerr.InvalidMessageCharacters
                (str "characters in message are invalid") resp.StatusCode)⟩
            else if first = -600 then
              ⟨none, some resp, some (owerr.New owerr.InsufficientCreditBalance
                (str "insufficient credit balance") resp.StatusCode)⟩
            else
              ⟨none, some resp,
                some (owerr.New owerr.UnknownError (str "unknown error") resp.StatusCode)⟩
  (res, built.2)

/-- The method `Client.CheckTransactionStatus`. -/
def CheckTransactionStatus (net : Net) (c : Client) (input : CheckTransactionStatusInput) :
    Result CheckTransactionStatusOutput :=
  match getRequest net c (buildCheckTransactionStatusRequestURL c input) with
  | Except.error failure => ⟨none, failure.resp, some failure.err⟩
  | Except.ok resp =>
    match resp.Body with
    | Except.error err => ⟨none, some resp, some err⟩
    | Except.ok b =>
      match Atoi (TrimSpace b) with
      | none =>
        ⟨none, some resp,
          some (owerr.New owerr.UnknownError (str "unknown error") resp.StatusCode)⟩
      | some status =>
        if status = 0 then ⟨some ⟨MTTransactionStatusSuccess⟩, some resp, none⟩
        else if status = 100 then ⟨some ⟨MTTransactionStatusTelcoDelivered⟩, some resp, none⟩
        else if status = -100 then
          ⟨none, some resp, some (owerr.New owerr.MTInvalidNotFound
            (str "mtid is invalid or not found") resp.StatusCode)⟩
        else if status = -200 then
          ⟨none, some resp, some (owerr.New owerr.MessageDeliveryFailure
            (str "message delivery failed") resp.StatusCode)⟩
        else
          ⟨none, some resp,
            some (owerr.New owerr.UnknownError (str "unknown error") resp.StatusCode)⟩

/-! ## `CheckCreditBalance` and floating point -/

/-- What `CheckCreditBalance` takes from floating point: the types `float64` and `float32`,
`strconv.ParseFloat(s, 32)` (`none` stands for its error), the comparisons `x >= 0` and
`x == -100` on `float64`, the conversion `float32(x)`, and `y >= 0` on `float32`, which the
conversion keeps. -/
structure FloatOps (F64 F32 : Type) where
  ParseFloat32 : GoString → Option F64
  geZero : F64 → Bool
  eqNeg100 : F64 → Bool
  toFloat32 : F64 → F32
  geZero32 : F32 → Bool
  toFloat32_geZero : ∀ x, geZero x = true → geZero32 (toFloat32 x) = true

/-- The struct `owsms.CheckCreditBalanceOutput`. -/
structure CheckCreditBalanceOutput (F32 : Type) where
  CreditBalance : F32

/-- The method `Client.CheckCreditBalance`. -/
def CheckCreditBalance {F64 F32 : Type} (fl : FloatOps F64 F32) (net : Net) (c : Client) :
    Result (CheckCreditBalanceOutput F32) :=
  match getRequest net c (buildCheckCreditBalanceRequestURL c) with
  | Except.error failure => ⟨none, failure.resp, some failure.err⟩
  | Except.ok resp =>
    match resp.Body with
    | Except.error err => ⟨none, some resp, some err⟩
    | Except.ok b =>
      match fl.ParseFloat32 (TrimSpace b) with
      | none =>
        ⟨none, some resp,
          some (owerr.New owerr.UnknownError (str "unknown error") resp.StatusCode)⟩
      | some creditBalance =>
        if fl.geZero creditBalance then
          ⟨some ⟨fl.toFloat32 creditBalance⟩, some resp, none⟩
        else if fl.eqNeg100 creditBalance then
          ⟨none, some resp, some (owerr.New owerr.InvalidCredentials
            (str "apiusername or apipassword is invalid") resp.StatusCode)⟩
        else
          ⟨none, some resp,
            some (owerr.New owerr.UnknownError (str "unknown error") resp.StatusCode)⟩

/-! ## `strconv.ParseFloat(s, 32)` -/

/-- A value of `float32`, or a value of `float64`: not a number, an infinity with its sign, or
the finite value `± mant * 2 ^ exp` (the zeros, with their sign, have `mant = 0`). -/
inductive GoFloat where
  | nan
  | inf (neg : Bool)
  | fin (neg : Bool) (mant : Nat) (exp : Int)
deriving DecidableEq, Repr

/-- The loop of `bitLength`; the first number bounds the turns. -/
def bitLengthLoop : Nat → Nat → Nat
  | 0, _ => 0
  | fuel + 1, n => if n = 0 then 0 else bitLengthLoop fuel (n / 2) + 1

/-- The number of bits of `n` (`bits.Len`): the least `k` with `n < 2 ^ k`. -/
def bitLength (n : Nat) : Nat :=
  bitLengthLoop n n

/-- The integer part of the binary logarithm of `num / den`, for `num` and `den` above zero. -/
def floorLog2 (num den : Nat) : Int :=
  let e : Int := (bitLength num : Int) - (bitLength den : Int)
  if 0 ≤ e then (if den * 2 ^ e.toNat ≤ num then e else e - 1)
  else (if den ≤ num * 2 ^ (-e).toNat then e else e - 1)

/-- The fraction `num / den` divided by `2 ^ ex`, as a numerator and a denominator. -/
def scaleBy (num den : Nat) (ex : Int) : Nat × Nat :=
  if 0 ≤ ex then (num, den * 2 ^ ex.toNat) else (num * 2 ^ (-ex).toNat, den)

/-- The integer nearest to `n / d`, the even one of two that are equally near. -/
def roundHalfEven (n d : Nat) : Nat :=
  if d < 2 * (n % d) ∨ (2 * (n % d) = d ∧ n / d % 2 = 1) then n / d + 1 else n / d

/-- The `float32` nearest to `± num / den` (IEEE 754 rounding to nearest, ties to even, which
`strconv` and the conversion `float32(x)` implement), and whether the value overflows: the
mantissa has 24 bits, the least exponent of its last bit is -149 (denormals), and a value that
rounds to `2 ^ 128` or more gives the infinity. -/
def round32 (neg : Bool) (num den : Nat) : GoFloat × Bool :=
  if num = 0 then (GoFloat.fin neg 0 0, false)
  else
    let ex := max (floorLog2 num den - 23) (-149)
    let m := roundHalfEven (scaleBy num den ex).1 (scaleBy num den ex).2
    if m = 0 then (GoFloat.fin neg 0 0, false)
    else if m = 2 ^ 24 then
      (if 104 < ex + 1 then (GoFloat.inf neg, true) else (GoFloat.fin neg (2 ^ 23) (ex + 1), false))
    else if 104 < ex then (GoFloat.inf neg, true)
    else (GoFloat.fin neg m ex, false)

/-- The function `strconv.lower`: `c | ('x' - 'X')`. -/
def lower (c : Nat) : Nat :=
  c ||| 32

/-- The function `strconv.commonPrefixLenIgnoreCase`; `pre` is in lower case. -/
def commonPrefixLenIgnoreCase : GoString → GoString → Nat
  | c :: s, p :: pre =>
    if (if 65 ≤ c ∧ c ≤ 90 then c + 32 else c) ≠ p then 0
    else 1 + commonPrefixLenIgnoreCase s pre
  | _, _ => 0

/-- The function `strconv.special`: the infinities and not-a-number, in any case, with the
number of bytes read. -/
def special (s : GoString) : Option (GoFloat × Nat) :=
  match s with
  | [] => none
  | c :: rest =>
    if c = 43 ∨ c = 45 then
      let n := commonPrefixLenIgnoreCase rest (str "infinity")
      let n := if 3 < n ∧ n < 8 then 3 else n
      if n = 3 ∨ n = 8 then some (GoFloat.inf (decide (c = 45)), 1 + n) else none
    else if c = 105 ∨ c = 73 then
      let n := commonPrefixLenIgnoreCase s (str "infinity")
      let n := if 3 < n ∧ n < 8 then 3 else n
      if n = 3 ∨ n = 8 then some (GoFloat.inf false, n) else none
    else if c = 110 ∨ c = 78 then
      if commonPrefixLenIgnoreCase s (str "nan") = 3 then some (GoFloat.nan, 3) else none
    else none

/-- The loop of `strconv.underscoreOK` over the number proper; `saw` is the last character
seen: `0` for a digit or the base prefix, `_` for an underscore, `!` for another byte, `^` at the
beginning. -/
def underscoreLoop (hex : Bool) : GoString → Nat → Bool
  | [], saw => saw != 95
  | c :: rest, saw =>
    if (48 ≤ c ∧ c ≤ 57) ∨ (hex = true ∧ 97 ≤ lower c ∧ lower c ≤ 102) then
      underscoreLoop hex rest 48
    else if c = 95 then
      if saw != 48 then false else underscoreLoop hex rest 95
    else if saw = 95 then false
    else underscoreLoop hex rest 33

/-- The function `strconv.underscoreOK`: an underscore stands between two digits, or between
the base prefix and a digit. -/
def underscoreOK (s : GoString) : Bool :=
  let s := match s with
    | c :: rest => if c = 45 ∨ c = 43 then rest else s
    | [] => s
  match s with
  | c :: x :: rest =>
    if c = 48 ∧ (lower x = 98 ∨ lower x = 111 ∨ lower x = 120) then
      underscoreLoop (decide (lower x = 120)) rest 48
    else underscoreLoop false s 94
  | _ => underscoreLoop false s 94

/-- The variables of the digit loop of `strconv.readFloat`.  The mantissa keeps every digit:
`readFloat` keeps the first 19 (16 in base 16) and notes in `trunc` that it dropped others, and
`atof32` then reads the digits again where they matter, so that the value it rounds is the
value of all the digits. -/
structure ReadState where
  sawdot : Bool
  sawdigits : Bool
  nd : Nat
  dp : Int
  mantissa : Nat
  underscores : Bool
deriving DecidableEq, Repr

/-- The digit loop of `strconv.readFloat`: the variables when the loop ends, and the bytes that
it left. -/
def readDigits (hex : Bool) : GoString → ReadState → ReadState × GoString
  | [], st => (st, [])
  | c :: rest, st =>
    if c = 95 then readDigits hex rest { st with underscores := true }
    else if c = 46 then
      if st.sawdot then (st, c :: rest)
      else readDigits hex rest { st with sawdot := true, dp := st.nd }
    else if 48 ≤ c ∧ c ≤ 57 then
      if c = 48 ∧ st.nd = 0 then
        readDigits hex rest { st with sawdigits := true, dp := st.dp - 1 }
      else
        readDigits hex rest
          { st with sawdigits := true, nd := st.nd + 1,
                    mantissa := st.mantissa * (if hex then 16 else 10) + (c - 48) }
    else if hex = true ∧ 97 ≤ lower c ∧ lower c ≤ 102 then
      readDigits hex rest
        { st with sawdigits := true, nd := st.nd + 1,
                  mantissa := st.mantissa * 16 + (lower c - 97 + 10) }
    else (st, c :: rest)

/-- The loop of `strconv.readFloat` over the digits of the exponent: the exponent, which stops
growing from 10000 on, whether an underscore was seen, and the bytes that the loop left. -/
def readExponent : GoString → Nat → Bool → Nat × Bool × GoString
  | [], e, underscores => (e, underscores, [])
  | c :: rest, e, underscores =>
    if c = 95 then readExponent rest e true
    else if 48 ≤ c ∧ c ≤ 57 then
      readExponent rest (if e < 10000 then e * 10 + (c - 48) else e) underscores
    else (e, underscores, c :: rest)

/-- What `strconv.readFloat` returns when it accepts a prefix of the string. -/
structure ReadFloat where
  mantissa : Nat
  exp : Int
  neg : Bool
  hex : Bool
  n : Nat
deriving DecidableEq, Repr

/-- The function `strconv.readFloat`: a sign, the digits in base 10, or in base 16 after `0x`,
with a point, and an exponent after `e`, or after `p` in base 16, where it is required.  The
value read is `mantissa * 10 ^ exp`, in base 16 `mantissa * 2 ^ exp`; `n` is the number of bytes
read; `none` when `ok` is false. -/
def readFloat (s : GoString) : Option ReadFloat :=
  if s = [] then none
  else
    let neg := decide (s.head? = some 45)
    let s1 := if s.head? = some 43 ∨ s.head? = some 45 then s.drop 1 else s
    let hex := decide (2 < s1.length ∧ s1.head? = some 48 ∧ (s1.drop 1).head?.map lower = some 120)
    let s2 := if hex then s1.drop 2 else s1
    let r := readDigits hex s2 ⟨false, false, 0, 0, 0, false⟩
    let st := r.1
    let s3 := r.2
    if st.sawdigits = false then none
    else
      let dp : Int := if st.sawdot then st.dp else st.nd
      let dp : Int := if hex then dp * 4 else dp
      let nd : Int := if hex then st.nd * 4 else st.nd
      let finish := fun (dp : Int) (underscores : Bool) (s4 : GoString) =>
        let n := s.length - s4.length
        if underscores = true ∧ underscoreOK (s.take n) = false then none
        else some (ReadFloat.mk st.mantissa (if st.mantissa ≠ 0 then dp - nd else 0) neg hex n)
      match s3 with
      | c :: r1 =>
        if lower c = (if hex then 112 else 101) then
          if r1 = [] then none
          else
            let esign : Int := if r1.head? = some 45 then -1 else 1
            let r2 := if r1.head? = some 43 ∨ r1.head? = some 45 then r1.drop 1 else r1
            match r2 with
            | [] => none
            | d :: _ =>
              if d < 48 ∨ 57 < d then none
              else
                let x := readExponent r2 0 st.underscores
                finish (dp + x.1 * esign) x.2.1 x.2.2
        else if hex then none
        else finish dp st.underscores s3
      | [] => if hex then none else finish dp st.underscores s3

/-- The function `strconv.ParseFloat(s, 32)`; `none` stands for an error, of syntax or of range.
The whole string must be read.  The result is the `float32` nearest to the value read, and a
value that overflows `float32` is an error of range. -/
def ParseFloat32 (s : GoString) : Option GoFloat :=
  match special s with
  | some (v, n) => if n = s.length then some v else none
  | none =>
    match readFloat s with
    | none => none
    | some r =>
      if r.n ≠ s.length then none
      else
        let v :=
          if r.hex then
            round32 r.neg (scaleBy r.mantissa 1 (-r.exp)).1 (scaleBy r.mantissa 1 (-r.exp)).2
          else if 0 ≤ r.exp then round32 r.neg (r.mantissa * 10 ^ r.exp.toNat) 1
          else round32 r.neg r.mantissa (10 ^ (-r.exp).toNat)
        if v.2 then none else some v.1

/-- The comparison `x >= 0` of floats: false for not-a-number, true for both zeros. -/
def GoFloat.geZero : GoFloat → Bool
  | GoFloat.nan => false
  | GoFloat.inf neg => !neg
  | GoFloat.fin neg mant _ => !neg || mant = 0

/-- The comparison `x == -100` of floats. -/
def GoFloat.eqNeg100 : GoFloat → Bool
  | GoFloat.fin true mant exp =>
    if 0 ≤ exp then mant * 2 ^ exp.toNat = 100 else mant = 100 * 2 ^ (-exp).toNat
  | _ => false

/-- The conversion `float32(x)` of a `float64`: the nearest `float32`, an infinity when the
value overflows. -/
def GoFloat.toFloat32 : GoFloat → GoFloat
  | GoFloat.fin neg mant exp =>
    (round32 neg (scaleBy mant 1 (-exp)).1 (scaleBy mant 1 (-exp)).2).1
  | x => x

/-- The floating point of Go for `CheckCreditBalance`: `strconv.ParseFloat(s, 32)`, the
comparisons and the conversion `float32(x)`.  A value of `float64` is kept as the dyadic number
that it is. -/
def goFloats : FloatOps GoFloat GoFloat where
  ParseFloat32 := ParseFloat32
  geZero := GoFloat.geZero
  eqNeg100 := GoFloat.eqNeg100
  toFloat32 := GoFloat.toFloat32
  geZero32 := GoFloat.geZero
  toFloat32_geZero := by
    intro x hx
    cases x with
    | nan => exact hx
    | inf neg => exact hx
    | fin neg mant exp =>
      cases neg with
      | false =>
        simp only [GoFloat.toFloat32, round32]
        split_ifs <;> rfl
      | true =>
        have hm : mant = 0 := by simpa [GoFloat.geZero] using hx
        subst hm
        have h0 : (scaleBy 0 1 (-exp)).1 = 0 := by
          unfold scaleBy
          split_ifs <;> simp
        simp only [GoFloat.toFloat32, round32, h0, if_true]
        rfl

/-! ## Specification vocabulary -/

/-- The integer of the Go type `int` that a decimal numeral denotes, if any. -/
def goInt (s : GoString) : Option Int :=
  (decimalInteger s).bind (fun v => if inIntRange v then some v else none)

/-- One piece of a response body: white space, a decimal numeral of the Go integer `n`, white
space. -/
def IsPaddedInt (e : GoString) (n : Int) : Prop :=
  ∃ pre post : List Nat, ∃ numeral : GoString,
    (∀ r ∈ pre, IsSpace r = true) ∧ (∀ r ∈ post, IsSpace r = true) ∧
    decimalInteger numeral = some n ∧ inIntRange n ∧
    e = encodeRunes pre ++ numeral ++ encodeRunes post

/-- The character of a hexadecimal digit, in upper case. -/
def hexDigitChar (d : Nat) : Nat :=
  (str "0123456789ABCDEF").getD d 48

/-- The code point in upper-case hexadecimal, padded with zeros on the left to four digits. -/
def hexPadded (r : Nat) : GoString :=
  let ds := (Nat.digits 16 r).reverse.map hexDigitChar
  List.replicate (4 - ds.length) 48 ++ ds

/-- The request that `getRequest` hands to the transport for a URL. -/
def requestFor (requestURL : GoString) : Request :=
  { Method := str "GET", URL := requestURL,
    Header := [(str "User-Agent", str "onewaysms-sdk-go/" ++ version)] }

/-- The natural number in decimal, without leading zeros; zero is `0`. -/
def decimalNat (n : Nat) : GoString :=
  if n = 0 then [48] else (Nat.digits 10 n).reverse.map (fun d => 48 + d)

/-- The integer in decimal: a minus sign in front of a negative one. -/
def decimalText (i : Int) : GoString :=
  if i < 0 then 45 :: decimalNat i.natAbs else decimalNat i.natAbs

/-- The text of the request URL of `SendSMS` for a language type and a message: the six
parameters in the order of their keys, the values escaped. -/
def sendSMSURL (c : Client) (languageType message : GoString) (mobileNo : List GoString) :
    GoString :=
  c.baseURL ++ str "/api.aspx?"
    ++ str "apipassword=" ++ QueryEscape c.apiPassword
    ++ str "&apiusername=" ++ QueryEscape c.apiUsername
    ++ str "&languagetype=" ++ QueryEscape languageType
    ++ str "&message=" ++ QueryEscape message
    ++ str "&mobileno=" ++ QueryEscape (Join mobileNo (str ","))
    ++ str "&senderid=" ++ QueryEscape c.senderID

/-- A byte that `url.QueryEscape` leaves as it is: a letter, a digit, `-`, `_`, `.` or `~`. -/
def isUnreserved (b : Nat) : Prop :=
  (97 ≤ b ∧ b ≤ 122) ∨ (65 ≤ b ∧ b ≤ 90) ∨ (48 ≤ b ∧ b ≤ 57) ∨ b = 45 ∨ b = 95 ∨ b = 46 ∨ b = 126

/-- A Go string holds bytes. -/
def isBytes (s : GoString) : Prop :=
  ∀ b ∈ s, b < 256

/-- The value of a hexadecimal digit, in either case, and `none` for another byte (`url.ishex`
and `url.unhex`). -/
def unhex (c : Nat) : Option Nat :=
  if 48 ≤ c ∧ c ≤ 57 then some (c - 48)
  else if 97 ≤ c ∧ c ≤ 102 then some (c - 97 + 10)
  else if 65 ≤ c ∧ c ≤ 70 then some (c - 65 + 10)
  else none

/-- The function `url.QueryUnescape`, which a server applies to the keys and the values of a
query: `%` and two hexadecimal digits give the byte with this value, `+` gives a space, any other
byte stands for itself; a `%` that two hexadecimal digits do not follow is an error, `none`.
The number is the count of the bytes that are left to read. -/
def unescapeLoop : Nat → GoString → Option GoString
  | 0, _ => some []
  | _ + 1, [] => some []
  | fuel + 1, c :: rest =>
    if c = 37 then
      match rest with
      | a :: b :: rest2 =>
        match unhex a, unhex b with
        | some x, some y => (unescapeLoop fuel rest2).map (fun t => (x * 16 + y) :: t)
        | _, _ => none
      | _ => none
    else if c = 43 then (unescapeLoop fuel rest).map (fun t => 32 :: t)
    else (unescapeLoop fuel rest).map (fun t => c :: t)

/-- The function `url.QueryUnescape`. -/
def QueryUnescape (s : GoString) : Option GoString :=
  unescapeLoop s.length s

/-- One `key=value` piece of a query as `url.ParseQuery` reads it: a piece with a `;` is an
error; the piece is cut at its first `=`, and the key and the value are unescaped. -/
def parsePair (piece : GoString) : Option (GoString × GoString) :=
  if 59 ∈ piece then none
  else
    match QueryUnescape (piece.takeWhile (fun b => b != 61)),
      QueryUnescape ((piece.dropWhile (fun b => b != 61)).drop 1) with
    | some key, some value => some (key, value)
    | _, _ => none

/-- The pieces of a query read one after the other. -/
def parsePairs : List GoString → Option (List (GoString × GoString))
  | [] => some []
  | piece :: rest =>
    if piece = [] then parsePairs rest
    else
      match parsePair piece, parsePairs rest with
      | some kv, some kvs => some (kv :: kvs)
      | _, _ => none

/-- The function `url.ParseQuery`, with the pairs in the order of the query instead of a map:
the query is cut at every `&`, the empty pieces are skipped, and each piece gives a key and a
value; `none` when a piece is malformed. -/
def ParseQuery (query : GoString) : Option (List (GoString × GoString)) :=
  parsePairs (Split query 38)

/-- The rational number that a finite float is; `none` for the infinities and not-a-number. -/
def GoFloat.toRat : GoFloat → Option ℚ
  | GoFloat.fin neg mant exp => some ((if neg then -1 else 1) * (mant : ℚ) * (2 : ℚ) ^ exp)
  | _ => none

/-- The values of `float32` in their normal form: a mantissa of 24 bits at most and an exponent
from -149 to 104; the mantissa has its 24 bits unless the exponent is the least one
(denormals); the zeros have the exponent 0. -/
def GoFloat.isFloat32 : GoFloat → Prop
  | GoFloat.fin _ mant exp =>
    mant < 2 ^ 24 ∧ -149 ≤ exp ∧ exp ≤ 104 ∧ (mant = 0 → exp = 0) ∧
      (mant ≠ 0 → 2 ^ 23 ≤ mant ∨ exp = -149)
  | _ => True

/-- A plain decimal numeral: an optional sign, digits, and an optional point followed by
digits, with one digit at least.  It denotes the number `num / 10 ^ scale`, negated when `neg`
(after the sign `-`). -/
def IsDecimalNumeral (text : GoString) (neg : Bool) (num scale : Nat) : Prop :=
  ∃ sign whole frac : GoString,
    (sign = [] ∨ sign = [43] ∨ sign = [45]) ∧ neg = decide (sign = [45]) ∧
    (∀ c ∈ whole, 48 ≤ c ∧ c ≤ 57) ∧ (∀ c ∈ frac, 48 ≤ c ∧ c ≤ 57) ∧ whole ++ frac ≠ [] ∧
    (text = sign ++ whole ++ 46 :: frac ∨ (frac = [] ∧ text = sign ++ whole)) ∧
    num = digitsValue (whole ++ frac) ∧ scale = frac.length

/-! ## Examples to evaluate the client on -/

/-- A transport that answers every request with the same response. -/
def constDoer (resp : Response) : doer :=
  fun _ => Except.ok resp

/-- A `net/http` whose default client answers with the given response, and a `net/url` that
accepts every URL. -/
def exampleNet (resp : Response) : Net :=
  { DefaultClient := constDoer resp, parseError := fun _ => none }

/-- The response with a status code and a body that is read without error. -/
def exampleResponse (status : Int) (body : String) : Response :=
  { StatusCode := status, Body := Except.ok (str body) }

/-- The client of the tests. -/
def exampleClient (resp : Response) : Client :=
  NewClient (exampleNet resp) (str "http://127.0.0.1") (str "Username") (str "Password")
    (str "SenderID")

/-- The input of the tests, with no language type. -/
def exampleInput : SendSMSInput :=
  { LanguageType := [], Message := str "Hello World",
    MobileNo := [str "60123456789", str "60129876543"] }

/-- A transport that fails on every request with the same error and no response. -/
def failDoer (e : GoError) : doer :=
  fun _ => Except.error ⟨none, e⟩

/-- A transport that returns on every request the same error beside the same response. -/
def failDoerWith (resp : Response) (e : GoError) : doer :=
  fun _ => Except.error ⟨some resp, e⟩

/-- A client whose transport fails with the given error. -/
def failingClient (e : GoError) : Client :=
  NewClientWithHTTP (exampleNet (exampleResponse 200 "")) (str "http://127.0.0.1")
    (str "Username") (str "Password") (str "SenderID") (failDoer e)

/-- A client whose transport returns the given error beside the given response. -/
def failingClientWith (resp : Response) (e : GoError) : Client :=
  NewClientWithHTTP (exampleNet (exampleResponse 200 "")) (str "http://127.0.0.1")
    (str "Username") (str "Password") (str "SenderID") (failDoerWith resp e)

/-! ## Lemmas on the standard library -/


theorem foldl_digits_ge (ds : GoString) (n : Nat) :
    n ≤ ds.foldl (fun n c => n * 10 + (c - 48)) n := by
  induction ds generalizing n with
  | nil => simp
  | cons c rest ih =>
    simp only [List.foldl_cons]
    exact le_trans (by omega) (ih (n * 10 + (c - 48)))

theorem foldl_digits_lt (ds : GoString) (n : Nat) (h : allDigits ds = true) :
    ds.foldl (fun n c => n * 10 + (c - 48)) n < (n + 1) * 10 ^ ds.length := by
  induction ds generalizing n with
  | nil => simp
  | cons c rest ih =>
    simp only [allDigits, List.all_cons, Bool.and_eq_true, decide_eq_true_eq] at h
    have hr : allDigits rest = true := by simpa [allDigits] using h.2
    simp only [List.foldl_cons, List.length_cons]
    have := ih (n * 10 + (c - 48)) hr
    have h2 : (n * 10 + (c - 48) + 1) * 10 ^ rest.length ≤ (n + 1) * 10 ^ (rest.length + 1) := by
      rw [pow_succ, ← mul_assoc, mul_comm ((n+1) * 10 ^ rest.length) 10, ← mul_assoc]
      apply Nat.mul_le_mul_right
      omega
    omega

theorem atoiLoop_eq (ds : GoString) (n : Nat) :
    atoiLoop ds (n : Int) =
      if allDigits ds = true then
        some ((ds.foldl (fun n c => n * 10 + (c - 48)) n : Nat) : Int)
      else none := by
  induction ds generalizing n with
  | nil => simp [atoiLoop, allDigits]
  | cons c rest ih =>
    simp only [atoiLoop, allDigits, List.all_cons, List.foldl_cons]
    by_cases hc : c < 48 ∨ 57 < c
    · have : ¬ (48 ≤ c ∧ c ≤ 57) := by omega
      simp [hc, this]
    · have hd : 48 ≤ c ∧ c ≤ 57 := by omega
      have hcast : (n : Int) * 10 + ((c - 48 : Nat) : Int) = ((n * 10 + (c - 48) : Nat) : Int) := by
        push_cast; ring
      rw [if_neg hc, hcast, ih]
      simp [allDigits, hd]

theorem parseUintLoop_eq (ds : GoString) (n : Nat) (hn : n < 2 ^ 64) :
    parseUintLoop ds n =
      if allDigits ds = true ∧ ds.foldl (fun n c => n * 10 + (c - 48)) n < 2 ^ 64 then
        some (ds.foldl (fun n c => n * 10 + (c - 48)) n)
      else none := by
  induction ds generalizing n with
  | nil =>
    simp only [parseUintLoop, List.foldl_nil]
    rw [if_pos ⟨by simp [allDigits], hn⟩]
  | cons c rest ih =>
    have hall : allDigits (c :: rest) = true ↔ (48 ≤ c ∧ c ≤ 57) ∧ allDigits rest = true := by
      simp [allDigits]
    simp only [parseUintLoop, List.foldl_cons, hall]
    by_cases hc : c < 48 ∨ 57 < c
    · rw [if_pos hc, if_neg (fun h => by omega)]
    · have hd : 48 ≤ c ∧ c ≤ 57 := by omega
      have hge := foldl_digits_ge rest (n * 10 + (c - 48))
      rw [if_neg hc]
      by_cases hcut : n ≥ (2 ^ 64 - 1) / 10 + 1
      · rw [if_pos hcut, if_neg]
        intro h
        norm_num at hcut h; omega
      · rw [if_neg hcut]
        by_cases hov : n * 10 + (c - 48) < 2 ^ 64
        · have hmod : (n * 10 + (c - 48)) % 2 ^ 64 = n * 10 + (c - 48) := Nat.mod_eq_of_lt hov
          simp only [hmod]
          rw [if_neg (by omega), ih _ hov]
          simp only [hd, and_self, true_and]
        · have hlt : (n * 10 + (c - 48)) % 2 ^ 64 < n * 10 := by
            norm_num at hcut hov ⊢; omega
          rw [if_pos hlt, if_neg]
          intro h
          omega

theorem toInt64_of_lt (u : Nat) (h : u < 2 ^ 63) : toInt64 (u : Int) = u := by
  unfold toInt64
  norm_num at h ⊢
  omega

theorem toInt64_neg (u : Nat) (h : u ≤ 2 ^ 63) : toInt64 (-(toInt64 (u : Int))) = -(u : Int) := by
  unfold toInt64
  norm_num at h ⊢
  omega

theorem ParseUint_eq (ds : GoString) :
    ParseUint ds =
      if ds ≠ [] ∧ allDigits ds = true ∧ digitsValue ds < 2 ^ 64 then some (digitsValue ds)
      else none := by
  unfold ParseUint digitsValue
  by_cases h : ds = []
  · subst h; simp
  · have : ds.length ≠ 0 := by simpa using h
    rw [if_neg this, parseUintLoop_eq _ _ (by norm_num)]
    simp only [ne_eq, h, not_false_eq_true, true_and]

theorem inIntRange_ofNat (u : Nat) : inIntRange (u : Int) ↔ u < 2 ^ 63 := by
  unfold inIntRange
  norm_num
  omega

theorem inIntRange_neg_ofNat (u : Nat) : inIntRange (-(u : Int)) ↔ u ≤ 2 ^ 63 := by
  unfold inIntRange
  norm_num
  omega


theorem ParseInt_core (neg : Bool) (ds : GoString) :
    (match ParseUint ds with
      | none => none
      | some un =>
        if ¬ neg ∧ un ≥ 2 ^ 63 then none
        else if neg ∧ un > 2 ^ 63 then none
        else
          let n := toInt64 un
          some (if neg then toInt64 (-n) else n)) =
      if ds ≠ [] ∧ allDigits ds = true then
        if inIntRange (if neg then -(digitsValue ds : Int) else (digitsValue ds : Int)) then
          some (if neg then -(digitsValue ds : Int) else (digitsValue ds : Int))
        else none
      else none := by
  rw [ParseUint_eq]
  by_cases hd : ds ≠ [] ∧ allDigits ds = true
  · rw [if_pos hd]
    cases neg with
    | false =>
      simp only [Bool.false_eq_true, if_false, not_false_eq_true, true_and, false_and]
      by_cases hr : digitsValue ds < 2 ^ 63
      · have h64 : digitsValue ds < 2 ^ 64 := lt_trans hr (by norm_num)
        rw [if_pos ⟨hd.1, hd.2, h64⟩, if_pos ((inIntRange_ofNat _).2 hr)]
        show (if digitsValue ds ≥ 2 ^ 63 then none else some (toInt64 (digitsValue ds))) = _
        rw [if_neg (by omega), toInt64_of_lt _ hr]
      · rw [if_neg (fun h => hr ((inIntRange_ofNat _).1 h))]
        by_cases h64 : digitsValue ds < 2 ^ 64
        · rw [if_pos ⟨hd.1, hd.2, h64⟩]
          show (if digitsValue ds ≥ 2 ^ 63 then none else some (toInt64 (digitsValue ds))) = _
          rw [if_pos (by omega)]
        · rw [if_neg (fun h => h64 h.2.2)]
    | true =>
      simp only [if_true, not_true_eq_false, true_and, false_and, if_false]
      by_cases hr : digitsValue ds ≤ 2 ^ 63
      · have h64 : digitsValue ds < 2 ^ 64 := lt_of_le_of_lt hr (by norm_num)
        rw [if_pos ⟨hd.1, hd.2, h64⟩, if_pos ((inIntRange_neg_ofNat _).2 hr)]
        show (if digitsValue ds > 2 ^ 63 then none
          else some (toInt64 (-toInt64 (digitsValue ds)))) = _
        rw [if_neg (by omega), toInt64_neg _ hr]
      · rw [if_neg (fun h => hr ((inIntRange_neg_ofNat _).1 h))]
        by_cases h64 : digitsValue ds < 2 ^ 64
        · rw [if_pos ⟨hd.1, hd.2, h64⟩]
          show (if digitsValue ds > 2 ^ 63 then none
            else some (toInt64 (-toInt64 (digitsValue ds)))) = _
          rw [if_pos (by omega)]
        · rw [if_neg (fun h => h64 h.2.2)]
  · rw [if_neg hd, if_neg (fun h => hd ⟨h.1, h.2.1⟩)]

theorem decimalInteger_cons (c : Nat) (rest : GoString) :
    decimalInteger (c :: rest) =
      if c = 43 then
        if rest ≠ [] ∧ allDigits rest = true then some (digitsValue rest : Int) else none
      else if c = 45 then
        if rest ≠ [] ∧ allDigits rest = true then some (-(digitsValue rest : Int)) else none
      else if allDigits (c :: rest) = true then some (digitsValue (c :: rest) : Int) else none :=
  rfl

theorem ParseInt_eq (s : GoString) : ParseInt s = goInt s := by
  cases s with
  | nil => rfl
  | cons s0 rest =>
    unfold goInt
    rw [decimalInteger_cons]
    by_cases h43 : s0 = 43
    · subst h43
      refine (ParseInt_core false rest).trans ?_
      rw [if_pos (rfl : (43 : Nat) = 43)]
      by_cases hd : rest ≠ [] ∧ allDigits rest = true
      · rw [if_pos hd, if_pos hd, Option.some_bind]; rfl
      · rw [if_neg hd, if_neg hd, Option.none_bind]
    · by_cases h45 : s0 = 45
      · subst h45
        refine (ParseInt_core true rest).trans ?_
        rw [if_neg h43, if_pos (rfl : (45 : Nat) = 45)]
        by_cases hd : rest ≠ [] ∧ allDigits rest = true
        · rw [if_pos hd, if_pos hd, Option.some_bind]; rfl
        · rw [if_neg hd, if_neg hd, Option.none_bind]
      · have hds : (if s0 = 43 ∨ s0 = 45 then rest else s0 :: rest) = s0 :: rest :=
          if_neg (by omega)
        have hneg : decide (s0 = 45) = false := decide_eq_false h45
        unfold ParseInt
        simp only [hds, hneg]
        refine (ParseInt_core false (s0 :: rest)).trans ?_
        rw [if_neg h43, if_neg h45]
        by_cases hd : allDigits (s0 :: rest) = true
        · rw [if_pos ⟨by simp, hd⟩, if_pos hd, Option.some_bind]; rfl
        · rw [if_neg (fun h => hd h.2), if_neg hd, Option.none_bind]

theorem digitsValue_lt (ds : GoString) (h : allDigits ds = true) :
    digitsValue ds < 10 ^ ds.length := by
  have := foldl_digits_lt ds 0 h
  simpa [digitsValue] using this

/-- The function `strconv.Atoi` gives the Go integer that the string denotes in decimal, and
fails on every other string. -/
theorem Atoi_eq (s : GoString) : Atoi s = goInt s := by
  unfold Atoi
  by_cases hlen : 0 < s.length ∧ s.length < 19
  · rw [if_pos hlen]
    cases s with
    | nil => simp at hlen
    | cons s0 rest =>
      unfold goInt
      rw [decimalInteger_cons]
      have hpow : ∀ ds : GoString, allDigits ds = true → ds.length < 19 →
          digitsValue ds < 2 ^ 63 := by
        intro ds hds hl
        have h1 := digitsValue_lt ds hds
        have h2 : 10 ^ ds.length ≤ 10 ^ 18 := Nat.pow_le_pow_right (by norm_num) (by omega)
        have h3 : (10 : Nat) ^ 18 < 2 ^ 63 := by norm_num
        omega
      simp only [List.length_cons] at hlen
      by_cases h43 : s0 = 43
      · subst h43
        simp only [or_true, if_true, true_and]
        by_cases hr : rest = []
        · subst hr; simp
        · have hl : ¬ rest.length < 1 := by
            have : rest.length ≠ 0 := by simpa using hr
            omega
          rw [if_neg hl]
          have := atoiLoop_eq rest 0
          simp only [Nat.cast_zero] at this
          rw [this]
          by_cases hd : allDigits rest = true
          · rw [if_pos hd, if_pos ⟨hr, hd⟩, Option.some_bind,
              if_pos ((inIntRange_ofNat _).2 (hpow rest hd (by omega)))]
            simp [digitsValue]
          · rw [if_neg hd, if_neg (fun h => hd h.2), Option.none_bind]
      · by_cases h45 : s0 = 45
        · subst h45
          simp only [true_or, if_true, true_and, if_neg h43]
          by_cases hr : rest = []
          · subst hr; simp
          · have hl : ¬ rest.length < 1 := by
              have : rest.length ≠ 0 := by simpa using hr
              omega
            rw [if_neg hl]
            have := atoiLoop_eq rest 0
            simp only [Nat.cast_zero] at this
            rw [this]
            by_cases hd : allDigits rest = true
            · rw [if_pos hd, if_pos ⟨hr, hd⟩, Option.some_bind,
                if_pos ((inIntRange_neg_ofNat _).2 (le_of_lt (hpow rest hd (by omega))))]
              simp [digitsValue]
            · rw [if_neg hd, if_neg (fun h => hd h.2), Option.none_bind]
        · have hs : ¬ (s0 = 45 ∨ s0 = 43) := by omega
          simp only [hs, if_false, false_and, if_neg h43, if_neg h45]
          have := atoiLoop_eq (s0 :: rest) 0
          simp only [Nat.cast_zero] at this
          rw [this]
          by_cases hd : allDigits (s0 :: rest) = true
          · rw [if_pos hd, if_pos hd, Option.some_bind,
              if_pos ((inIntRange_ofNat _).2 (hpow (s0 :: rest) hd (by simp; omega)))]
            simp [digitsValue]
          · rw [if_neg hd, if_neg hd, Option.none_bind]
  · rw [if_neg hlen]
    exact ParseInt_eq s


theorem DecodeRuneInString_EncodeRune (r : Nat) (t : GoString) (hr : isScalar r) :
    DecodeRuneInString (EncodeRune r ++ t) = (r, (EncodeRune r).length) := by
  unfold isScalar at hr
  unfold EncodeRune MaxRune
  by_cases h1 : r ≤ 0x7F
  · rw [if_pos h1]
    simp only [List.singleton_append, DecodeRuneInString, List.length_singleton]
    rw [if_pos (by omega)]
  · rw [if_neg h1]
    by_cases h2 : r ≤ 0x7FF
    · rw [if_pos h2]
      have hf : firstInfo (0xC0 + r / 64) = some (2, 0x80, 0xBF) := by
        unfold firstInfo
        rw [if_pos (by omega)]
      simp only [List.cons_append, List.nil_append, DecodeRuneInString, hf, List.length_cons,
        List.length_nil]
      rw [if_neg (by omega), if_neg (by omega), if_neg (by omega), if_pos (by omega)]
      congr 1
      omega
    · rw [if_neg h2, if_neg (by omega)]
      by_cases h3 : r ≤ 0xFFFF
      · rw [if_pos h3]
        have hf : ∃ lo hi, firstInfo (0xE0 + r / 4096) = some (3, lo, hi) ∧
            lo ≤ 0x80 + r / 64 % 64 ∧ 0x80 + r / 64 % 64 ≤ hi := by
          unfold firstInfo
          rw [if_neg (by omega)]
          by_cases c1 : 0xE0 + r / 4096 = 0xE0
          · rw [if_pos c1]; exact ⟨_, _, rfl, by omega, by omega⟩
          · rw [if_neg c1]
            by_cases c2 : 0xE1 ≤ 0xE0 + r / 4096 ∧ 0xE0 + r / 4096 ≤ 0xEC
            · rw [if_pos c2]; exact ⟨_, _, rfl, by omega, by omega⟩
            · rw [if_neg c2]
              by_cases c3 : 0xE0 + r / 4096 = 0xED
              · rw [if_pos c3]; exact ⟨_, _, rfl, by omega, by omega⟩
              · rw [if_neg c3, if_pos (by omega)]; exact ⟨_, _, rfl, by omega, by omega⟩
        obtain ⟨lo, hi, hf, hlo, hhi⟩ := hf
        simp only [List.cons_append, List.nil_append, DecodeRuneInString, hf, List.length_cons,
          List.length_nil]
        rw [if_neg (by omega), if_neg (by omega), if_neg (by omega), if_neg (by omega),
          if_neg (by omega), if_pos (by omega)]
        congr 1
        omega
      · rw [if_neg h3]
        have hf : ∃ lo hi, firstInfo (0xF0 + r / 262144) = some (4, lo, hi) ∧
            lo ≤ 0x80 + r / 4096 % 64 ∧ 0x80 + r / 4096 % 64 ≤ hi := by
          unfold firstInfo
          rw [if_neg (by omega), if_neg (by omega), if_neg (by omega), if_neg (by omega),
            if_neg (by omega)]
          by_cases c1 : 0xF0 + r / 262144 = 0xF0
          · rw [if_pos c1]; exact ⟨_, _, rfl, by omega, by omega⟩
          · rw [if_neg c1]
            by_cases c2 : 0xF1 ≤ 0xF0 + r / 262144 ∧ 0xF0 + r / 262144 ≤ 0xF3
            · rw [if_pos c2]; exact ⟨_, _, rfl, by omega, by omega⟩
            · rw [if_neg c2, if_pos (by omega)]; exact ⟨_, _, rfl, by omega, by omega⟩
        obtain ⟨lo, hi, hf, hlo, hhi⟩ := hf
        simp only [List.cons_append, List.nil_append, DecodeRuneInString, hf, List.length_cons,
          List.length_nil]
        rw [if_neg (by omega), if_neg (by omega), if_neg (by omega), if_neg (by omega),
          if_neg (by omega), if_neg (by omega), if_neg (by omega)]
        congr 1
        omega

/-- The shapes of the encoding of a scalar value. -/
theorem EncodeRune_shape (r : Nat) (hr : isScalar r) :
    (r < 0x80 ∧ EncodeRune r = [r]) ∨
    (∃ a b, EncodeRune r = [a, b] ∧ 0xC2 ≤ a ∧ a ≤ 0xDF ∧ 0x80 ≤ b ∧ b ≤ 0xBF ∧ 0x80 ≤ r) ∨
    (∃ a b c, EncodeRune r = [a, b, c] ∧ 0xE0 ≤ a ∧ a ≤ 0xEF ∧ 0x80 ≤ b ∧ b ≤ 0xBF ∧
      0x80 ≤ c ∧ c ≤ 0xBF ∧ 0x800 ≤ r) ∨
    (∃ a b c d, EncodeRune r = [a, b, c, d] ∧ 0xF0 ≤ a ∧ a ≤ 0xF4 ∧ 0x80 ≤ b ∧ b ≤ 0xBF ∧
      0x80 ≤ c ∧ c ≤ 0xBF ∧ 0x80 ≤ d ∧ d ≤ 0xBF ∧ 0x10000 ≤ r) := by
  unfold isScalar at hr
  unfold EncodeRune MaxRune
  by_cases h1 : r ≤ 0x7F
  · rw [if_pos h1]; exact Or.inl ⟨by omega, rfl⟩
  · rw [if_neg h1]
    by_cases h2 : r ≤ 0x7FF
    · rw [if_pos h2]
      exact Or.inr (Or.inl ⟨_, _, rfl, by omega, by omega, by omega, by omega, by omega⟩)
    · rw [if_neg h2, if_neg (by omega)]
      by_cases h3 : r ≤ 0xFFFF
      · rw [if_pos h3]
        exact Or.inr (Or.inr (Or.inl ⟨_, _, _, rfl, by omega, by omega, by omega, by omega,
          by omega, by omega, by omega⟩))
      · rw [if_neg h3]
        exact Or.inr (Or.inr (Or.inr ⟨_, _, _, _, rfl, by omega, by omega, by omega, by omega,
          by omega, by omega, by omega, by omega, by omega⟩))

theorem RuneStart_cont (b : Nat) (h1 : 0x80 ≤ b) (h2 : b ≤ 0xBF) : RuneStart b = false := by
  simp [RuneStart, h1, h2]

theorem RuneStart_lead (b : Nat) (h : 0xC0 ≤ b) : RuneStart b = true := by
  have : ¬ b ≤ 0xBF := by omega
  simp [RuneStart, this]

theorem DecodeLastRuneInString_EncodeRune (r : Nat) (t : GoString) (hr : isScalar r) :
    DecodeLastRuneInString (t ++ EncodeRune r) = (r, (EncodeRune r).length) := by
  have hdec := DecodeRuneInString_EncodeRune r [] hr
  rw [List.append_nil] at hdec
  rcases EncodeRune_shape r hr with ⟨h, he⟩ | ⟨a, b, he, ha1, ha2, hb1, hb2, _⟩ |
    ⟨a, b, c, he, ha1, ha2, hb1, hb2, hc1, hc2, _⟩ |
    ⟨a, b, c, d, he, ha1, ha2, hb1, hb2, hc1, hc2, hd1, hd2, _⟩
  · rw [he]
    simp only [DecodeLastRuneInString, List.reverse_append, List.reverse_cons, List.reverse_nil,
      List.nil_append, List.singleton_append, List.length_singleton]
    rw [if_pos h]
  · rw [he] at hdec ⊢
    simp only [DecodeLastRuneInString, List.reverse_append, List.reverse_cons, List.reverse_nil,
      List.nil_append, List.singleton_append, List.cons_append, scanBack,
      RuneStart_lead a (by omega), if_true, List.length_append, List.length_cons,
      List.length_nil]
    rw [if_neg (by omega)]
    have : (t ++ [a, b]).drop (t.length + (0 + 1 + 1) - (1 + 1)) = [a, b] := by
      rw [show t.length + (0 + 1 + 1) - (1 + 1) = t.length from by omega]
      simp
    rw [this, hdec]
    simp
  · rw [he] at hdec ⊢
    simp only [DecodeLastRuneInString, List.reverse_append, List.reverse_cons, List.reverse_nil,
      List.nil_append, List.singleton_append, List.cons_append, scanBack,
      RuneStart_lead a (by omega), RuneStart_cont b hb1 hb2, if_true, List.length_append,
      List.length_cons, List.length_nil]
    rw [if_neg (by omega)]
    have : (t ++ [a, b, c]).drop (t.length + (0 + 1 + 1 + 1) - (1 + 1 + 1)) = [a, b, c] := by
      rw [show t.length + (0 + 1 + 1 + 1) - (1 + 1 + 1) = t.length from by omega]
      simp
    simp only [Bool.false_eq_true, if_false]
    rw [this, hdec]
    simp
  · rw [he] at hdec ⊢
    simp only [DecodeLastRuneInString, List.reverse_append, List.reverse_cons, List.reverse_nil,
      List.nil_append, List.singleton_append, List.cons_append, scanBack,
      RuneStart_lead a (by omega), RuneStart_cont b hb1 hb2, RuneStart_cont c hc1 hc2, if_true,
      List.length_append, List.length_cons, List.length_nil]
    rw [if_neg (by omega)]
    have : (t ++ [a, b, c, d]).drop (t.length + (0 + 1 + 1 + 1 + 1) - (1 + (1 + 1) + 1))
        = [a, b, c, d] := by
      rw [show t.length + (0 + 1 + 1 + 1 + 1) - (1 + (1 + 1) + 1) = t.length from by omega]
      simp
    simp only [Bool.false_eq_true, if_false]
    rw [this, hdec]
    simp

theorem IsSpace_isScalar (r : Nat) (h : IsSpace r = true) : isScalar r := by
  unfold isScalar
  simp only [IsSpace, Bool.or_eq_true, decide_eq_true_eq, Bool.and_eq_true] at h
  omega

theorem EncodeRune_length_pos (r : Nat) : 0 < (EncodeRune r).length := by
  unfold EncodeRune
  split_ifs <;> simp

theorem encodeRunes_cons (r : Nat) (rs : List Nat) :
    encodeRunes (r :: rs) = EncodeRune r ++ encodeRunes rs := by
  simp [encodeRunes]

theorem encodeRunes_append (rs ss : List Nat) :
    encodeRunes (rs ++ ss) = encodeRunes rs ++ encodeRunes ss := by
  simp [encodeRunes]

theorem encodeRunes_length (rs : List Nat) : rs.length ≤ (encodeRunes rs).length := by
  induction rs with
  | nil => simp [encodeRunes]
  | cons r rs ih =>
    rw [encodeRunes_cons, List.length_append, List.length_cons]
    have := EncodeRune_length_pos r
    omega

theorem trimLeftSpace_padded (pre : List Nat) (c : Nat) (rest : GoString) (fuel : Nat)
    (hpre : ∀ r ∈ pre, IsSpace r = true) (hc : c < 0x80) (hns : IsSpace c = false)
    (hfuel : pre.length ≤ fuel) :
    trimLeftSpace fuel (encodeRunes pre ++ c :: rest) = c :: rest := by
  induction pre generalizing fuel with
  | nil =>
    cases fuel with
    | zero => rfl
    | succ f =>
      simp only [encodeRunes, List.flatMap_nil, List.nil_append, trimLeftSpace, List.length_cons]
      rw [if_neg (by omega)]
      simp only [DecodeRuneInString]
      rw [if_pos hc]
      simp [hns]
  | cons r pre ih =>
    cases fuel with
    | zero => simp at hfuel
    | succ f =>
      have hr := hpre r (by simp)
      have hdec := DecodeRuneInString_EncodeRune r (encodeRunes pre ++ c :: rest)
        (IsSpace_isScalar r hr)
      rw [encodeRunes_cons, List.append_assoc]
      unfold trimLeftSpace
      rw [if_neg (by simp)]
      simp only [hdec, hr, if_true, List.drop_left]
      exact ih f (fun x hx => hpre x (by simp [hx])) (by simpa using hfuel)

theorem trimRightSpace_padded (post : List Nat) (init : GoString) (c : Nat) (fuel : Nat)
    (hpost : ∀ r ∈ post, IsSpace r = true) (hc : c < 0x80) (hns : IsSpace c = false)
    (hfuel : post.length ≤ fuel) :
    trimRightSpace fuel ((init ++ [c]) ++ encodeRunes post) = init ++ [c] := by
  induction post using List.reverseRecOn generalizing fuel with
  | nil =>
    cases fuel with
    | zero => simp [encodeRunes, trimRightSpace]
    | succ f =>
      simp only [encodeRunes, List.flatMap_nil, List.append_nil, trimRightSpace]
      rw [if_neg (by simp)]
      have : DecodeLastRuneInString (init ++ [c]) = (c, 1) := by
        simp only [DecodeLastRuneInString, List.reverse_append, List.reverse_cons,
          List.reverse_nil, List.nil_append, List.singleton_append]
        rw [if_pos hc]
      simp [this, hns]
  | append_singleton post r ih =>
    cases fuel with
    | zero => simp at hfuel
    | succ f =>
      have hr := hpost r (by simp)
      have hdec := DecodeLastRuneInString_EncodeRune r ((init ++ [c]) ++ encodeRunes post)
        (IsSpace_isScalar r hr)
      rw [encodeRunes_append, ← List.append_assoc]
      have he : encodeRunes [r] = EncodeRune r := by simp [encodeRunes]
      rw [he]
      unfold trimRightSpace
      rw [if_neg (by simp)]
      simp only [hdec, hr, if_true]
      rw [show (init ++ [c] ++ encodeRunes post ++ EncodeRune r).length - (EncodeRune r).length
        = (init ++ [c] ++ encodeRunes post).length from by simp; omega, List.take_left]
      exact ih f (fun x hx => hpost x (by simp [hx])) (by simpa using hfuel)

/-- White space around a string that begins and ends with an ASCII byte that is not white
space is what `strings.TrimSpace` removes. -/
theorem TrimSpace_padded (pre post : List Nat) (s mid init : GoString) (a z : Nat)
    (hs1 : s = a :: mid) (hs2 : s = init ++ [z])
    (ha : a < 0x80) (hna : IsSpace a = false) (hz : z < 0x80) (hnz : IsSpace z = false)
    (hpre : ∀ r ∈ pre, IsSpace r = true) (hpost : ∀ r ∈ post, IsSpace r = true) :
    TrimSpace (encodeRunes pre ++ s ++ encodeRunes post) = s := by
  unfold TrimSpace
  have h1 : encodeRunes pre ++ s ++ encodeRunes post
      = encodeRunes pre ++ a :: (mid ++ encodeRunes post) := by
    rw [hs1]; simp
  have hl : trimLeftSpace (encodeRunes pre ++ s ++ encodeRunes post).length
      (encodeRunes pre ++ s ++ encodeRunes post) = (init ++ [z]) ++ encodeRunes post := by
    rw [h1, trimLeftSpace_padded pre a _ _ hpre ha hna, ← hs2, hs1]
    · simp
    · have := encodeRunes_length pre
      simp only [List.length_append]
      omega
  simp only [hl]
  rw [trimRightSpace_padded post init z _ hpost hz hnz, hs2]
  have := encodeRunes_length post
  simp only [List.length_append]
  omega

/-! ### `strings.Split` and `strings.Join` -/

theorem Split_ne_nil (s : GoString) (sep : Nat) : Split s sep ≠ [] := by
  induction s with
  | nil => simp [Split]
  | cons b rest ih =>
    unfold Split
    split_ifs
    · simp
    · split <;> simp

theorem Split_of_not_mem (e : GoString) (sep : Nat) (h : sep ∉ e) : Split e sep = [e] := by
  induction e with
  | nil => rfl
  | cons b rest ih =>
    have hb : b ≠ sep := fun hb => h (by simp [hb])
    have hr : sep ∉ rest := fun hr => h (by simp [hr])
    unfold Split
    rw [if_neg hb, ih hr]

theorem Split_append_sep (e rest : GoString) (sep : Nat) (h : sep ∉ e) :
    Split (e ++ sep :: rest) sep = e :: Split rest sep := by
  induction e with
  | nil =>
    rw [List.nil_append]
    conv_lhs => unfold Split
    rw [if_pos rfl]
  | cons b e ih =>
    have hb : b ≠ sep := fun hb => h (by simp [hb])
    have hr : sep ∉ e := fun hr => h (by simp [hr])
    rw [List.cons_append]
    conv_lhs => unfold Split
    rw [if_neg hb, ih hr]

/-- Splitting at the separator undoes joining with it, when no piece holds the separator. -/
theorem Split_Join (es : List GoString) (sep : Nat) (hne : es ≠ [])
    (h : ∀ e ∈ es, sep ∉ e) : Split (Join es [sep]) sep = es := by
  induction es with
  | nil => exact absurd rfl hne
  | cons e rest ih =>
    cases rest with
    | nil =>
      simp only [Join]
      exact Split_of_not_mem e sep (h e (by simp))
    | cons e2 rest2 =>
      simp only [Join, List.append_assoc, List.singleton_append]
      rw [Split_append_sep e _ sep (h e (by simp))]
      rw [ih (by simp) (fun x hx => h x (by simp [hx]))]

/-! ### Decimal numerals -/

theorem allDigits_iff (ds : GoString) : allDigits ds = true ↔ ∀ b ∈ ds, 48 ≤ b ∧ b ≤ 57 := by
  simp [allDigits]

/-- A decimal numeral is not empty and is made of signs and digits. -/
theorem decimalInteger_bytes (s : GoString) (n : Int) (h : decimalInteger s = some n) :
    s ≠ [] ∧ ∀ b ∈ s, b = 43 ∨ b = 45 ∨ (48 ≤ b ∧ b ≤ 57) := by
  cases s with
  | nil => simp [decimalInteger] at h
  | cons c rest =>
    refine ⟨by simp, ?_⟩
    rw [decimalInteger_cons] at h
    by_cases h43 : c = 43
    · rw [if_pos h43] at h
      by_cases hd : rest ≠ [] ∧ allDigits rest = true
      · intro b hb
        rcases List.mem_cons.1 hb with hb | hb
        · exact Or.inl (hb.trans h43)
        · exact Or.inr (Or.inr ((allDigits_iff rest).1 hd.2 b hb))
      · rw [if_neg hd] at h; cases h
    · rw [if_neg h43] at h
      by_cases h45 : c = 45
      · rw [if_pos h45] at h
        by_cases hd : rest ≠ [] ∧ allDigits rest = true
        · intro b hb
          rcases List.mem_cons.1 hb with hb | hb
          · exact Or.inr (Or.inl (hb.trans h45))
          · exact Or.inr (Or.inr ((allDigits_iff rest).1 hd.2 b hb))
        · rw [if_neg hd] at h; cases h
      · rw [if_neg h45] at h
        by_cases hd : allDigits (c :: rest) = true
        · intro b hb
          exact Or.inr (Or.inr ((allDigits_iff _).1 hd b hb))
        · rw [if_neg hd] at h; cases h

theorem IsSpace_numeral_byte (b : Nat) (h : b = 43 ∨ b = 45 ∨ (48 ≤ b ∧ b ≤ 57)) :
    b < 0x80 ∧ IsSpace b = false := by
  refine ⟨by omega, ?_⟩
  simp only [IsSpace, Bool.or_eq_false_iff, decide_eq_false_iff_not, Bool.and_eq_false_iff]
  omega

/-- White space around a decimal numeral is what `strings.TrimSpace` removes. -/
theorem TrimSpace_numeral (pre post : List Nat) (s : GoString) (n : Int)
    (hs : decimalInteger s = some n)
    (hpre : ∀ r ∈ pre, IsSpace r = true) (hpost : ∀ r ∈ post, IsSpace r = true) :
    TrimSpace (encodeRunes pre ++ s ++ encodeRunes post) = s := by
  obtain ⟨hne, hb⟩ := decimalInteger_bytes s n hs
  obtain ⟨a, mid, hs1⟩ := List.exists_cons_of_ne_nil hne
  have hs2 : s = s.dropLast ++ [s.getLast hne] := (List.dropLast_append_getLast hne).symm
  have ha := IsSpace_numeral_byte a (hb a (by simp [hs1]))
  have hz := IsSpace_numeral_byte (s.getLast hne) (hb _ (List.getLast_mem hne))
  exact TrimSpace_padded pre post s mid s.dropLast a (s.getLast hne) hs1 hs2 ha.1 ha.2 hz.1 hz.2
    hpre hpost

theorem IsSpace_not_comma (r : Nat) (h : IsSpace r = true) : 44 ∉ EncodeRune r := by
  rcases EncodeRune_shape r (IsSpace_isScalar r h) with ⟨_, he⟩ | ⟨a, b, he, _, _, _, _, _⟩ |
    ⟨a, b, c, he, _, _, _, _, _, _, _⟩ | ⟨a, b, c, d, he, _, _, _, _, _, _, _, _, _⟩
  · rw [he]
    intro hm
    have : r = 44 := by simpa using (List.mem_singleton.1 hm).symm
    subst this
    simp [IsSpace] at h
  · rw [he]; simp; omega
  · rw [he]; simp; omega
  · rw [he]; simp; omega

theorem encodeRunes_space_not_comma (rs : List Nat) (h : ∀ r ∈ rs, IsSpace r = true) :
    44 ∉ encodeRunes rs := by
  induction rs with
  | nil => simp [encodeRunes]
  | cons r rs ih =>
    rw [encodeRunes_cons, List.mem_append, not_or]
    exact ⟨IsSpace_not_comma r (h r (by simp)), ih (fun x hx => h x (by simp [hx]))⟩


/-! ## Decoding of the responses -/

theorem parseMTIDs_ok (es : List GoString) (ns acc : List Int)
    (h : List.Forall₂ (fun e n => Atoi (TrimSpace e) = some n) es ns) :
    parseMTIDs es acc = some (acc ++ ns) := by
  induction h generalizing acc with
  | nil => simp [parseMTIDs]
  | cons hen _ ih =>
    simp only [parseMTIDs, hen]
    rw [ih]
    simp

theorem parseMTIDs_bad (es : List GoString) (acc : List Int)
    (h : ∃ e ∈ es, Atoi (TrimSpace e) = none) : parseMTIDs es acc = none := by
  induction es generalizing acc with
  | nil => simp at h
  | cons e rest ih =>
    unfold parseMTIDs
    cases hA : Atoi (TrimSpace e) with
    | none => rfl
    | some n =>
      obtain ⟨x, hx, hxn⟩ := h
      rcases List.mem_cons.1 hx with rfl | hx
      · rw [hA] at hxn; cases hxn
      · exact ih _ ⟨x, hx, hxn⟩

theorem goInt_of_decimalInteger (s : GoString) (n : Int) (h : decimalInteger s = some n)
    (hr : inIntRange n) : goInt s = some n := by
  unfold goInt
  rw [h, Option.some_bind, if_pos hr]

theorem IsPaddedInt_Atoi (e : GoString) (n : Int) (h : IsPaddedInt e n) :
    Atoi (TrimSpace e) = some n := by
  obtain ⟨pre, post, numeral, hpre, hpost, hnum, hrange, rfl⟩ := h
  rw [TrimSpace_numeral pre post numeral n hnum hpre hpost, Atoi_eq]
  exact goInt_of_decimalInteger numeral n hnum hrange

theorem IsPaddedInt_not_comma (e : GoString) (n : Int) (h : IsPaddedInt e n) : 44 ∉ e := by
  obtain ⟨pre, post, numeral, hpre, hpost, hnum, _, rfl⟩ := h
  simp only [List.mem_append, not_or]
  refine ⟨⟨encodeRunes_space_not_comma pre hpre, ?_⟩, encodeRunes_space_not_comma post hpost⟩
  intro hm
  have := (decimalInteger_bytes numeral n hnum).2 44 hm
  omega

theorem str_comma : str "," = [44] := by decide

theorem forall₂_left {α β : Type} {R : α → β → Prop} {l₁ : List α} {l₂ : List β}
    (h : List.Forall₂ R l₁ l₂) : ∀ a ∈ l₁, ∃ b, R a b := by
  induction h with
  | nil => simp
  | cons hab _ ih =>
    intro a ha
    rcases List.mem_cons.1 ha with rfl | ha
    · exact ⟨_, hab⟩
    · exact ih a ha

/-- The loop of `SendSMS` on a body of padded integers gives these integers. -/
theorem parseMTIDs_padded (pieces : List GoString) (ns : List Int)
    (h : List.Forall₂ IsPaddedInt pieces ns) (hne : pieces ≠ []) :
    parseMTIDs (Split (Join pieces (str ",")) 44) [] = some ns := by
  have hc : ∀ e ∈ pieces, 44 ∉ e := by
    intro e he
    obtain ⟨n, hn⟩ := forall₂_left h e he
    exact IsPaddedInt_not_comma e n hn
  rw [str_comma, Split_Join pieces 44 hne hc]
  have := parseMTIDs_ok pieces ns [] (List.Forall₂.imp (fun e n hen => IsPaddedInt_Atoi e n hen) h)
  simpa using this

/-- C1. `SendSMS` on a response with status 200 whose body is a comma-separated list of
integers, each with white space around it or not, the first one positive: no error, and the
output's `MTIDs` is the whole list in the order of the body. -/
theorem SendSMS_success (net : Net) (c : Client) (input : SendSMSInput) (resp : Response)
    (pieces : List GoString) (first : Int) (others : List Int)
    (hresp : getRequest net c (buildSendSMSRequestURL c input).1 = Except.ok resp)
    (hstatus : resp.StatusCode = 200)
    (hbody : resp.Body = Except.ok (Join pieces (str ",")))
    (hpieces : List.Forall₂ IsPaddedInt pieces (first :: others))
    (hfirst : 0 < first) :
    (SendSMS net c input).1.output = some ⟨first :: others⟩ ∧
      (SendSMS net c input).1.err = none := by
  have hne : pieces ≠ [] := by
    rintro rfl
    cases hpieces
  have hparse := parseMTIDs_padded pieces _ hpieces hne
  unfold SendSMS
  simp only [hresp, hstatus, hbody, hparse, ne_eq, not_true_eq_false, if_false, if_pos hfirst,
    and_self]

theorem SendSMS_success_witness :
    ((SendSMS (exampleNet (exampleResponse 200 "145712468,145712469"))
        (exampleClient (exampleResponse 200 "145712468,145712469")) exampleInput).1.output
        = some ⟨[145712468, 145712469]⟩ ∧
      (SendSMS (exampleNet (exampleResponse 200 "145712468,145712469"))
        (exampleClient (exampleResponse 200 "145712468,145712469")) exampleInput).1.err
        = none) ∧
    ((SendSMS (exampleNet (exampleResponse 200 " 145712468 ,145712469\n"))
        (exampleClient (exampleResponse 200 " 145712468 ,145712469\n")) exampleInput).1.output
        = some ⟨[145712468, 145712469]⟩ ∧
      (SendSMS (exampleNet (exampleResponse 200 " 145712468 ,145712469\n"))
        (exampleClient (exampleResponse 200 " 145712468 ,145712469\n")) exampleInput).1.err
        = none) :=
  ⟨SendSMS_success _ _ _ (exampleResponse 200 "145712468,145712469")
      [str "145712468", str "145712469"] 145712468 [145712469] rfl rfl
      (congrArg Except.ok (by decide))
      (List.Forall₂.cons
        ⟨[], [], str "145712468", by decide, by decide, by decide, by decide, by decide⟩
        (List.Forall₂.cons
          ⟨[], [], str "145712469", by decide, by decide, by decide, by decide, by decide⟩
          List.Forall₂.nil))
      (by decide),
    SendSMS_success _ _ _ (exampleResponse 200 " 145712468 ,145712469\n")
      [str " 145712468 ", str "145712469\n"] 145712468 [145712469] rfl rfl
      (congrArg Except.ok (by decide))
      (List.Forall₂.cons
        ⟨[32], [32], str "145712468", by decide, by decide, by decide, by decide, by decide⟩
        (List.Forall₂.cons
          ⟨[], [10], str "145712469", by decide, by decide, by decide, by decide, by decide⟩
          List.Forall₂.nil))
      (by decide)⟩

/-- C2. `SendSMS` on a response with status 200 whose body is a comma-separated list of
integers, the first one `n` not positive: no output, and the gateway error of the code that `n`
stands for, `UnknownError` for every `n` outside the six codes (0 among them), with the fixed
text of the code and the status code of the response. -/
theorem SendSMS_error_code (net : Net) (c : Client) (input : SendSMSInput) (resp : Response)
    (pieces : List GoString) (n : Int) (others : List Int)
    (hresp : getRequest net c (buildSendSMSRequestURL c input).1 = Except.ok resp)
    (hstatus : resp.StatusCode = 200)
    (hbody : resp.Body = Except.ok (Join pieces (str ",")))
    (hpieces : List.Forall₂ IsPaddedInt pieces (n :: others))
    (hn : n ≤ 0) :
    (SendSMS net c input).1.output = none ∧
    (n = -100 → (SendSMS net c input).1.err = some (owerr.New owerr.InvalidCredentials
      (str "apiusername or apipassword is invalid") resp.StatusCode)) ∧
    (n = -200 → (SendSMS net c input).1.err = some (owerr.New owerr.InvalidSenderID
      (str "senderid parameter is invalid") resp.StatusCode)) ∧
    (n = -300 → (SendSMS net c input).1.err = some (owerr.New owerr.InvalidMobileNo
      (str "mobileno parameter is invalid") resp.StatusCode)) ∧
    (n = -400 → (SendSMS net c input).1.err = some (owerr.New owerr.InvalidLanguageType
      (str "languagetype is invalid") resp.StatusCode)) ∧
    (n = -500 → (SendSMS net c input).1.err = some (owerr.New owerr.InvalidMessageCharacters
      (str "characters in message are invalid") resp.StatusCode)) ∧
    (n = -600 → (SendSMS net c input).1.err = some (owerr.New owerr.InsufficientCreditBalance
      (str "insufficient credit balance") resp.StatusCode)) ∧
    (n ≠ -100 → n ≠ -200 → n ≠ -300 → n ≠ -400 → n ≠ -500 → n ≠ -600 →
      (SendSMS net c input).1.err = some (owerr.New owerr.UnknownError
        (str "unknown error") resp.StatusCode)) := by
  have hne : pieces ≠ [] := by
    rintro rfl
    cases hpieces
  have hparse := parseMTIDs_padded pieces _ hpieces hne
  have hpos : ¬ n > 0 := by omega
  unfold SendSMS
  simp only [hresp, hbody, hparse, ne_eq, hstatus, not_true_eq_false, if_false, if_neg hpos]
  refine ⟨?_, ?_, ?_, ?_, ?_, ?_, ?_, ?_⟩
  · split_ifs <;> rfl
  · rintro rfl; rfl
  · rintro rfl; rfl
  · rintro rfl; rfl
  · rintro rfl; rfl
  · rintro rfl; rfl
  · rintro rfl; rfl
  · intro h1 h2 h3 h4 h5 h6
    rw [if_neg h1, if_neg h2, if_neg h3, if_neg h4, if_neg h5, if_neg h6]

theorem SendSMS_error_code_witness :
    (SendSMS (exampleNet (exampleResponse 200 "-100\n"))
        (exampleClient (exampleResponse 200 "-100\n")) exampleInput).1.output = none ∧
      (SendSMS (exampleNet (exampleResponse 200 "-100\n"))
        (exampleClient (exampleResponse 200 "-100\n")) exampleInput).1.err
        = some (owerr.New owerr.InvalidCredentials
            (str "apiusername or apipassword is invalid") 200) :=
  have h := SendSMS_error_code (exampleNet (exampleResponse 200 "-100\n"))
    (exampleClient (exampleResponse 200 "-100\n")) exampleInput
    (exampleResponse 200 "-100\n") [str "-100\n"] (-100) [] rfl rfl
    (congrArg Except.ok (by decide))
    (List.Forall₂.cons
      ⟨[], [10], str "-100", by decide, by decide, by decide, by decide, by decide⟩
      List.Forall₂.nil)
    (by decide)
  ⟨h.1, h.2.1 rfl⟩

/-- C3. `SendSMS` on a response whose status is not 200, whatever its body: no output, and
the gateway error `RequestFailure`, "request failure", with the status code of the response. -/
theorem SendSMS_request_failure (net : Net) (c : Client) (input : SendSMSInput)
    (resp : Response)
    (hresp : getRequest net c (buildSendSMSRequestURL c input).1 = Except.ok resp)
    (hstatus : resp.StatusCode ≠ 200) :
    (SendSMS net c input).1.output = none ∧
      (SendSMS net c input).1.err =
        some (owerr.New owerr.RequestFailure (str "request failure") resp.StatusCode) := by
  unfold SendSMS
  simp only [hresp, ne_eq, hstatus, not_false_eq_true, if_true, and_self]

theorem SendSMS_request_failure_witness :
    (SendSMS (exampleNet (exampleResponse 500 "145712468"))
        (exampleClient (exampleResponse 500 "145712468")) exampleInput).1.output = none ∧
      (SendSMS (exampleNet (exampleResponse 500 "145712468"))
        (exampleClient (exampleResponse 500 "145712468")) exampleInput).1.err =
        some (owerr.New owerr.RequestFailure (str "request failure") 500) :=
  SendSMS_request_failure (exampleNet (exampleResponse 500 "145712468"))
    (exampleClient (exampleResponse 500 "145712468")) exampleInput
    (exampleResponse 500 "145712468") rfl (by decide)

/-- C4. `SendSMS` on a response with status 200 in whose body one piece between the commas, its
white space trimmed, is not the decimal numeral of a Go integer: no output, and the gateway
error `UnknownError`, "unknown error", with the status code of the response. -/
theorem SendSMS_parse_failure (net : Net) (c : Client) (input : SendSMSInput)
    (resp : Response) (pieces : List GoString)
    (hresp : getRequest net c (buildSendSMSRequestURL c input).1 = Except.ok resp)
    (hstatus : resp.StatusCode = 200)
    (hbody : resp.Body = Except.ok (Join pieces (str ",")))
    (hcomma : ∀ e ∈ pieces, 44 ∉ e)
    (hbad : ∃ e ∈ pieces, goInt (TrimSpace e) = none) :
    (SendSMS net c input).1.output = none ∧
      (SendSMS net c input).1.err =
        some (owerr.New owerr.UnknownError (str "unknown error") resp.StatusCode) := by
  have hne : pieces ≠ [] := by
    rintro rfl
    simp at hbad
  have hparse : parseMTIDs (Split (Join pieces (str ",")) 44) [] = none := by
    rw [str_comma, Split_Join pieces 44 hne hcomma]
    apply parseMTIDs_bad
    obtain ⟨e, he, hg⟩ := hbad
    exact ⟨e, he, by rw [Atoi_eq]; exact hg⟩
  unfold SendSMS
  simp only [hresp, hstatus, hbody, hparse, ne_eq, not_true_eq_false, if_false, and_self]

theorem SendSMS_parse_failure_witness :
    ((SendSMS (exampleNet (exampleResponse 200 "-100,abc"))
        (exampleClient (exampleResponse 200 "-100,abc")) exampleInput).1.output = none ∧
      (SendSMS (exampleNet (exampleResponse 200 "-100,abc"))
        (exampleClient (exampleResponse 200 "-100,abc")) exampleInput).1.err =
        some (owerr.New owerr.UnknownError (str "unknown error") 200)) ∧
    ((SendSMS (exampleNet (exampleResponse 200 ""))
        (exampleClient (exampleResponse 200 "")) exampleInput).1.output = none ∧
      (SendSMS (exampleNet (exampleResponse 200 ""))
        (exampleClient (exampleResponse 200 "")) exampleInput).1.err =
        some (owerr.New owerr.UnknownError (str "unknown error") 200)) ∧
    ((SendSMS (exampleNet (exampleResponse 200 "123,"))
        (exampleClient (exampleResponse 200 "123,")) exampleInput).1.output = none ∧
      (SendSMS (exampleNet (exampleResponse 200 "123,"))
        (exampleClient (exampleResponse 200 "123,")) exampleInput).1.err =
        some (owerr.New owerr.UnknownError (str "unknown error") 200)) ∧
    ((SendSMS (exampleNet (exampleResponse 200 "123,abc"))
        (exampleClient (exampleResponse 200 "123,abc")) exampleInput).1.output = none ∧
      (SendSMS (exampleNet (exampleResponse 200 "123,abc"))
        (exampleClient (exampleResponse 200 "123,abc")) exampleInput).1.err =
        some (owerr.New owerr.UnknownError (str "unknown error") 200)) :=
  ⟨SendSMS_parse_failure _ _ _ (exampleResponse 200 "-100,abc") [str "-100", str "abc"]
      rfl rfl (congrArg Except.ok (by decide)) (by decide) ⟨str "abc", by decide, by decide⟩,
    SendSMS_parse_failure _ _ _ (exampleResponse 200 "") [[]]
      rfl rfl (congrArg Except.ok (by decide)) (by decide) ⟨[], by decide, by decide⟩,
    SendSMS_parse_failure _ _ _ (exampleResponse 200 "123,") [str "123", []]
      rfl rfl (congrArg Except.ok (by decide)) (by decide) ⟨[], by decide, by decide⟩,
    SendSMS_parse_failure _ _ _ (exampleResponse 200 "123,abc") [str "123", str "abc"]
      rfl rfl (congrArg Except.ok (by decide)) (by decide) ⟨str "abc", by decide, by decide⟩⟩

/-- C9. `CheckTransactionStatus` on a response with status `s` and body `b`: when the trimmed
body is the decimal numeral of the Go integer `n`, the status `success` for 0 and
`telco_delivered` for 100, the error `MTInvalidNotFound` for -100, `MessageDeliveryFailure` for
-200 and `UnknownError` for every other `n`; when it is no such numeral, the error
`UnknownError`; every error carries the status code `s` of the response. -/
theorem CheckTransactionStatus_decoding (net : Net) (c : Client)
    (input : CheckTransactionStatusInput) (resp : Response) (b : GoString)
    (hresp : getRequest net c (buildCheckTransactionStatusRequestURL c input) = Except.ok resp)
    (hbody : resp.Body = Except.ok b) :
    (goInt (TrimSpace b) = some 0 →
      (CheckTransactionStatus net c input).output = some ⟨MTTransactionStatusSuccess⟩ ∧
      (CheckTransactionStatus net c input).err = none) ∧
    (goInt (TrimSpace b) = some 100 →
      (CheckTransactionStatus net c input).output = some ⟨MTTransactionStatusTelcoDelivered⟩ ∧
      (CheckTransactionStatus net c input).err = none) ∧
    (goInt (TrimSpace b) = some (-100) →
      (CheckTransactionStatus net c input).output = none ∧
      (CheckTransactionStatus net c input).err = some (owerr.New owerr.MTInvalidNotFound
        (str "mtid is invalid or not found") resp.StatusCode)) ∧
    (goInt (TrimSpace b) = some (-200) →
      (CheckTransactionStatus net c input).output = none ∧
      (CheckTransactionStatus net c input).err = some (owerr.New owerr.MessageDeliveryFailure
        (str "message delivery failed") resp.StatusCode)) ∧
    (∀ n, goInt (TrimSpace b) = some n → n ≠ 0 → n ≠ 100 → n ≠ -100 → n ≠ -200 →
      (CheckTransactionStatus net c input).output = none ∧
      (CheckTransactionStatus net c input).err = some (owerr.New owerr.UnknownError
        (str "unknown error") resp.StatusCode)) ∧
    (goInt (TrimSpace b) = none →
      (CheckTransactionStatus net c input).output = none ∧
      (CheckTransactionStatus net c input).err = some (owerr.New owerr.UnknownError
        (str "unknown error") resp.StatusCode)) := by
  unfold CheckTransactionStatus
  simp only [hresp, hbody, Atoi_eq]
  refine ⟨?_, ?_, ?_, ?_, ?_, ?_⟩
  · intro h; rw [h]; exact ⟨rfl, rfl⟩
  · intro h; rw [h]; exact ⟨rfl, rfl⟩
  · intro h; rw [h]; exact ⟨rfl, rfl⟩
  · intro h; rw [h]; exact ⟨rfl, rfl⟩
  · intro n h h1 h2 h3 h4
    rw [h]
    simp only [if_neg h1, if_neg h2, if_neg h3, if_neg h4, and_self]
  · intro h; rw [h]; exact ⟨rfl, rfl⟩

theorem CheckTransactionStatus_decoding_witness :
    ((CheckTransactionStatus (exampleNet (exampleResponse 500 " -100\n"))
        (exampleClient (exampleResponse 500 " -100\n")) ⟨145712468⟩).output = none ∧
      (CheckTransactionStatus (exampleNet (exampleResponse 500 " -100\n"))
        (exampleClient (exampleResponse 500 " -100\n")) ⟨145712468⟩).err =
        some (owerr.New owerr.MTInvalidNotFound (str "mtid is invalid or not found") 500)) ∧
    ((CheckTransactionStatus (exampleNet (exampleResponse 200 "100\n"))
        (exampleClient (exampleResponse 200 "100\n")) ⟨145712468⟩).output =
        some ⟨MTTransactionStatusTelcoDelivered⟩ ∧
      (CheckTransactionStatus (exampleNet (exampleResponse 200 "100\n"))
        (exampleClient (exampleResponse 200 "100\n")) ⟨145712468⟩).err = none) :=
  ⟨(CheckTransactionStatus_decoding (exampleNet (exampleResponse 500 " -100\n"))
      (exampleClient (exampleResponse 500 " -100\n")) ⟨145712468⟩
      (exampleResponse 500 " -100\n") (str " -100\n") rfl rfl).2.2.1 (by decide),
    (CheckTransactionStatus_decoding (exampleNet (exampleResponse 200 "100\n"))
      (exampleClient (exampleResponse 200 "100\n")) ⟨145712468⟩
      (exampleResponse 200 "100\n") (str "100\n") rfl rfl).2.1 (by decide)⟩


/-! ## Language detection -/

theorem DecodeRuneInString_size_pos (b : Nat) (rest : GoString) :
    1 ≤ (DecodeRuneInString (b :: rest)).2 := by
  simp only [DecodeRuneInString]
  repeat' split
  all_goals simp

theorem EncodeRune_length_gt_one (r : Nat) : 1 < (EncodeRune r).length ↔ 0x80 ≤ r := by
  unfold EncodeRune
  split_ifs <;> simp <;> omega

theorem LanguageTypeNormal_ne_Unicode : LanguageTypeNormal ≠ LanguageTypeUnicode := by decide

theorem getLanguageTypeLoop_ascii (m : GoString) (fuel : Nat) (h : ∀ b ∈ m, b < 0x80) :
    getLanguageTypeLoop fuel m = LanguageTypeNormal := by
  induction fuel generalizing m with
  | zero => rfl
  | succ f ih =>
    unfold getLanguageTypeLoop
    cases m with
    | nil => simp
    | cons b rest =>
      have hb : b < 0x80 := h b (by simp)
      have hd : DecodeRuneInString (b :: rest) = (b, 1) := by
        simp only [DecodeRuneInString]
        rw [if_pos hb]
      simp only [List.length_cons, hd, gt_iff_lt, lt_self_iff_false, if_false, List.drop_one,
        List.tail_cons]
      rw [if_pos (by omega)]
      exact ih rest (fun x hx => h x (by simp [hx]))

theorem getLanguageTypeLoop_multibyte (pre post : GoString) (r fuel : Nat) (hr : isScalar r)
    (h80 : 0x80 ≤ r) (hfuel : pre.length + 1 ≤ fuel) :
    getLanguageTypeLoop fuel (pre ++ EncodeRune r ++ post) = LanguageTypeUnicode := by
  induction pre generalizing fuel with
  | nil =>
    cases fuel with
    | zero => simp at hfuel
    | succ f =>
      unfold getLanguageTypeLoop
      have hlen := (EncodeRune_length_gt_one r).2 h80
      rw [List.nil_append, DecodeRuneInString_EncodeRune r post hr]
      rw [if_pos (by simp; omega)]
      simp only [gt_iff_lt, hlen, if_true]
  | cons b pre ih =>
    cases fuel with
    | zero => simp at hfuel
    | succ f =>
      have ih' := ih f (by simpa using hfuel)
      simp only [List.cons_append]
      generalize pre ++ EncodeRune r ++ post = t at ih' ⊢
      unfold getLanguageTypeLoop
      rw [if_pos (by simp)]
      by_cases hs : (DecodeRuneInString (b :: t)).2 > 1
      · simp only [hs, if_true]
      · have h1 := DecodeRuneInString_size_pos b t
        have h2 : (DecodeRuneInString (b :: t)).2 = 1 := by omega
        simp only [hs, if_false, h2, List.drop_succ_cons, List.drop_zero]
        exact ih'

/-- C5. For a message that is a valid Unicode string, the encoding of scalar values,
`getLanguageType` returns Normal ("1") exactly when every code point is ASCII, below U+0080, and
Unicode ("2") exactly when one code point at least needs more than one byte; the empty message
is Normal. -/
theorem getLanguageType_valid (runes : List Nat) (hvalid : ∀ r ∈ runes, isScalar r) :
    (getLanguageType (encodeRunes runes) = LanguageTypeNormal ↔ ∀ r ∈ runes, r < 0x80) ∧
    (getLanguageType (encodeRunes runes) = LanguageTypeUnicode ↔
      ∃ r ∈ runes, 1 < (EncodeRune r).length) ∧
    getLanguageType [] = LanguageTypeNormal ∧
    LanguageTypeNormal = str "1" ∧ LanguageTypeUnicode = str "2" := by
  have hascii : (∀ r ∈ runes, r < 0x80) →
      getLanguageType (encodeRunes runes) = LanguageTypeNormal := by
    intro h
    apply getLanguageTypeLoop_ascii
    intro b hb
    simp only [encodeRunes, List.mem_flatMap] at hb
    obtain ⟨r, hr, hbr⟩ := hb
    have h1 := h r hr
    unfold EncodeRune at hbr
    rw [if_pos (by omega)] at hbr
    simp only [List.mem_singleton] at hbr
    omega
  have hmulti : (∃ r ∈ runes, 0x80 ≤ r) →
      getLanguageType (encodeRunes runes) = LanguageTypeUnicode := by
    rintro ⟨r, hr, h80⟩
    obtain ⟨s, t, rfl⟩ := List.append_of_mem hr
    unfold getLanguageType
    rw [encodeRunes_append, encodeRunes_cons, ← List.append_assoc]
    apply getLanguageTypeLoop_multibyte _ _ _ _ (hvalid r hr) h80
    have := EncodeRune_length_pos r
    simp only [List.length_append]
    omega
  refine ⟨⟨?_, hascii⟩, ⟨?_, ?_⟩, rfl, rfl, rfl⟩
  · intro hN
    by_contra hcon
    push_neg at hcon
    obtain ⟨r, hr, h80⟩ := hcon
    have := hmulti ⟨r, hr, h80⟩
    rw [hN] at this
    exact LanguageTypeNormal_ne_Unicode this
  · intro hU
    by_contra hcon
    push_neg at hcon
    have hall : ∀ r ∈ runes, r < 0x80 := by
      intro r hr
      have := hcon r hr
      have h2 := (EncodeRune_length_gt_one r).not.1 (by omega)
      omega
    have := hascii hall
    rw [hU] at this
    exact LanguageTypeNormal_ne_Unicode this.symm
  · rintro ⟨r, hr, hlen⟩
    exact hmulti ⟨r, hr, (EncodeRune_length_gt_one r).1 hlen⟩

theorem getLanguageType_valid_witness :
    (getLanguageType (encodeRunes [0x48, 0x69, 0x4F60]) = LanguageTypeNormal ↔
      ∀ r ∈ [0x48, 0x69, 0x4F60], r < 0x80) ∧
    (getLanguageType (encodeRunes [0x48, 0x69, 0x4F60]) = LanguageTypeUnicode ↔
      ∃ r ∈ [0x48, 0x69, 0x4F60], 1 < (EncodeRune r).length) ∧
    getLanguageType [] = LanguageTypeNormal ∧
    LanguageTypeNormal = str "1" ∧ LanguageTypeUnicode = str "2" :=
  getLanguageType_valid [0x48, 0x69, 0x4F60] (by decide)


/-! ## Hexadecimal encoding -/

theorem fmtUnicodeLoop_eq (fuel u : Nat) (acc : GoString) (hpos : 0 < u) (hfuel : u ≤ fuel) :
    fmtUnicodeLoop fuel u acc = (Nat.digits 16 u).reverse.map udigit ++ acc := by
  induction fuel generalizing u acc with
  | zero => omega
  | succ f ih =>
    unfold fmtUnicodeLoop
    by_cases h16 : u ≥ 16
    · rw [if_pos h16, ih (u / 16) _ (by omega) (by omega),
        Nat.digits_def' (by norm_num : 1 < 16) hpos]
      simp
    · rw [if_neg h16, Nat.digits_of_lt 16 u (by omega) (by omega)]
      simp

theorem udigit_eq_hexDigitChar (d : Nat) (hd : d < 16) : udigit d = hexDigitChar d := by
  interval_cases d <;> rfl

theorem map_udigit_digits (u : Nat) :
    (Nat.digits 16 u).reverse.map udigit = (Nat.digits 16 u).reverse.map hexDigitChar := by
  apply List.map_congr_left
  intro d hd
  exact udigit_eq_hexDigitChar d (Nat.digits_lt_base (by norm_num) (List.mem_reverse.1 hd))

theorem hexPadded_length_ge (r : Nat) : 4 ≤ (hexPadded r).length := by
  simp only [hexPadded, List.length_append, List.length_replicate, List.length_map,
    List.length_reverse]
  omega

theorem SprintfU_eq (r : Nat) : SprintfU r = 85 :: 43 :: hexPadded r := by
  by_cases h0 : r = 0
  · subst h0; simp [SprintfU, hexPadded, fmtUnicodeLoop, udigit]
  · unfold SprintfU hexPadded
    rw [fmtUnicodeLoop_eq r r [] (by omega) (le_refl _), map_udigit_digits]
    simp

theorem udigit_not_cutset (d : Nat) (hd : d < 16) : udigit d ≠ 85 ∧ udigit d ≠ 43 := by
  unfold udigit
  split_ifs <;> omega

theorem hexPadded_bytes (r : Nat) : ∀ b ∈ hexPadded r, b ≠ 85 ∧ b ≠ 43 := by
  intro b hb
  simp only [hexPadded, List.mem_append, List.mem_replicate, List.mem_map, List.mem_reverse] at hb
  rcases hb with ⟨_, rfl⟩ | ⟨d, hd, rfl⟩
  · omega
  · have hd16 : d < 16 := Nat.digits_lt_base (by norm_num) hd
    rw [← udigit_eq_hexDigitChar d hd16]
    exact udigit_not_cutset d hd16

theorem str_cutset : str "U+" = [85, 43] := by decide

theorem dropWhile_head_not {p : Nat → Bool} (l : List Nat) (hne : l ≠ [])
    (h : ∀ hne : l ≠ [], p (l.head hne) = false) : l.dropWhile p = l := by
  cases l with
  | nil => exact absurd rfl hne
  | cons a t =>
    have := h (by simp)
    simp only [List.head_cons] at this
    simp [List.dropWhile, this]

theorem Trim_SprintfU (r : Nat) : Trim (SprintfU r) (str "U+") = hexPadded r := by
  have hlen := hexPadded_length_ge r
  have hne : hexPadded r ≠ [] := by
    intro h; rw [h] at hlen; simp at hlen
  have hb := hexPadded_bytes r
  have hp : ∀ b ∈ hexPadded r, decide (b ∈ [85, 43]) = false := by
    intro b hbm
    have := hb b hbm
    simp [this.1, this.2]
  rw [SprintfU_eq, str_cutset]
  unfold Trim
  have h1 : (85 :: 43 :: hexPadded r).dropWhile (fun b => decide (b ∈ [85, 43]))
      = hexPadded r := by
    rw [List.dropWhile_cons_of_pos (by decide), List.dropWhile_cons_of_pos (by decide)]
    exact dropWhile_head_not _ hne (fun h => hp _ (List.head_mem h))
  rw [h1]
  have h2 : (hexPadded r).reverse.dropWhile (fun b => decide (b ∈ [85, 43]))
      = (hexPadded r).reverse := by
    apply dropWhile_head_not _ (by simp [hne])
    intro h
    exact hp _ (List.mem_reverse.1 (List.head_mem h))
  rw [h2, List.reverse_reverse]

theorem foldl_append_flatMap (f : Nat → GoString) (rs : List Nat) (acc : GoString) :
    rs.foldl (fun buf r => buf ++ f r) acc = acc ++ rs.flatMap f := by
  induction rs generalizing acc with
  | nil => simp
  | cons r rs ih => simp [ih]

theorem messageToHex_eq (message : GoString) :
    messageToHex message = (rangeRunes message.length message).flatMap hexPadded := by
  unfold messageToHex
  simp only [Trim_SprintfU]
  rw [foldl_append_flatMap]
  simp

theorem rangeRunes_encodeRunes (rs : List Nat) (fuel : Nat) (h : ∀ r ∈ rs, isScalar r)
    (hfuel : rs.length ≤ fuel) : rangeRunes fuel (encodeRunes rs) = rs := by
  induction rs generalizing fuel with
  | nil => cases fuel <;> simp [rangeRunes, encodeRunes]
  | cons r rs ih =>
    cases fuel with
    | zero => simp at hfuel
    | succ f =>
      unfold rangeRunes
      rw [encodeRunes_cons,
        if_neg (by have := EncodeRune_length_pos r; simp only [List.length_append]; omega)]
      simp only [DecodeRuneInString_EncodeRune r _ (h r (by simp)), List.drop_left]
      rw [ih f (fun x hx => h x (by simp [hx])) (by simpa using hfuel)]

theorem digits16_length (r k : Nat) (hr : r ≠ 0) (hlo : 16 ^ k ≤ r) (hhi : r < 16 ^ (k + 1)) :
    (Nat.digits 16 r).length = k + 1 := by
  have h1 := Nat.lt_base_pow_length_digits (b := 16) (m := r) (by norm_num)
  have h2 := Nat.base_pow_length_digits_le 16 r (by norm_num) hr
  have h3 : 16 ^ k < 16 ^ (Nat.digits 16 r).length := lt_of_le_of_lt hlo h1
  have h4 : 16 ^ (Nat.digits 16 r).length < 16 ^ (k + 2) := by
    calc 16 ^ (Nat.digits 16 r).length ≤ 16 * r := h2
      _ < 16 * 16 ^ (k + 1) := by omega
      _ = 16 ^ (k + 2) := by ring
  have h5 := (Nat.pow_lt_pow_iff_right (by norm_num : 1 < 16)).1 h3
  have h6 := (Nat.pow_lt_pow_iff_right (by norm_num : 1 < 16)).1 h4
  omega

theorem hexPadded_length (r : Nat) :
    (r ≤ 0xFFFF → (hexPadded r).length = 4) ∧
    (0xFFFF < r → r ≤ 0xFFFFF → (hexPadded r).length = 5) ∧
    (0xFFFFF < r → r ≤ 0x10FFFF → (hexPadded r).length = 6) := by
  simp only [hexPadded, List.length_append, List.length_replicate, List.length_map,
    List.length_reverse]
  refine ⟨?_, ?_, ?_⟩
  · intro h
    by_cases h0 : r = 0
    · subst h0; simp
    · have h1 := Nat.lt_base_pow_length_digits (b := 16) (m := r) (by norm_num)
      have h2 := Nat.base_pow_length_digits_le 16 r (by norm_num) h0
      have h4 : 16 ^ (Nat.digits 16 r).length < 16 ^ 5 := by
        calc 16 ^ (Nat.digits 16 r).length ≤ 16 * r := h2
          _ < 16 ^ 5 := by norm_num; omega
      have h6 := (Nat.pow_lt_pow_iff_right (by norm_num : 1 < 16)).1 h4
      omega
  · intro h1 h2
    rw [digits16_length r 4 (by omega) (by norm_num; omega) (by norm_num; omega)]
  · intro h1 h2
    rw [digits16_length r 5 (by omega) (by norm_num; omega) (by norm_num; omega)]

/-- C6. `messageToHex` returns, in order and with nothing in between, the code points of the
message in upper-case hexadecimal padded with zeros to four digits: four digits up to U+FFFF,
five or six above.  This is the `U+XXXX` notation of `fmt` without its first two bytes: the
trimming with the cutset "U+" removes no digit. -/
theorem messageToHex_spec (message : GoString) :
    messageToHex message = (rangeRunes message.length message).flatMap hexPadded ∧
    (∀ runes : List Nat, (∀ r ∈ runes, isScalar r) →
      messageToHex (encodeRunes runes) = runes.flatMap hexPadded) ∧
    (∀ r, SprintfU r = str "U+" ++ hexPadded r ∧
      Trim (SprintfU r) (str "U+") = hexPadded r) ∧
    (∀ r, (r ≤ 0xFFFF → (hexPadded r).length = 4) ∧
      (0xFFFF < r → r ≤ 0xFFFFF → (hexPadded r).length = 5) ∧
      (0xFFFFF < r → r ≤ 0x10FFFF → (hexPadded r).length = 6)) := by
  refine ⟨messageToHex_eq message, ?_, ?_, hexPadded_length⟩
  · intro runes h
    rw [messageToHex_eq, rangeRunes_encodeRunes runes _ h (encodeRunes_length runes)]
  · intro r
    refine ⟨?_, Trim_SprintfU r⟩
    rw [SprintfU_eq, str_cutset]
    rfl

theorem messageToHex_spec_witness :
    messageToHex (encodeRunes [0x4F60, 0x597D, 0x20, 0x1F600])
      = [0x4F60, 0x597D, 0x20, 0x1F600].flatMap hexPadded ∧
    (hexPadded 0x10FFFF).length = 6 :=
  ⟨(messageToHex_spec []).2.1 [0x4F60, 0x597D, 0x20, 0x1F600] (by decide),
    ((messageToHex_spec []).2.2.2 0x10FFFF).2.2 (by decide) (by decide)⟩


/-! ## Request URLs -/

theorem sendSMS_keys :
    str "apiusername" = [97, 112, 105, 117, 115, 101, 114, 110, 97, 109, 101] ∧
    str "apipassword" = [97, 112, 105, 112, 97, 115, 115, 119, 111, 114, 100] ∧
    str "senderid" = [115, 101, 110, 100, 101, 114, 105, 100] ∧
    str "mobileno" = [109, 111, 98, 105, 108, 101, 110, 111] ∧
    str "languagetype" = [108, 97, 110, 103, 117, 97, 103, 101, 116, 121, 112, 101] ∧
    str "message" = [109, 101, 115, 115, 97, 103, 101] := by decide

theorem sendSMS_keys_sorted :
    sortStrings [str "apiusername", str "apipassword", str "senderid", str "mobileno",
      str "languagetype", str "message"] =
    [str "apipassword", str "apiusername", str "languagetype", str "message", str "mobileno",
      str "senderid"] := by decide

theorem sendSMS_keys_escaped :
    QueryEscape (str "apipassword") = str "apipassword" ∧
    QueryEscape (str "apiusername") = str "apiusername" ∧
    QueryEscape (str "languagetype") = str "languagetype" ∧
    QueryEscape (str "message") = str "message" ∧
    QueryEscape (str "mobileno") = str "mobileno" ∧
    QueryEscape (str "senderid") = str "senderid" := by decide

theorem sendSMS_params (v1 v2 v3 v4 v5 v6 : GoString) :
    List.foldl (fun params kv => Values.Add params kv.1 kv.2) ([] : Values)
      [ (str "apiusername", v1), (str "apipassword", v2), (str "senderid", v3),
        (str "mobileno", v4), (str "languagetype", v5), (str "message", v6) ] =
    [ (str "apiusername", [v1]), (str "apipassword", [v2]), (str "senderid", [v3]),
      (str "mobileno", [v4]), (str "languagetype", [v5]), (str "message", [v6]) ] := by
  obtain ⟨h1, h2, h3, h4, h5, h6⟩ := sendSMS_keys
  rw [h1, h2, h3, h4, h5, h6]
  simp [Values.Add]

theorem sendSMS_lookup (v1 v2 v3 v4 v5 v6 : GoString) :
    let ps : Values := [ (str "apiusername", [v1]), (str "apipassword", [v2]),
      (str "senderid", [v3]), (str "mobileno", [v4]), (str "languagetype", [v5]),
      (str "message", [v6]) ]
    ps.lookup (str "apiusername") = some [v1] ∧ ps.lookup (str "apipassword") = some [v2] ∧
    ps.lookup (str "senderid") = some [v3] ∧ ps.lookup (str "mobileno") = some [v4] ∧
    ps.lookup (str "languagetype") = some [v5] ∧ ps.lookup (str "message") = some [v6] := by
  obtain ⟨h1, h2, h3, h4, h5, h6⟩ := sendSMS_keys
  rw [h1, h2, h3, h4, h5, h6]
  simp [List.lookup]

theorem sendSMS_texts :
    str "/api.aspx?" = str "/" ++ str "api.aspx" ++ str "?" ∧
    str "apipassword=" = str "apipassword" ++ [61] ∧
    str "&apiusername=" = [38] ++ str "apiusername" ++ [61] ∧
    str "&languagetype=" = [38] ++ str "languagetype" ++ [61] ∧
    str "&message=" = [38] ++ str "message" ++ [61] ∧
    str "&mobileno=" = [38] ++ str "mobileno" ++ [61] ∧
    str "&senderid=" = [38] ++ str "senderid" ++ [61] := by decide

theorem buildRequestURL_sendSMS (c : Client) (languageType message : GoString)
    (mobileNo : List GoString) :
    buildRequestURL c (str "api.aspx")
      [ (str "apiusername", c.apiUsername),
        (str "apipassword", c.apiPassword),
        (str "senderid", c.senderID),
        (str "mobileno", Join mobileNo (str ",")),
        (str "languagetype", languageType),
        (str "message", message) ]
      = sendSMSURL c languageType message mobileNo := by
  unfold buildRequestURL sendSMSURL
  simp only [sendSMS_params]
  unfold Values.Encode
  have hl := sendSMS_lookup c.apiUsername c.apiPassword c.senderID (Join mobileNo (str ","))
    languageType message
  simp only at hl
  obtain ⟨l1, l2, l3, l4, l5, l6⟩ := hl
  obtain ⟨e1, e2, e3, e4, e5, e6⟩ := sendSMS_keys_escaped
  simp only [List.map, sendSMS_keys_sorted, List.foldl, l1, l2, l3, l4, l5, l6, Option.getD_some,
    e1, e2, e3, e4, e5, e6]
  obtain ⟨t0, t1, t2, t3, t4, t5, t6⟩ := sendSMS_texts
  rw [t0, t1, t2, t3, t4, t5, t6]
  simp

/-! ## The loops do not run out of turns -/

theorem DecodeLastRuneInString_size_pos (s : GoString) (h : s ≠ []) :
    1 ≤ (DecodeLastRuneInString s).2 := by
  unfold DecodeLastRuneInString
  have hr : s.reverse ≠ [] := by simpa using h
  obtain ⟨last, before, hrev⟩ := List.exists_cons_of_ne_nil hr
  rw [hrev]
  simp only
  split_ifs with h1 h2
  · simp
  · simp
  · omega

/-- More turns than the length of the string do not change `trimLeftSpace`. -/
theorem trimLeftSpace_fuel (s : GoString) (fuel : Nat) (h : s.length ≤ fuel) :
    trimLeftSpace fuel s = trimLeftSpace s.length s := by
  have key : ∀ (f g : Nat) (t : GoString), t.length ≤ f → t.length ≤ g →
      trimLeftSpace f t = trimLeftSpace g t := by
    intro f
    induction f with
    | zero =>
      intro g t hf _
      have : t = [] := List.eq_nil_of_length_eq_zero (by omega)
      subst this
      cases g <;> simp [trimLeftSpace]
    | succ f ih =>
      intro g t hf hg
      cases t with
      | nil => cases g <;> simp [trimLeftSpace]
      | cons b rest =>
        cases g with
        | zero => simp at hg
        | succ g =>
          have hpos := DecodeRuneInString_size_pos b rest
          simp only [trimLeftSpace, List.length_cons, Nat.add_one_ne_zero, if_false]
          split_ifs
          · apply ih <;> simp only [List.length_drop, List.length_cons] at * <;> omega
          · rfl
  exact key _ _ s h (le_refl _)

/-- More turns than the length of the string do not change `trimRightSpace`. -/
theorem trimRightSpace_fuel (s : GoString) (fuel : Nat) (h : s.length ≤ fuel) :
    trimRightSpace fuel s = trimRightSpace s.length s := by
  have key : ∀ (f g : Nat) (t : GoString), t.length ≤ f → t.length ≤ g →
      trimRightSpace f t = trimRightSpace g t := by
    intro f
    induction f with
    | zero =>
      intro g t hf _
      have : t = [] := List.eq_nil_of_length_eq_zero (by omega)
      subst this
      cases g <;> simp [trimRightSpace]
    | succ f ih =>
      intro g t hf hg
      by_cases ht : t = []
      · subst ht
        cases g <;> simp [trimRightSpace]
      · cases g with
        | zero =>
          have : t = [] := List.eq_nil_of_length_eq_zero (by omega)
          exact absurd this ht
        | succ g =>
          have hpos := DecodeLastRuneInString_size_pos t ht
          have hl : t.length ≠ 0 := by simpa using ht
          simp only [trimRightSpace, hl, if_false]
          split_ifs
          · apply ih <;> simp only [List.length_take] <;> omega
          · rfl
  exact key _ _ s h (le_refl _)

/-- More turns than the length of the message do not change the loop of `getLanguageType`. -/
theorem getLanguageTypeLoop_fuel (m : GoString) (fuel : Nat) (h : m.length ≤ fuel) :
    getLanguageTypeLoop fuel m = getLanguageType m := by
  unfold getLanguageType
  have key : ∀ (f g : Nat) (t : GoString), t.length ≤ f → t.length ≤ g →
      getLanguageTypeLoop f t = getLanguageTypeLoop g t := by
    intro f
    induction f with
    | zero =>
      intro g t hf _
      have : t = [] := List.eq_nil_of_length_eq_zero (by omega)
      subst this
      cases g <;> simp [getLanguageTypeLoop]
    | succ f ih =>
      intro g t hf hg
      cases t with
      | nil => cases g <;> simp [getLanguageTypeLoop]
      | cons b rest =>
        cases g with
        | zero => simp at hg
        | succ g =>
          have hpos := DecodeRuneInString_size_pos b rest
          simp only [getLanguageTypeLoop, List.length_cons, gt_iff_lt, Nat.zero_lt_succ,
            if_true]
          split_ifs
          · rfl
          · apply ih <;> simp only [List.length_drop, List.length_cons] at * <;> omega
  exact key _ _ m h (le_refl _)

/-- More turns than the length of the string do not change the runes that `range` yields. -/
theorem rangeRunes_fuel (s : GoString) (fuel : Nat) (h : s.length ≤ fuel) :
    rangeRunes fuel s = rangeRunes s.length s := by
  have key : ∀ (f g : Nat) (t : GoString), t.length ≤ f → t.length ≤ g →
      rangeRunes f t = rangeRunes g t := by
    intro f
    induction f with
    | zero =>
      intro g t hf _
      have : t = [] := List.eq_nil_of_length_eq_zero (by omega)
      subst this
      cases g <;> simp [rangeRunes]
    | succ f ih =>
      intro g t hf hg
      cases t with
      | nil => cases g <;> simp [rangeRunes]
      | cons b rest =>
        cases g with
        | zero => simp at hg
        | succ g =>
          have hpos := DecodeRuneInString_size_pos b rest
          simp only [rangeRunes, List.length_cons, Nat.add_one_ne_zero, if_false]
          congr 1
          apply ih <;> simp only [List.length_drop, List.length_cons] at * <;> omega
  exact key _ _ s h (le_refl _)

/-- Every string is the join of its pieces, and no piece holds the separator. -/
theorem Join_Split (s : GoString) (sep : Nat) :
    Join (Split s sep) [sep] = s ∧ ∀ e ∈ Split s sep, sep ∉ e := by
  induction s with
  | nil => simp [Split, Join]
  | cons b rest ih =>
    obtain ⟨ih1, ih2⟩ := ih
    have hne := Split_ne_nil rest sep
    obtain ⟨p, ps, hps⟩ := List.exists_cons_of_ne_nil hne
    unfold Split
    by_cases hb : b = sep
    · rw [if_pos hb, hps]
      rw [hps] at ih1 ih2
      constructor
      · simp only [Join, List.nil_append, List.singleton_append, ih1, hb]
      · intro e he
        rcases List.mem_cons.1 he with rfl | he
        · simp
        · exact ih2 e he
    · rw [if_neg hb, hps]
      rw [hps] at ih1 ih2
      simp only
      constructor
      · cases ps with
        | nil => simp only [Join] at ih1 ⊢; rw [ih1]
        | cons q qs =>
          simp only [Join, List.append_assoc, List.cons_append] at ih1 ⊢
          rw [ih1]
      · intro e he
        rcases List.mem_cons.1 he with rfl | he
        · have := ih2 p (by simp)
          simp only [List.mem_cons, not_or]
          exact ⟨fun h => hb h.symm, this⟩
        · exact ih2 e (by simp [he])


/-! ## The order in which a map is iterated does not show in the URL -/

theorem strLess_irrefl (a : GoString) : strLess a a = false := by
  induction a with
  | nil => rfl
  | cons x s ih => simp [strLess, ih]

theorem strLess_trans (a b c : GoString) (h1 : strLess a b = true) (h2 : strLess b c = true) :
    strLess a c = true := by
  induction a generalizing b c with
  | nil =>
    cases b with
    | nil => simp [strLess] at h1
    | cons y t =>
      cases c with
      | nil => simp [strLess] at h2
      | cons z u => simp [strLess]
  | cons x s ih =>
    cases b with
    | nil => simp [strLess] at h1
    | cons y t =>
      cases c with
      | nil => simp [strLess] at h2
      | cons z u =>
        simp only [strLess] at h1 h2 ⊢
        by_cases hxy : x < y
        · by_cases hyz : y < z
          · rw [if_pos (by omega)]
          · rw [if_neg hyz] at h2
            by_cases hzy : z < y
            · rw [if_pos hzy] at h2; cases h2
            · rw [if_pos (by omega)]
        · rw [if_neg hxy] at h1
          by_cases hyx : y < x
          · rw [if_pos hyx] at h1; cases h1
          · rw [if_neg hyx] at h1
            have hxy' : x = y := by omega
            subst hxy'
            by_cases hyz : x < z
            · rw [if_pos hyz]
            · rw [if_neg hyz] at h2 ⊢
              by_cases hzy : z < x
              · rw [if_pos hzy] at h2; cases h2
              · rw [if_neg hzy] at h2 ⊢
                exact ih t u h1 h2

theorem strLess_total (a b : GoString) (h : a ≠ b) :
    strLess a b = true ∨ strLess b a = true := by
  induction a generalizing b with
  | nil =>
    cases b with
    | nil => exact absurd rfl h
    | cons y t => simp [strLess]
  | cons x s ih =>
    cases b with
    | nil => simp [strLess]
    | cons y t =>
      simp only [strLess]
      by_cases hxy : x < y
      · simp [hxy]
      · by_cases hyx : y < x
        · simp [hxy, hyx]
        · have hxy' : x = y := by omega
          subst hxy'
          simp only [lt_self_iff_false, if_false]
          exact ih t (fun hst => h (by rw [hst]))

theorem strLess_asymm (a b : GoString) (h1 : strLess a b = true) : strLess b a = false := by
  cases h : strLess b a with
  | false => rfl
  | true =>
    have := strLess_trans a b a h1 h
    rw [strLess_irrefl] at this
    cases this

theorem insertString_perm (k : GoString) (l : List GoString) :
    (insertString k l).Perm (k :: l) := by
  induction l with
  | nil => exact List.Perm.refl _
  | cons x xs ih =>
    unfold insertString
    split_ifs
    · exact List.Perm.refl _
    · exact (List.Perm.cons x ih).trans (List.Perm.swap k x xs)

theorem sortStrings_perm (ks : List GoString) : (sortStrings ks).Perm ks := by
  induction ks with
  | nil => exact List.Perm.refl _
  | cons k ks ih =>
    show (insertString k (sortStrings ks)).Perm (k :: ks)
    exact (insertString_perm k _).trans (List.Perm.cons k ih)

theorem insertString_sorted (k : GoString) (l : List GoString) (hk : k ∉ l)
    (hl : List.Sorted (fun a b => strLess a b = true) l) :
    List.Sorted (fun a b => strLess a b = true) (insertString k l) := by
  induction l with
  | nil => simp [insertString]
  | cons x xs ih =>
    have hx := List.rel_of_sorted_cons hl
    have hxs := List.Sorted.of_cons hl
    unfold insertString
    by_cases hkx : strLess k x = true
    · rw [if_pos hkx]
      refine List.sorted_cons.2 ⟨?_, hl⟩
      intro b hb
      rcases List.mem_cons.1 hb with rfl | hb
      · exact hkx
      · exact strLess_trans k x b hkx (hx b hb)
    · rw [if_neg hkx]
      have hne : k ≠ x := fun h => hk (by simp [h])
      have hxk : strLess x k = true := by
        rcases strLess_total k x hne with h | h
        · exact absurd h hkx
        · exact h
      refine List.sorted_cons.2 ⟨?_, ih (fun h => hk (by simp [h])) hxs⟩
      intro b hb
      rcases List.mem_cons.1 ((insertString_perm k xs).subset hb) with rfl | hb
      · exact hxk
      · exact hx b hb

theorem sortStrings_sorted (ks : List GoString) (hnd : ks.Nodup) :
    List.Sorted (fun a b => strLess a b = true) (sortStrings ks) := by
  induction ks with
  | nil => simp [sortStrings]
  | cons k ks ih =>
    have hk : k ∉ ks := (List.nodup_cons.1 hnd).1
    show List.Sorted _ (insertString k (sortStrings ks))
    exact insertString_sorted k _ (fun h => hk ((sortStrings_perm ks).subset h))
      (ih (List.nodup_cons.1 hnd).2)

/-- Sorting keys that are all different gives one list, whatever their order. -/
theorem sortStrings_of_perm (ks₁ ks₂ : List GoString) (hp : ks₁.Perm ks₂) (hnd : ks₁.Nodup) :
    sortStrings ks₁ = sortStrings ks₂ :=
  haveI : IsAntisymm GoString (fun a b => strLess a b = true) :=
    ⟨fun a b h1 h2 => by rw [strLess_asymm a b h1] at h2; cases h2⟩
  List.eq_of_perm_of_sorted
    (((sortStrings_perm ks₁).trans hp).trans (sortStrings_perm ks₂).symm)
    (sortStrings_sorted ks₁ hnd) (sortStrings_sorted ks₂ ((List.Perm.nodup_iff hp).1 hnd))

theorem Values.Add_of_not_mem (v : Values) (k x : GoString) (hk : k ∉ v.map Prod.fst) :
    Values.Add v k x = v ++ [(k, [x])] := by
  induction v with
  | nil => rfl
  | cons e rest ih =>
    obtain ⟨k', vs⟩ := e
    have hne : k' ≠ k := fun h => hk (by simp [h])
    have hr : k ∉ rest.map Prod.fst := fun h => hk (by simp [List.mem_map] at h ⊢; exact Or.inr h)
    unfold Values.Add
    rw [if_neg hne, ih hr]
    rfl

theorem foldl_Add (ps : List (GoString × GoString)) (acc : Values)
    (hnd : (acc.map Prod.fst ++ ps.map Prod.fst).Nodup) :
    ps.foldl (fun params kv => Values.Add params kv.1 kv.2) acc
      = acc ++ ps.map (fun kv => (kv.1, [kv.2])) := by
  induction ps generalizing acc with
  | nil => simp
  | cons kv rest ih =>
    have hk : kv.1 ∉ acc.map Prod.fst := by
      intro h
      have := (List.nodup_append.1 hnd).2.2
      exact this h (by simp)
    simp only [List.foldl_cons, List.map_cons]
    rw [Values.Add_of_not_mem acc kv.1 kv.2 hk, ih]
    · simp
    · have : (acc ++ [(kv.1, [kv.2])]).map Prod.fst ++ rest.map Prod.fst
          = acc.map Prod.fst ++ (kv :: rest).map Prod.fst := by simp
      rw [this]
      exact hnd

theorem lookup_of_mem (v : Values) (k : GoString) (ys : List GoString)
    (hnd : (v.map Prod.fst).Nodup) (hm : (k, ys) ∈ v) : v.lookup k = some ys := by
  induction v with
  | nil => simp at hm
  | cons e rest ih =>
    obtain ⟨k', vs⟩ := e
    simp only [List.map_cons, List.nodup_cons] at hnd
    rcases List.mem_cons.1 hm with h | h
    · cases h
      simp [List.lookup]
    · have hne : k ≠ k' := by
        rintro rfl
        exact hnd.1 (List.mem_map.2 ⟨(k, ys), h, rfl⟩)
      have hb : (k == k') = false := by simpa using hne
      simp only [List.lookup, hb]
      exact ih hnd.2 h

theorem lookup_of_not_mem (v : Values) (k : GoString) (hk : k ∉ v.map Prod.fst) :
    v.lookup k = none := by
  induction v with
  | nil => rfl
  | cons e rest ih =>
    obtain ⟨k', vs⟩ := e
    have hne : k ≠ k' := fun h => hk (by simp [h])
    have hb : (k == k') = false := by simpa using hne
    simp only [List.lookup, hb]
    exact ih (fun h => hk (by simp only [List.map_cons, List.mem_cons]; exact Or.inr h))

theorem lookup_of_perm (v₁ v₂ : Values) (k : GoString) (hp : v₁.Perm v₂)
    (hnd : (v₁.map Prod.fst).Nodup) : v₁.lookup k = v₂.lookup k := by
  have hnd₂ : (v₂.map Prod.fst).Nodup := (List.Perm.nodup_iff (hp.map Prod.fst)).1 hnd
  by_cases hk : k ∈ v₁.map Prod.fst
  · obtain ⟨⟨k', ys⟩, hm, rfl⟩ := List.mem_map.1 hk
    rw [lookup_of_mem v₁ k' ys hnd hm, lookup_of_mem v₂ k' ys hnd₂ (hp.subset hm)]
  · rw [lookup_of_not_mem v₁ k hk,
      lookup_of_not_mem v₂ k (fun h => hk ((hp.map Prod.fst).symm.subset h))]

theorem Values.Encode_of_perm (v₁ v₂ : Values) (hp : v₁.Perm v₂)
    (hnd : (v₁.map Prod.fst).Nodup) : Values.Encode v₁ = Values.Encode v₂ := by
  unfold Values.Encode
  rw [sortStrings_of_perm _ _ (hp.map Prod.fst) hnd]
  congr 1
  funext buf k
  rw [lookup_of_perm v₁ v₂ k hp hnd]

/-- The URL does not depend on the order in which the parameters, whose keys are all different,
are handed to `buildRequestURL`: the order of iteration of the Go map does not show. -/
theorem buildRequestURL_of_perm (c : Client) (path : GoString)
    (ps₁ ps₂ : List (GoString × GoString)) (hp : ps₁.Perm ps₂)
    (hnd : (ps₁.map Prod.fst).Nodup) :
    buildRequestURL c path ps₁ = buildRequestURL c path ps₂ := by
  have hnd₂ : (ps₂.map Prod.fst).Nodup := (List.Perm.nodup_iff (hp.map Prod.fst)).1 hnd
  unfold buildRequestURL
  simp only
  rw [foldl_Add ps₁ [] (by simpa using hnd), foldl_Add ps₂ [] (by simpa using hnd₂)]
  simp only [List.nil_append]
  rw [Values.Encode_of_perm _ _ (hp.map _) (by simpa [List.map_map] using hnd)]

/-- The keys of the three requests are all different. -/
theorem request_keys_nodup :
    [str "apiusername", str "apipassword", str "senderid", str "mobileno", str "languagetype",
      str "message"].Nodup ∧ [str "mtid"].Nodup ∧
    [str "apiusername", str "apipassword"].Nodup := by decide


/-! ## Validation -/

/-- C12. `SendSMSInput.Validate` returns `nil` exactly when the message is not empty, the list
of recipients is not empty and the language type is Normal or Unicode; otherwise it returns the
error of the first check that fails, in the order message, recipients, language type. -/
theorem SendSMSInput_Validate_spec (i : SendSMSInput) :
    (i.Validate = none ↔
      i.Message ≠ [] ∧ i.MobileNo ≠ [] ∧
        (i.LanguageType = LanguageTypeNormal ∨ i.LanguageType = LanguageTypeUnicode)) ∧
    (i.Message = [] →
      i.Validate = some (GoError.other (str "SendSMSInput: Error: Message is required"))) ∧
    (i.Message ≠ [] → i.MobileNo = [] →
      i.Validate = some (GoError.other (str "SendSMSInput: Error: MobileNo is required"))) ∧
    (i.Message ≠ [] → i.MobileNo ≠ [] →
      i.LanguageType ≠ LanguageTypeNormal → i.LanguageType ≠ LanguageTypeUnicode →
      i.Validate = some (GoError.other (str "SendSMSInput: Error: LanguageType is invalid"))) := by
  have hlen : i.MobileNo.length ≤ 0 ↔ i.MobileNo = [] := by
    rw [Nat.le_zero, List.length_eq_zero]
  unfold SendSMSInput.Validate
  refine ⟨?_, ?_, ?_, ?_⟩
  · by_cases hm : i.Message = []
    · simp [hm]
    · by_cases hr : i.MobileNo = []
      · simp [hm, hr]
      · have hr' : ¬ i.MobileNo.length ≤ 0 := fun h => hr (hlen.1 h)
        rw [if_neg hm, if_neg hr']
        by_cases hl : i.LanguageType ≠ LanguageTypeNormal ∧ i.LanguageType ≠ LanguageTypeUnicode
        · rw [if_pos hl]
          refine ⟨fun h => (by cases h), fun h => ?_⟩
          rcases h.2.2 with h1 | h1
          · exact absurd h1 hl.1
          · exact absurd h1 hl.2
        · rw [if_neg hl]
          refine ⟨fun _ => ⟨hm, hr, ?_⟩, fun _ => rfl⟩
          by_contra hcon
          exact hl ⟨fun h => hcon (Or.inl h), fun h => hcon (Or.inr h)⟩
  · intro hm
    rw [if_pos hm]
  · intro hm hr
    rw [if_neg hm, if_pos (hlen.2 hr)]
  · intro hm hr h1 h2
    rw [if_neg hm, if_neg (fun h => hr (hlen.1 h)), if_pos ⟨h1, h2⟩]

theorem SendSMSInput_Validate_spec_witness :
    ({ LanguageType := str "invalid", Message := [], MobileNo := [] } : SendSMSInput).Validate
      = some (GoError.other (str "SendSMSInput: Error: Message is required")) ∧
    ({ LanguageType := str "invalid", Message := str "Hello World", MobileNo := [] } :
      SendSMSInput).Validate
      = some (GoError.other (str "SendSMSInput: Error: MobileNo is required")) ∧
    ({ LanguageType := str "invalid", Message := str "Hello World",
       MobileNo := [str "60123456789"] } : SendSMSInput).Validate
      = some (GoError.other (str "SendSMSInput: Error: LanguageType is invalid")) :=
  ⟨(SendSMSInput_Validate_spec ⟨str "invalid", [], []⟩).2.1 rfl,
    (SendSMSInput_Validate_spec ⟨str "invalid", str "Hello World", []⟩).2.2.1
      (by decide) rfl,
    (SendSMSInput_Validate_spec ⟨str "invalid", str "Hello World", [str "60123456789"]⟩).2.2.2
      (by decide) (by decide) (by decide) (by decide)⟩

/-- C13, as the claim states it, fails: `Validate` rejects the input of the tests, which has a
message, a recipient and no language type. -/
theorem SendSMSInput_Validate_unset_counterexample :
    ({ LanguageType := [], Message := str "Hello World", MobileNo := [str "60123456789"] } :
      SendSMSInput).Validate
      = some (GoError.other (str "SendSMSInput: Error: LanguageType is invalid")) := by
  decide

/-- C13, amended. `Validate` does not accept an unset language type: for an input with a
message, a recipient and no language type it returns the error "LanguageType is invalid"; with
a message and a recipient, the check of the language type fails exactly when the language type
is not one of the two recognized values, the unset one included. -/
theorem SendSMSInput_Validate_unset (i : SendSMSInput) (hm : i.Message ≠ [])
    (hr : i.MobileNo ≠ []) :
    (i.LanguageType = [] →
      i.Validate = some (GoError.other (str "SendSMSInput: Error: LanguageType is invalid"))) ∧
    (i.Validate = some (GoError.other (str "SendSMSInput: Error: LanguageType is invalid")) ↔
      i.LanguageType ≠ LanguageTypeNormal ∧ i.LanguageType ≠ LanguageTypeUnicode) := by
  have hr' : ¬ i.MobileNo.length ≤ 0 := by
    rw [Nat.le_zero, List.length_eq_zero]
    exact hr
  unfold SendSMSInput.Validate
  rw [if_neg hm, if_neg hr']
  constructor
  · intro hl
    rw [hl, if_pos (by decide)]
  · by_cases hl : i.LanguageType ≠ LanguageTypeNormal ∧ i.LanguageType ≠ LanguageTypeUnicode
    · rw [if_pos hl]
      exact ⟨fun _ => hl, fun _ => rfl⟩
    · rw [if_neg hl]
      exact ⟨fun h => (by cases h), fun h => absurd h hl⟩

theorem SendSMSInput_Validate_unset_witness :
    exampleInput.Validate
      = some (GoError.other (str "SendSMSInput: Error: LanguageType is invalid")) :=
  (SendSMSInput_Validate_unset exampleInput (by decide) (by decide)).1 rfl

/-- C14. `CheckTransactionStatusInput.Validate` returns the error "MTID is required" exactly
when `MTID` is 0, and `nil` for every other `MTID`, the negative ones included. -/
theorem CheckTransactionStatusInput_Validate_spec (i : CheckTransactionStatusInput) :
    (i.Validate = some (GoError.other
      (str "CheckTransactionStatusInput: Error: MTID is required")) ↔ i.MTID = 0) ∧
    (i.Validate = none ↔ i.MTID ≠ 0) := by
  unfold CheckTransactionStatusInput.Validate
  by_cases h : i.MTID = 0
  · rw [if_pos h]
    simp [h]
  · rw [if_neg h]
    simp [h]


/-! ## Validation and transport -/

theorem getRequest_of_client (net : Net) (c : Client) (d : doer) (requestURL : GoString)
    (hclient : c.client = some d) (hurl : net.parseError requestURL = none) :
    getRequest net c requestURL = d (requestFor requestURL) := by
  unfold getRequest requestFor
  simp only [hclient, hurl]

theorem SendSMSInput_Validate_aux (i : SendSMSInput) :
    (i.Message = [] →
      i.Validate = some (GoError.other (str "SendSMSInput: Error: Message is required"))) ∧
    (i.Message ≠ [] → i.MobileNo = [] →
      i.Validate = some (GoError.other (str "SendSMSInput: Error: MobileNo is required"))) := by
  unfold SendSMSInput.Validate
  constructor
  · intro hm
    rw [if_pos hm]
  · intro hm hr
    rw [if_neg hm, if_pos (by rw [hr]; simp)]

/-- C15, as the claim states it, fails: with an empty message and no recipient `SendSMS`
returns the identifiers that the transport answers and no error, and with the identifier 0
`CheckTransactionStatus` returns the status that the transport answers and no error. -/
theorem operations_validate_counterexample :
    ((SendSMS (exampleNet (exampleResponse 200 "145712468"))
        (exampleClient (exampleResponse 200 "145712468"))
        { LanguageType := [], Message := [], MobileNo := [] }).1.output
        = some ⟨[145712468]⟩ ∧
      (SendSMS (exampleNet (exampleResponse 200 "145712468"))
        (exampleClient (exampleResponse 200 "145712468"))
        { LanguageType := [], Message := [], MobileNo := [] }).1.err = none) ∧
    ((CheckTransactionStatus (exampleNet (exampleResponse 200 "0"))
        (exampleClient (exampleResponse 200 "0")) ⟨0⟩).output
        = some ⟨MTTransactionStatusSuccess⟩ ∧
      (CheckTransactionStatus (exampleNet (exampleResponse 200 "0"))
        (exampleClient (exampleResponse 200 "0")) ⟨0⟩).err = none) := by
  decide

/-- C15, amended. The operations do not validate their input.  For an input with an empty
message or an empty list of recipients, and for the identifier 0, the validation error is what
`Validate` returns, a method that has no transport; `SendSMS` and `CheckTransactionStatus` hand
the request for such an input to the transport all the same, and return its response. -/
theorem operations_transmit_unvalidated (net : Net) (c : Client) (d : doer)
    (hclient : c.client = some d) :
    (∀ input : SendSMSInput, input.Message = [] ∨ input.MobileNo = [] →
      (∃ text, input.Validate = some (GoError.other text)) ∧
      ∀ resp, net.parseError (buildSendSMSRequestURL c input).1 = none →
        d (requestFor (buildSendSMSRequestURL c input).1) = Except.ok resp →
        (SendSMS net c input).1.resp = some resp) ∧
    (∀ input : CheckTransactionStatusInput, input.MTID = 0 →
      (∃ text, input.Validate = some (GoError.other text)) ∧
      ∀ resp, net.parseError (buildCheckTransactionStatusRequestURL c input) = none →
        d (requestFor (buildCheckTransactionStatusRequestURL c input)) = Except.ok resp →
        (CheckTransactionStatus net c input).resp = some resp) := by
  constructor
  · intro input hbad
    constructor
    · rcases hbad with h | h
      · exact ⟨_, (SendSMSInput_Validate_aux input).1 h⟩
      · by_cases hm : input.Message = []
        · exact ⟨_, (SendSMSInput_Validate_aux input).1 hm⟩
        · exact ⟨_, (SendSMSInput_Validate_aux input).2 hm h⟩
    · intro resp hurl hdo
      have hg := getRequest_of_client net c d _ hclient hurl
      rw [hdo] at hg
      unfold SendSMS
      simp only [hg]
      repeat' split
      all_goals rfl
  · intro input hz
    constructor
    · unfold CheckTransactionStatusInput.Validate
      rw [if_pos hz]
      exact ⟨_, rfl⟩
    · intro resp hurl hdo
      have hg := getRequest_of_client net c d _ hclient hurl
      rw [hdo] at hg
      unfold CheckTransactionStatus
      simp only [hg]
      repeat' split
      all_goals rfl

theorem operations_transmit_unvalidated_witness :
    ((∃ text, ({ LanguageType := [], Message := [], MobileNo := [] } : SendSMSInput).Validate
        = some (GoError.other text)) ∧
      (SendSMS (exampleNet (exampleResponse 200 "145712468"))
        (exampleClient (exampleResponse 200 "145712468"))
        { LanguageType := [], Message := [], MobileNo := [] }).1.resp.map
          (fun r => r.StatusCode) = some 200) ∧
    ((∃ text, (⟨0⟩ : CheckTransactionStatusInput).Validate = some (GoError.other text)) ∧
      (CheckTransactionStatus (exampleNet (exampleResponse 200 "0"))
        (exampleClient (exampleResponse 200 "0")) ⟨0⟩).resp.map
          (fun r => r.StatusCode) = some 200) :=
  have h1 := (operations_transmit_unvalidated (exampleNet (exampleResponse 200 "145712468"))
    (exampleClient (exampleResponse 200 "145712468"))
    (constDoer (exampleResponse 200 "145712468")) rfl).1
    { LanguageType := [], Message := [], MobileNo := [] } (Or.inl rfl)
  have h2 := (operations_transmit_unvalidated (exampleNet (exampleResponse 200 "0"))
    (exampleClient (exampleResponse 200 "0")) (constDoer (exampleResponse 200 "0")) rfl).2
    ⟨0⟩ rfl
  ⟨⟨h1.1, by rw [h1.2 (exampleResponse 200 "145712468") rfl rfl]; rfl⟩,
    ⟨h2.1, by rw [h2.2 (exampleResponse 200 "0") rfl rfl]; rfl⟩⟩

/-- C16. When the transport returns an error `e` for the request, with or without a response
beside it, each of `SendSMS`, `CheckTransactionStatus` and `CheckCreditBalance` returns no output
and the error `e` itself, not a gateway error in its place; no body is decoded: the response
that the transport returned beside the error, `nil` or not, is handed back as it is, whatever
its status and its body.  An error of `http.NewRequest` is returned in the same way, with no
response. -/
theorem transport_error_propagated {F64 F32 : Type} (fl : FloatOps F64 F32) (net : Net)
    (c : Client) (d : doer) (r : Option Response) (e : GoError) (hclient : c.client = some d) :
    (∀ input : SendSMSInput,
      net.parseError (buildSendSMSRequestURL c input).1 = none →
      d (requestFor (buildSendSMSRequestURL c input).1) = Except.error ⟨r, e⟩ →
      (SendSMS net c input).1.output = none ∧ (SendSMS net c input).1.err = some e ∧
        (SendSMS net c input).1.resp = r) ∧
    (∀ input : CheckTransactionStatusInput,
      net.parseError (buildCheckTransactionStatusRequestURL c input) = none →
      d (requestFor (buildCheckTransactionStatusRequestURL c input)) = Except.error ⟨r, e⟩ →
      (CheckTransactionStatus net c input).output = none ∧
        (CheckTransactionStatus net c input).err = some e ∧
        (CheckTransactionStatus net c input).resp = r) ∧
    (net.parseError (buildCheckCreditBalanceRequestURL c) = none →
      d (requestFor (buildCheckCreditBalanceRequestURL c)) = Except.error ⟨r, e⟩ →
      (CheckCreditBalance fl net c).output.isNone = true ∧
        (CheckCreditBalance fl net c).err = some e ∧
        (CheckCreditBalance fl net c).resp = r) ∧
    (∀ input : SendSMSInput,
      net.parseError (buildSendSMSRequestURL c input).1 = some e →
      (SendSMS net c input).1.output = none ∧ (SendSMS net c input).1.err = some e ∧
        (SendSMS net c input).1.resp = none) ∧
    (∀ input : CheckTransactionStatusInput,
      net.parseError (buildCheckTransactionStatusRequestURL c input) = some e →
      (CheckTransactionStatus net c input).output = none ∧
        (CheckTransactionStatus net c input).err = some e ∧
        (CheckTransactionStatus net c input).resp = none) ∧
    (net.parseError (buildCheckCreditBalanceRequestURL c) = some e →
      (CheckCreditBalance fl net c).output.isNone = true ∧
        (CheckCreditBalance fl net c).err = some e ∧
        (CheckCreditBalance fl net c).resp = none) := by
  refine ⟨?_, ?_, ?_, ?_, ?_, ?_⟩
  · intro input hurl hdo
    have hg := getRequest_of_client net c d _ hclient hurl
    rw [hdo] at hg
    unfold SendSMS
    simp only [hg, and_self]
  · intro input hurl hdo
    have hg := getRequest_of_client net c d _ hclient hurl
    rw [hdo] at hg
    unfold CheckTransactionStatus
    simp only [hg, and_self]
  · intro hurl hdo
    have hg := getRequest_of_client net c d _ hclient hurl
    rw [hdo] at hg
    unfold CheckCreditBalance
    simp only [hg, Option.isNone_none, and_self]
  · intro input hurl
    unfold SendSMS getRequest
    simp only [hurl, and_self]
  · intro input hurl
    unfold CheckTransactionStatus getRequest
    simp only [hurl, and_self]
  · intro hurl
    unfold CheckCreditBalance getRequest
    simp only [hurl, Option.isNone_none, and_self]

theorem transport_error_propagated_witness :
    ((SendSMS (exampleNet (exampleResponse 200 ""))
        (failingClient (GoError.other (str "connection refused"))) exampleInput).1.output = none ∧
      (SendSMS (exampleNet (exampleResponse 200 ""))
        (failingClient (GoError.other (str "connection refused"))) exampleInput).1.err
        = some (GoError.other (str "connection refused")) ∧
      (SendSMS (exampleNet (exampleResponse 200 ""))
        (failingClient (GoError.other (str "connection refused"))) exampleInput).1.resp
        = none) ∧
    ((CheckTransactionStatus (exampleNet (exampleResponse 200 ""))
        (failingClientWith (exampleResponse 200 "0")
          (GoError.other (str "stopped after 10 redirects")))
        ⟨145712468⟩).output = none ∧
      (CheckTransactionStatus (exampleNet (exampleResponse 200 ""))
        (failingClientWith (exampleResponse 200 "0")
          (GoError.other (str "stopped after 10 redirects")))
        ⟨145712468⟩).err = some (GoError.other (str "stopped after 10 redirects")) ∧
      (CheckTransactionStatus (exampleNet (exampleResponse 200 ""))
        (failingClientWith (exampleResponse 200 "0")
          (GoError.other (str "stopped after 10 redirects")))
        ⟨145712468⟩).resp = some (exampleResponse 200 "0")) ∧
    ((CheckCreditBalance goFloats (exampleNet (exampleResponse 200 ""))
        (failingClient (GoError.other (str "connection refused")))).output.isNone = true ∧
      (CheckCreditBalance goFloats (exampleNet (exampleResponse 200 ""))
        (failingClient (GoError.other (str "connection refused")))).err
        = some (GoError.other (str "connection refused")) ∧
      (CheckCreditBalance goFloats (exampleNet (exampleResponse 200 ""))
        (failingClient (GoError.other (str "connection refused")))).resp = none) :=
  have h := transport_error_propagated goFloats (exampleNet (exampleResponse 200 ""))
    (failingClient (GoError.other (str "connection refused")))
    (failDoer (GoError.other (str "connection refused"))) none
    (GoError.other (str "connection refused")) rfl
  ⟨h.1 exampleInput rfl rfl,
    (transport_error_propagated goFloats (exampleNet (exampleResponse 200 ""))
      (failingClientWith (exampleResponse 200 "0")
        (GoError.other (str "stopped after 10 redirects")))
      (failDoerWith (exampleResponse 200 "0") (GoError.other (str "stopped after 10 redirects")))
      (some (exampleResponse 200 "0")) (GoError.other (str "stopped after 10 redirects"))
      rfl).2.1 ⟨145712468⟩ rfl rfl,
    h.2.2.1 rfl rfl⟩


/-! ## The gateway error -/

theorem utoaLoop_eq (fuel u : Nat) (acc : GoString) (hpos : 0 < u) (hfuel : u ≤ fuel) :
    utoaLoop fuel u acc = (Nat.digits 10 u).reverse.map (fun d => 48 + d) ++ acc := by
  induction fuel generalizing u acc with
  | zero => omega
  | succ f ih =>
    unfold utoaLoop
    by_cases h10 : u ≥ 10
    · rw [if_pos h10, ih (u / 10) _ (by omega) (by omega),
        Nat.digits_def' (by norm_num : 1 < 10) hpos]
      simp
    · rw [if_neg h10, Nat.digits_of_lt 10 u (by omega) (by omega)]
      simp

theorem utoaLoop_decimalNat (u : Nat) : utoaLoop u u [] = decimalNat u := by
  unfold decimalNat
  by_cases h0 : u = 0
  · subst h0; rfl
  · rw [if_neg h0, utoaLoop_eq u u [] (by omega) (le_refl _), List.append_nil]

/-- The function `strconv.Itoa` writes the integer in decimal. -/
theorem Itoa_eq (i : Int) : Itoa i = decimalText i := by
  unfold Itoa decimalText
  by_cases hneg : i < 0
  · rw [if_pos hneg, if_pos hneg]
    have : (-i).toNat = i.natAbs := by omega
    rw [this, utoaLoop_decimalNat]
  · rw [if_neg hneg, if_neg hneg]
    have : i.toNat = i.natAbs := by omega
    rw [this, utoaLoop_decimalNat]

/-- C17. The error that `owerr.New(c, m, s)` returns has the code `c`, the message `m` and the
status code `s`, and its `Error()` text is "OneWaySMS: Error ", `s` in decimal, " (", the
status text of `s`, "): " and `m`; with the status texts of `net/http`, the error of a failed
request with status 500 reads "OneWaySMS: Error 500 (Internal Server Error): request failure". -/
theorem owerr_New_spec (statusText : Int → GoString) (c m : GoString) (s : Int) :
    owerr.New c m s = GoError.ow (newBaseError c m s) ∧
    (newBaseError c m s).Code = c ∧
    (newBaseError c m s).Message = m ∧
    (newBaseError c m s).StatusCode = s ∧
    (newBaseError c m s).Error statusText =
      str "OneWaySMS: Error " ++ decimalText s ++ str " (" ++ statusText s ++ str "): " ++ m ∧
    (newBaseError owerr.RequestFailure (str "request failure") 500).Error StatusText =
      str "OneWaySMS: Error 500 (Internal Server Error): request failure" ∧
    (newBaseError owerr.InvalidLanguageType (str "languagetype is invalid") 200).Error
      StatusText = str "OneWaySMS: Error 200 (OK): languagetype is invalid" := by
  refine ⟨rfl, rfl, rfl, rfl, ?_, by decide, by decide⟩
  unfold baseError.Error newBaseError
  simp only [Itoa_eq]

/-! ## An explicit language type -/

/-- C18. A language type `t` that is set is trusted: the language type is not detected, the
request carries `languagetype=t`, and the message is sent in hexadecimal exactly when `t` is
Unicode ("2"), as it is otherwise; `t` need not be one of the two recognized values. -/
theorem buildSendSMSRequestURL_explicit (c : Client) (input : SendSMSInput)
    (hset : input.LanguageType ≠ []) :
    (buildSendSMSRequestURL c input).2.LanguageType = input.LanguageType ∧
    (buildSendSMSRequestURL c input).2.Message =
      (if input.LanguageType = LanguageTypeUnicode then messageToHex input.Message
        else input.Message) ∧
    (buildSendSMSRequestURL c input).1 =
      sendSMSURL c input.LanguageType
        (if input.LanguageType = LanguageTypeUnicode then messageToHex input.Message
          else input.Message)
        input.MobileNo := by
  unfold buildSendSMSRequestURL
  simp only [hset, if_false, buildRequestURL_sendSMS]
  by_cases hu : input.LanguageType = LanguageTypeUnicode
  · simp only [hu, if_true, and_self]
  · simp only [hu, if_false, and_self]

theorem buildSendSMSRequestURL_explicit_witness :
    (buildSendSMSRequestURL (exampleClient (exampleResponse 200 "1"))
        { LanguageType := LanguageTypeNormal, Message := str "你好", MobileNo := [str "6"] }).1
      = sendSMSURL (exampleClient (exampleResponse 200 "1")) (str "1") (str "你好") [str "6"] ∧
    (buildSendSMSRequestURL (exampleClient (exampleResponse 200 "1"))
        { LanguageType := LanguageTypeUnicode, Message := str "Hi", MobileNo := [str "6"] }).1
      = sendSMSURL (exampleClient (exampleResponse 200 "1")) (str "2") (str "00480069")
          [str "6"] ∧
    (buildSendSMSRequestURL (exampleClient (exampleResponse 200 "1"))
        { LanguageType := str "invalid", Message := str "Hello World",
          MobileNo := [str "6"] }).1
      = sendSMSURL (exampleClient (exampleResponse 200 "1")) (str "invalid")
          (str "Hello World") [str "6"] :=
  ⟨(buildSendSMSRequestURL_explicit (exampleClient (exampleResponse 200 "1"))
      { LanguageType := LanguageTypeNormal, Message := str "你好", MobileNo := [str "6"] }
      (by decide)).2.2,
    (buildSendSMSRequestURL_explicit (exampleClient (exampleResponse 200 "1"))
      { LanguageType := LanguageTypeUnicode, Message := str "Hi", MobileNo := [str "6"] }
      (by decide)).2.2,
    (buildSendSMSRequestURL_explicit (exampleClient (exampleResponse 200 "1"))
      { LanguageType := str "invalid", Message := str "Hello World", MobileNo := [str "6"] }
      (by decide)).2.2⟩

/-! ## Output and error -/

/-- C19. Each of `SendSMS`, `CheckTransactionStatus` and `CheckCreditBalance` returns, for
every outcome of the transport, either an output and no error, or an error and no output. -/
theorem output_xor_error {F64 F32 : Type} (fl : FloatOps F64 F32) (net : Net) (c : Client)
    (input : SendSMSInput) (statusInput : CheckTransactionStatusInput) :
    (((SendSMS net c input).1.output.isSome = true ∧ (SendSMS net c input).1.err = none) ∨
      ((SendSMS net c input).1.output = none ∧
        (SendSMS net c input).1.err.isSome = true)) ∧
    (((CheckTransactionStatus net c statusInput).output.isSome = true ∧
        (CheckTransactionStatus net c statusInput).err = none) ∨
      ((CheckTransactionStatus net c statusInput).output = none ∧
        (CheckTransactionStatus net c statusInput).err.isSome = true)) ∧
    (((CheckCreditBalance fl net c).output.isSome = true ∧
        (CheckCreditBalance fl net c).err = none) ∨
      ((CheckCreditBalance fl net c).output.isNone = true ∧
        (CheckCreditBalance fl net c).err.isSome = true)) := by
  refine ⟨?_, ?_, ?_⟩
  · unfold SendSMS
    simp only
    repeat' split
    all_goals simp
  · unfold CheckTransactionStatus
    repeat' split
    all_goals simp
  · unfold CheckCreditBalance
    repeat' split
    all_goals simp

/-! ## Index safety -/

theorem parseMTIDs_length (es : List GoString) (acc l : List Int)
    (h : parseMTIDs es acc = some l) : l.length = acc.length + es.length := by
  induction es generalizing acc with
  | nil =>
    simp only [parseMTIDs, Option.some.injEq] at h
    subst h
    simp
  | cons e rest ih =>
    unfold parseMTIDs at h
    cases hA : Atoi (TrimSpace e) with
    | none => rw [hA] at h; cases h
    | some n =>
      rw [hA] at h
      have := ih _ h
      rw [List.length_append, List.length_singleton] at this
      rw [List.length_cons]
      omega

/-- C20. When the loop of `SendSMS` over the pieces of a body ends without an error, the list
`mtIDs` has one integer for each piece, so one at least: `mtIDs[0]` is in range and the branch
`len(mtIDs) <= 0` is never taken; the empty body fails in the loop, on its one empty piece. -/
theorem parseMTIDs_nonempty (body : GoString) (mtIDs : List Int)
    (h : parseMTIDs (Split body 44) [] = some mtIDs) :
    mtIDs ≠ [] ∧ 0 < mtIDs.length ∧ mtIDs.length = (Split body 44).length ∧
    parseMTIDs (Split [] 44) [] = none := by
  have hlen := parseMTIDs_length _ _ _ h
  have hne := Split_ne_nil body 44
  have hpos : 0 < (Split body 44).length := List.length_pos.2 hne
  simp only [List.length_nil, Nat.zero_add] at hlen
  refine ⟨?_, by omega, hlen, by decide⟩
  intro hnil
  rw [hnil] at hlen
  simp only [List.length_nil] at hlen
  omega

theorem parseMTIDs_nonempty_witness :
    ([145712468, 145712469] : List Int) ≠ [] ∧
    0 < ([145712468, 145712469] : List Int).length ∧
    ([145712468, 145712469] : List Int).length
      = (Split (str "145712468,145712469\n") 44).length ∧
    parseMTIDs (Split [] 44) [] = none :=
  parseMTIDs_nonempty (str "145712468,145712469\n") [145712468, 145712469] (by decide)


/-! ## The HTTP status in the two check operations -/

/-- C21. The HTTP status does not take part in the decoding of `CheckTransactionStatus` and of
`CheckCreditBalance`: on the same body with two status codes the two runs return the same
output, and either no error both, or gateway errors with the same code and the same message
that differ in the status code only; so the body "0" gives the status `success` whatever the
HTTP status, 500 included. -/
theorem check_operations_ignore_status {F64 F32 : Type} (fl : FloatOps F64 F32)
    (net₁ net₂ : Net) (c₁ c₂ : Client) (input : CheckTransactionStatusInput)
    (s₁ s₂ : Int) (b : GoString)
    (hstatus₁ : getRequest net₁ c₁ (buildCheckTransactionStatusRequestURL c₁ input)
      = Except.ok ⟨s₁, Except.ok b⟩)
    (hstatus₂ : getRequest net₂ c₂ (buildCheckTransactionStatusRequestURL c₂ input)
      = Except.ok ⟨s₂, Except.ok b⟩)
    (hcredit₁ : getRequest net₁ c₁ (buildCheckCreditBalanceRequestURL c₁)
      = Except.ok ⟨s₁, Except.ok b⟩)
    (hcredit₂ : getRequest net₂ c₂ (buildCheckCreditBalanceRequestURL c₂)
      = Except.ok ⟨s₂, Except.ok b⟩) :
    ((CheckTransactionStatus net₁ c₁ input).output
        = (CheckTransactionStatus net₂ c₂ input).output ∧
      (((CheckTransactionStatus net₁ c₁ input).err = none ∧
          (CheckTransactionStatus net₂ c₂ input).err = none) ∨
        ∃ code message,
          (CheckTransactionStatus net₁ c₁ input).err = some (owerr.New code message s₁) ∧
          (CheckTransactionStatus net₂ c₂ input).err = some (owerr.New code message s₂))) ∧
    ((CheckCreditBalance fl net₁ c₁).output = (CheckCreditBalance fl net₂ c₂).output ∧
      (((CheckCreditBalance fl net₁ c₁).err = none ∧
          (CheckCreditBalance fl net₂ c₂).err = none) ∨
        ∃ code message,
          (CheckCreditBalance fl net₁ c₁).err = some (owerr.New code message s₁) ∧
          (CheckCreditBalance fl net₂ c₂).err = some (owerr.New code message s₂))) ∧
    (b = str "0" →
      (CheckTransactionStatus net₁ c₁ input).output = some ⟨MTTransactionStatusSuccess⟩ ∧
      (CheckTransactionStatus net₁ c₁ input).err = none) := by
  refine ⟨?_, ?_, ?_⟩
  · unfold CheckTransactionStatus
    simp only [hstatus₁, hstatus₂]
    cases Atoi (TrimSpace b) with
    | none => exact ⟨rfl, Or.inr ⟨_, _, rfl, rfl⟩⟩
    | some n =>
      simp only
      split_ifs
      · exact ⟨rfl, Or.inl ⟨rfl, rfl⟩⟩
      · exact ⟨rfl, Or.inl ⟨rfl, rfl⟩⟩
      · exact ⟨rfl, Or.inr ⟨_, _, rfl, rfl⟩⟩
      · exact ⟨rfl, Or.inr ⟨_, _, rfl, rfl⟩⟩
      · exact ⟨rfl, Or.inr ⟨_, _, rfl, rfl⟩⟩
  · unfold CheckCreditBalance
    simp only [hcredit₁, hcredit₂]
    cases fl.ParseFloat32 (TrimSpace b) with
    | none => exact ⟨rfl, Or.inr ⟨_, _, rfl, rfl⟩⟩
    | some v =>
      simp only
      split_ifs
      · exact ⟨rfl, Or.inl ⟨rfl, rfl⟩⟩
      · exact ⟨rfl, Or.inr ⟨_, _, rfl, rfl⟩⟩
      · exact ⟨rfl, Or.inr ⟨_, _, rfl, rfl⟩⟩
  · intro hb
    subst hb
    unfold CheckTransactionStatus
    simp only [hstatus₁]
    have : Atoi (TrimSpace (str "0")) = some 0 := by decide
    simp only [this, if_true, and_self]

theorem check_operations_ignore_status_witness :
    ((CheckTransactionStatus (exampleNet (exampleResponse 500 "0"))
        (exampleClient (exampleResponse 500 "0")) ⟨145712468⟩).output
        = some ⟨MTTransactionStatusSuccess⟩ ∧
      (CheckTransactionStatus (exampleNet (exampleResponse 500 "0"))
        (exampleClient (exampleResponse 500 "0")) ⟨145712468⟩).err = none) ∧
    (CheckTransactionStatus (exampleNet (exampleResponse 500 "0"))
        (exampleClient (exampleResponse 500 "0")) ⟨145712468⟩).output
      = (CheckTransactionStatus (exampleNet (exampleResponse 200 "0"))
        (exampleClient (exampleResponse 200 "0")) ⟨145712468⟩).output ∧
    (SendSMS (exampleNet (exampleResponse 500 "0"))
        (exampleClient (exampleResponse 500 "0")) exampleInput).1.err
      = some (owerr.New owerr.RequestFailure (str "request failure") 500) :=
  have h := check_operations_ignore_status goFloats (exampleNet (exampleResponse 500 "0"))
    (exampleNet (exampleResponse 200 "0")) (exampleClient (exampleResponse 500 "0"))
    (exampleClient (exampleResponse 200 "0")) ⟨145712468⟩ 500 200 (str "0") rfl rfl rfl rfl
  ⟨h.2.2 rfl, h.1.1, by decide⟩


/-! ## The text of `messageToHex` -/

theorem hexDigitChar_range (d : Nat) (hd : d < 16) :
    (48 ≤ hexDigitChar d ∧ hexDigitChar d ≤ 57) ∨
      (65 ≤ hexDigitChar d ∧ hexDigitChar d ≤ 70) := by
  interval_cases d <;> decide

theorem hexPadded_chars (r : Nat) :
    ∀ b ∈ hexPadded r, (48 ≤ b ∧ b ≤ 57) ∨ (65 ≤ b ∧ b ≤ 70) := by
  intro b hb
  simp only [hexPadded, List.mem_append, List.mem_replicate, List.mem_map, List.mem_reverse] at hb
  rcases hb with ⟨_, rfl⟩ | ⟨d, hd, rfl⟩
  · omega
  · exact hexDigitChar_range d (Nat.digits_lt_base (by norm_num) hd)

theorem messageToHex_chars (message : GoString) :
    ∀ b ∈ messageToHex message, (48 ≤ b ∧ b ≤ 57) ∨ (65 ≤ b ∧ b ≤ 70) := by
  intro b hb
  rw [messageToHex_eq, List.mem_flatMap] at hb
  obtain ⟨r, _, hbr⟩ := hb
  exact hexPadded_chars r b hbr

/-- The value of a hexadecimal digit character. -/
theorem hexDigitChar_value (d : Nat) (hd : d < 16) :
    (if hexDigitChar d ≤ 57 then hexDigitChar d - 48 else hexDigitChar d - 55) = d := by
  interval_cases d <;> decide

theorem hexValue_digits (ds : List Nat) (hds : ∀ d ∈ ds, d < 16) (acc : Nat) :
    (ds.reverse.map hexDigitChar).foldl
        (fun n b => n * 16 + (if b ≤ 57 then b - 48 else b - 55)) acc
      = acc * 16 ^ ds.length + Nat.ofDigits 16 ds := by
  induction ds generalizing acc with
  | nil => simp
  | cons d t ih =>
    simp only [List.reverse_cons, List.map_append, List.map_cons, List.map_nil,
      List.foldl_append, List.foldl_cons, List.foldl_nil, List.length_cons, Nat.ofDigits_cons]
    rw [ih (fun x hx => hds x (by simp [hx])), hexDigitChar_value d (hds d (by simp))]
    ring

theorem hexValue_zeros (k acc : Nat) :
    (List.replicate k 48).foldl
        (fun n b => n * 16 + (if b ≤ 57 then b - 48 else b - 55)) acc = acc * 16 ^ k := by
  induction k generalizing acc with
  | zero => simp
  | succ k ih =>
    simp only [List.replicate_succ, List.foldl_cons]
    rw [ih]
    simp only [show (48 : Nat) ≤ 57 from by norm_num, if_true, Nat.sub_self, Nat.add_zero]
    ring

/-- The hexadecimal text of a code point, read back as a number, is the code point. -/
theorem hexValue_hexPadded (r : Nat) :
    (hexPadded r).foldl (fun n b => n * 16 + (if b ≤ 57 then b - 48 else b - 55)) 0 = r := by
  unfold hexPadded
  simp only [List.foldl_append, hexValue_zeros, Nat.zero_mul]
  rw [hexValue_digits _ (fun d hd => Nat.digits_lt_base (by norm_num) hd), Nat.ofDigits_digits]
  simp

theorem hexPadded_injective (r r' : Nat) (h : hexPadded r = hexPadded r') : r = r' := by
  have h1 := hexValue_hexPadded r
  rw [h, hexValue_hexPadded] at h1
  exact h1.symm

theorem flatMap_hexPadded_length (rs : List Nat) (h : ∀ r ∈ rs, r ≤ 0xFFFF) :
    (rs.flatMap hexPadded).length = 4 * rs.length := by
  induction rs with
  | nil => simp
  | cons r t ih =>
    simp only [List.flatMap_cons, List.length_append, List.length_cons]
    rw [ih (fun x hx => h x (by simp [hx])), (hexPadded_length r).1 (h r (by simp))]
    omega

theorem flatMap_hexPadded_injective (rs₁ rs₂ : List Nat) (h₁ : ∀ r ∈ rs₁, r ≤ 0xFFFF)
    (h₂ : ∀ r ∈ rs₂, r ≤ 0xFFFF) (h : rs₁.flatMap hexPadded = rs₂.flatMap hexPadded) :
    rs₁ = rs₂ := by
  induction rs₁ generalizing rs₂ with
  | nil =>
    cases rs₂ with
    | nil => rfl
    | cons r t =>
      have := congrArg List.length h
      rw [flatMap_hexPadded_length _ h₂] at this
      simp at this
  | cons r t ih =>
    cases rs₂ with
    | nil =>
      have := congrArg List.length h
      rw [flatMap_hexPadded_length _ h₁] at this
      simp at this
    | cons r' t' =>
      simp only [List.flatMap_cons] at h
      have hl : (hexPadded r).length = (hexPadded r').length := by
        rw [(hexPadded_length r).1 (h₁ r (by simp)), (hexPadded_length r').1 (h₂ r' (by simp))]
      obtain ⟨ha, hb⟩ := List.append_inj h hl
      rw [hexPadded_injective r r' ha,
        ih t' (fun x hx => h₁ x (by simp [hx])) (fun x hx => h₂ x (by simp [hx])) hb]

/-- C23, the counterexample. The byte string `[0xFF]`, which is not UTF-8, and the encoding
`[0xEF, 0xBF, 0xBD]` of U+FFFD are two different messages; the loop over the runes yields
the one code point U+FFFD for each, at most U+FFFF, and `messageToHex` returns "FFFD" for both
(as for `[0x80]`): `messageToHex` is not injective on the messages whose code points are at most
U+FFFF. -/
theorem messageToHex_injective_bmp_counterexample :
    rangeRunes [0xFF].length [0xFF] = [0xFFFD] ∧
    rangeRunes [0xEF, 0xBF, 0xBD].length [0xEF, 0xBF, 0xBD] = [0xFFFD] ∧
    messageToHex [0xFF] = str "FFFD" ∧
    messageToHex [0xEF, 0xBF, 0xBD] = str "FFFD" ∧
    messageToHex [0x80] = str "FFFD" ∧
    ¬ (∀ m₁ m₂ : GoString, (∀ r ∈ rangeRunes m₁.length m₁, r ≤ 0xFFFF) →
        (∀ r ∈ rangeRunes m₂.length m₂, r ≤ 0xFFFF) →
        messageToHex m₁ = messageToHex m₂ → m₁ = m₂) := by
  refine ⟨by decide, by decide, by decide, by decide, by decide, ?_⟩
  intro h
  exact absurd (h [0xFF] [0xEF, 0xBF, 0xBD] (by decide) (by decide) (by decide)) (by decide)

/-- C23, amended. For messages whose code points, the runes that the loop over the message
yields, are all at most U+FFFF, `messageToHex` writes four characters for each code point, each
one of `0`-`9` and `A`-`F`, and two such messages with the same output have the same code points
in the same order; when the two messages are well-formed UTF-8, the encoding of scalar values,
they are the same message. -/
theorem messageToHex_injective_bmp (m₁ m₂ : GoString)
    (h₁ : ∀ r ∈ rangeRunes m₁.length m₁, r ≤ 0xFFFF)
    (h₂ : ∀ r ∈ rangeRunes m₂.length m₂, r ≤ 0xFFFF) :
    messageToHex m₁ = (rangeRunes m₁.length m₁).flatMap hexPadded ∧
    (∀ r ∈ rangeRunes m₁.length m₁, (hexPadded r).length = 4) ∧
    (messageToHex m₁).length = 4 * (rangeRunes m₁.length m₁).length ∧
    (∀ b ∈ messageToHex m₁, (48 ≤ b ∧ b ≤ 57) ∨ (65 ≤ b ∧ b ≤ 70)) ∧
    (messageToHex m₁ = messageToHex m₂ →
      rangeRunes m₁.length m₁ = rangeRunes m₂.length m₂) ∧
    ((∃ runes₁, (∀ r ∈ runes₁, isScalar r) ∧ m₁ = encodeRunes runes₁) →
      (∃ runes₂, (∀ r ∈ runes₂, isScalar r) ∧ m₂ = encodeRunes runes₂) →
      messageToHex m₁ = messageToHex m₂ → m₁ = m₂) := by
  have hinj : messageToHex m₁ = messageToHex m₂ →
      rangeRunes m₁.length m₁ = rangeRunes m₂.length m₂ := by
    intro h
    rw [messageToHex_eq, messageToHex_eq] at h
    exact flatMap_hexPadded_injective _ _ h₁ h₂ h
  refine ⟨messageToHex_eq m₁, fun r hr => (hexPadded_length r).1 (h₁ r hr), ?_,
    messageToHex_chars m₁, hinj, ?_⟩
  · rw [messageToHex_eq, flatMap_hexPadded_length _ h₁]
  · rintro ⟨runes₁, hs₁, e₁⟩ ⟨runes₂, hs₂, e₂⟩ h
    have hr := hinj h
    rw [e₁, rangeRunes_encodeRunes runes₁ _ hs₁ (encodeRunes_length runes₁), e₂,
      rangeRunes_encodeRunes runes₂ _ hs₂ (encodeRunes_length runes₂)] at hr
    rw [e₁, e₂, hr]

theorem messageToHex_injective_bmp_witness :
    (messageToHex (encodeRunes [0x4F60, 0x597D])).length = 4 * 2 ∧
    messageToHex (encodeRunes [0x4F60, 0x597D]) ≠ messageToHex (encodeRunes [0x4F60, 0x597E]) :=
  ⟨(messageToHex_injective_bmp (encodeRunes [0x4F60, 0x597D]) (encodeRunes [0x4F60, 0x597E])
      (by decide) (by decide)).2.2.1,
    fun heq =>
      absurd ((messageToHex_injective_bmp (encodeRunes [0x4F60, 0x597D])
        (encodeRunes [0x4F60, 0x597E]) (by decide) (by decide)).2.2.2.2.2
          ⟨[0x4F60, 0x597D], by decide, rfl⟩ ⟨[0x4F60, 0x597E], by decide, rfl⟩ heq)
        (by decide)⟩

/-- C24. `messageToHex` is not injective in general: a code point above U+FFFF is written with
five or six digits and nothing separates the code points, so four times U+1F600 and the five
code points U+1F60, U+01F6, U+001F, U+6001, U+F600 are two different messages with the one
output "1F6001F6001F6001F600". -/
theorem messageToHex_not_injective :
    messageToHex (encodeRunes [0x1F600, 0x1F600, 0x1F600, 0x1F600])
      = str "1F6001F6001F6001F600" ∧
    messageToHex (encodeRunes [0x1F60, 0x01F6, 0x001F, 0x6001, 0xF600])
      = str "1F6001F6001F6001F600" ∧
    encodeRunes [0x1F600, 0x1F600, 0x1F600, 0x1F600]
      ≠ encodeRunes [0x1F60, 0x01F6, 0x001F, 0x6001, 0xF600] ∧
    (hexPadded 0x1F600).length = 5 ∧ (hexPadded 0x10FFFF).length = 6 ∧
    ¬ Function.Injective messageToHex := by
  have ha : messageToHex (encodeRunes [0x1F600, 0x1F600, 0x1F600, 0x1F600])
      = str "1F6001F6001F6001F600" := by decide
  have hb : messageToHex (encodeRunes [0x1F60, 0x01F6, 0x001F, 0x6001, 0xF600])
      = str "1F6001F6001F6001F600" := by decide
  have hne : encodeRunes [0x1F600, 0x1F600, 0x1F600, 0x1F600]
      ≠ encodeRunes [0x1F60, 0x01F6, 0x001F, 0x6001, 0xF600] := by decide
  refine ⟨ha, hb, hne, (hexPadded_length 0x1F600).2.1 (by norm_num) (by norm_num),
    (hexPadded_length 0x10FFFF).2.2 (by norm_num) (by norm_num), ?_⟩
  intro hinj
  exact hne (hinj (ha.trans hb.symm))


/-! ## The input after buildSendSMSRequestURL -/

theorem rangeRunes_ascii (s : GoString) (fuel : Nat) (h : ∀ b ∈ s, b < 0x80)
    (hfuel : s.length ≤ fuel) : rangeRunes fuel s = s := by
  induction fuel generalizing s with
  | zero =>
    have : s = [] := List.length_eq_zero.1 (by omega)
    subst this
    rfl
  | succ f ih =>
    unfold rangeRunes
    cases s with
    | nil => simp
    | cons b rest =>
      have hb : b < 0x80 := h b (by simp)
      have hd : DecodeRuneInString (b :: rest) = (b, 1) := by
        simp only [DecodeRuneInString]
        rw [if_pos hb]
      simp only [List.length_cons, hd, List.drop_one, List.tail_cons]
      rw [if_neg (by omega)]
      rw [ih rest (fun x hx => h x (by simp [hx])) (by simpa using hfuel)]

theorem messageToHex_ascii_length (s : GoString) (h : ∀ b ∈ s, b < 0x80) :
    (messageToHex s).length = 4 * s.length := by
  rw [messageToHex_eq, rangeRunes_ascii s _ h le_rfl,
    flatMap_hexPadded_length s (fun r hr => by have := h r hr; omega)]

theorem messageToHex_length_ge (m : GoString) (h : m ≠ []) : 4 ≤ (messageToHex m).length := by
  cases m with
  | nil => exact absurd rfl h
  | cons b rest =>
    rw [messageToHex_eq]
    simp only [List.length_cons, rangeRunes, Nat.add_one_ne_zero, if_false, List.flatMap_cons,
      List.length_append]
    have := hexPadded_length_ge (DecodeRuneInString (b :: rest)).1
    omega

theorem messageToHex_twice_length (m : GoString) :
    (messageToHex (messageToHex m)).length = 4 * (messageToHex m).length :=
  messageToHex_ascii_length _ (fun b hb => by
    have := messageToHex_chars m b hb
    omega)

theorem messageToHex_twice_ne (m : GoString) (h : m ≠ []) :
    messageToHex (messageToHex m) ≠ messageToHex m := by
  intro heq
  have h1 := messageToHex_twice_length m
  have h2 := messageToHex_length_ge m h
  rw [heq] at h1
  omega

theorem QueryEscape_hex (s : GoString)
    (h : ∀ b ∈ s, (48 ≤ b ∧ b ≤ 57) ∨ (65 ≤ b ∧ b ≤ 70)) : QueryEscape s = s := by
  induction s with
  | nil => rfl
  | cons b t ih =>
    have hb : shouldEscape b = false := by
      have := h b (by simp)
      simp only [shouldEscape, Bool.not_eq_false', Bool.or_eq_true, Bool.and_eq_true,
        decide_eq_true_eq]
      omega
    have ht := ih (fun x hx => h x (by simp [hx]))
    unfold QueryEscape at ht ⊢
    rw [List.flatMap_cons, ht]
    simp [hb]

theorem sendSMSURL_message_ne (c : Client) (languageType m₁ m₂ : GoString)
    (mobileNo : List GoString) (h : (QueryEscape m₁).length ≠ (QueryEscape m₂).length) :
    sendSMSURL c languageType m₁ mobileNo ≠ sendSMSURL c languageType m₂ mobileNo := by
  intro heq
  have := congrArg List.length heq
  simp only [sendSMSURL, List.length_append] at this
  omega

/-- C22. The method `buildSendSMSRequestURL`, and `SendSMS` through it, writes to the input of
the caller and is not idempotent on it.  The input after the call has the resolved language type
and the recipients of before.  When the resolved language type is Unicode and the message is not
empty, the input after the call has the language type Unicode and the message `messageToHex` of
the message of before, and a second call on it sends `messageToHex` of `messageToHex` of the
message, a message parameter and a URL that differ from the ones of the first call.  When the
resolved language type is Normal, the language type alone is written and a second call builds
the same URL. -/
theorem buildSendSMSRequestURL_mutates (c : Client) (input : SendSMSInput) :
    (∀ net, (SendSMS net c input).2 = (buildSendSMSRequestURL c input).2) ∧
    (buildSendSMSRequestURL c input).2.MobileNo = input.MobileNo ∧
    (buildSendSMSRequestURL c input).2.LanguageType
      = (if input.LanguageType = [] then getLanguageType input.Message
          else input.LanguageType) ∧
    ((if input.LanguageType = [] then getLanguageType input.Message else input.LanguageType)
        = LanguageTypeUnicode → input.Message ≠ [] →
      (buildSendSMSRequestURL c input).2
        = { LanguageType := LanguageTypeUnicode, Message := messageToHex input.Message,
            MobileNo := input.MobileNo } ∧
      (buildSendSMSRequestURL c input).1
        = sendSMSURL c LanguageTypeUnicode (messageToHex input.Message) input.MobileNo ∧
      (buildSendSMSRequestURL c (buildSendSMSRequestURL c input).2).2
        = { LanguageType := LanguageTypeUnicode,
            Message := messageToHex (messageToHex input.Message),
            MobileNo := input.MobileNo } ∧
      (buildSendSMSRequestURL c (buildSendSMSRequestURL c input).2).1
        = sendSMSURL c LanguageTypeUnicode (messageToHex (messageToHex input.Message))
            input.MobileNo ∧
      messageToHex (messageToHex input.Message) ≠ messageToHex input.Message ∧
      QueryEscape (messageToHex (messageToHex input.Message))
        ≠ QueryEscape (messageToHex input.Message) ∧
      (buildSendSMSRequestURL c (buildSendSMSRequestURL c input).2).1
        ≠ (buildSendSMSRequestURL c input).1) ∧
    ((if input.LanguageType = [] then getLanguageType input.Message else input.LanguageType)
        = LanguageTypeNormal →
      (buildSendSMSRequestURL c input).2
        = { LanguageType := LanguageTypeNormal, Message := input.Message,
            MobileNo := input.MobileNo } ∧
      buildSendSMSRequestURL c (buildSendSMSRequestURL c input).2
        = buildSendSMSRequestURL c input) := by
  have hU : LanguageTypeUnicode ≠ [] := by decide
  have hN : LanguageTypeNormal ≠ [] := by decide
  refine ⟨fun _ => rfl, ?_, ?_, ?_, ?_⟩
  · unfold buildSendSMSRequestURL
    simp only
    split_ifs <;> rfl
  · unfold buildSendSMSRequestURL
    simp only
    split_ifs <;> rfl
  · intro hres hne
    have hlen : (QueryEscape (messageToHex (messageToHex input.Message))).length
        ≠ (QueryEscape (messageToHex input.Message)).length := by
      rw [QueryEscape_hex _ (messageToHex_chars _), QueryEscape_hex _ (messageToHex_chars _),
        messageToHex_twice_length]
      have := messageToHex_length_ge input.Message hne
      omega
    have first : buildSendSMSRequestURL c input
        = (sendSMSURL c LanguageTypeUnicode (messageToHex input.Message) input.MobileNo,
            { LanguageType := LanguageTypeUnicode, Message := messageToHex input.Message,
              MobileNo := input.MobileNo }) := by
      obtain ⟨lt, msg, mob⟩ := input
      simp only at hres ⊢
      unfold buildSendSMSRequestURL
      by_cases h0 : lt = []
      · rw [if_pos h0] at hres
        subst h0
        simp only [if_true, hres, buildRequestURL_sendSMS]
      · rw [if_neg h0] at hres
        subst hres
        simp only [hU, if_false, if_true, buildRequestURL_sendSMS]
    have second : buildSendSMSRequestURL c
          { LanguageType := LanguageTypeUnicode, Message := messageToHex input.Message,
            MobileNo := input.MobileNo }
        = (sendSMSURL c LanguageTypeUnicode (messageToHex (messageToHex input.Message))
            input.MobileNo,
            { LanguageType := LanguageTypeUnicode,
              Message := messageToHex (messageToHex input.Message),
              MobileNo := input.MobileNo }) := by
      unfold buildSendSMSRequestURL
      simp only [hU, if_false, if_true, buildRequestURL_sendSMS]
    have twice : buildSendSMSRequestURL c (buildSendSMSRequestURL c input).2
        = (sendSMSURL c LanguageTypeUnicode (messageToHex (messageToHex input.Message))
            input.MobileNo,
            { LanguageType := LanguageTypeUnicode,
              Message := messageToHex (messageToHex input.Message),
              MobileNo := input.MobileNo }) := by
      rw [first]
      exact second
    rw [twice, first]
    exact ⟨rfl, rfl, rfl, rfl, messageToHex_twice_ne _ hne,
      fun h => hlen (congrArg List.length h), sendSMSURL_message_ne c _ _ _ _ hlen⟩
  · intro hres
    have first : buildSendSMSRequestURL c input
        = (sendSMSURL c LanguageTypeNormal input.Message input.MobileNo,
            { LanguageType := LanguageTypeNormal, Message := input.Message,
              MobileNo := input.MobileNo }) := by
      obtain ⟨lt, msg, mob⟩ := input
      simp only at hres ⊢
      unfold buildSendSMSRequestURL
      by_cases h0 : lt = []
      · rw [if_pos h0] at hres
        subst h0
        simp only [if_true, hres, if_neg LanguageTypeNormal_ne_Unicode,
          buildRequestURL_sendSMS]
      · rw [if_neg h0] at hres
        subst hres
        simp only [hN, if_false, if_neg LanguageTypeNormal_ne_Unicode,
          buildRequestURL_sendSMS]
    have second : buildSendSMSRequestURL c
          { LanguageType := LanguageTypeNormal, Message := input.Message,
            MobileNo := input.MobileNo }
        = (sendSMSURL c LanguageTypeNormal input.Message input.MobileNo,
            { LanguageType := LanguageTypeNormal, Message := input.Message,
              MobileNo := input.MobileNo }) := by
      unfold buildSendSMSRequestURL
      simp only [hN, if_false, if_neg LanguageTypeNormal_ne_Unicode, buildRequestURL_sendSMS]
    have twice : buildSendSMSRequestURL c (buildSendSMSRequestURL c input).2
        = (sendSMSURL c LanguageTypeNormal input.Message input.MobileNo,
            { LanguageType := LanguageTypeNormal, Message := input.Message,
              MobileNo := input.MobileNo }) := by
      rw [first]
      exact second
    rw [twice, first]
    exact ⟨rfl, rfl⟩

theorem buildSendSMSRequestURL_mutates_witness :
    ((buildSendSMSRequestURL (exampleClient (exampleResponse 200 "1"))
        { LanguageType := [], Message := encodeRunes [0x4F60], MobileNo := [str "60123456789"] }).2
      = { LanguageType := str "2", Message := str "4F60", MobileNo := [str "60123456789"] } ∧
    (buildSendSMSRequestURL (exampleClient (exampleResponse 200 "1"))
        (buildSendSMSRequestURL (exampleClient (exampleResponse 200 "1"))
          { LanguageType := [], Message := encodeRunes [0x4F60],
            MobileNo := [str "60123456789"] }).2).2
      = { LanguageType := str "2", Message := str "0034004600360030",
          MobileNo := [str "60123456789"] }) ∧
    buildSendSMSRequestURL (exampleClient (exampleResponse 200 "1"))
        (buildSendSMSRequestURL (exampleClient (exampleResponse 200 "1")) exampleInput).2
      = buildSendSMSRequestURL (exampleClient (exampleResponse 200 "1")) exampleInput :=
  have h := (buildSendSMSRequestURL_mutates (exampleClient (exampleResponse 200 "1"))
    { LanguageType := [], Message := encodeRunes [0x4F60],
      MobileNo := [str "60123456789"] }).2.2.2.1 (by decide) (by decide)
  ⟨⟨h.1.trans (by decide), h.2.2.1.trans (by decide)⟩,
    ((buildSendSMSRequestURL_mutates (exampleClient (exampleResponse 200 "1"))
      exampleInput).2.2.2.2 (by decide)).2⟩


/-! ## The request for an unset language type -/

theorem EncodeRune_ascii (r : Nat) (h : r < 0x80) : EncodeRune r = [r] := by
  unfold EncodeRune
  rw [if_pos (by omega)]

theorem encodeRunes_ascii_bytes (runes : List Nat) (h : ∀ r ∈ runes, r < 0x80) :
    ∀ b ∈ encodeRunes runes, b < 0x80 := by
  induction runes with
  | nil => intro b hb; cases hb
  | cons r t ih =>
    intro b hb
    rw [encodeRunes_cons, EncodeRune_ascii r (h r (by simp)), List.mem_append] at hb
    rcases hb with hb | hb
    · rw [List.mem_singleton] at hb
      subst hb
      exact h b (by simp)
    · exact ih (fun x hx => h x (by simp [hx])) b hb

theorem getLanguageTypeLoop_narrow (m : GoString) (fuel : Nat)
    (h : ∀ b ∈ m, b < 0x80 ∨ firstInfo b = none) :
    getLanguageTypeLoop fuel m = LanguageTypeNormal := by
  induction fuel generalizing m with
  | zero => rfl
  | succ f ih =>
    unfold getLanguageTypeLoop
    cases m with
    | nil => simp
    | cons b rest =>
      have hd : (DecodeRuneInString (b :: rest)).2 = 1 := by
        simp only [DecodeRuneInString]
        rcases h b (by simp) with hb | hb
        · rw [if_pos hb]
        · rw [hb]
          split_ifs <;> rfl
      simp only [List.length_cons, hd, gt_iff_lt, lt_self_iff_false, if_false, List.drop_one,
        List.tail_cons]
      rw [if_pos (by omega)]
      exact ih rest (fun x hx => h x (by simp [hx]))

theorem getLanguageType_cases (m : GoString) :
    getLanguageType m = LanguageTypeNormal ∨ getLanguageType m = LanguageTypeUnicode := by
  unfold getLanguageType
  generalize m.length = fuel
  induction fuel generalizing m with
  | zero => exact Or.inl rfl
  | succ f ih =>
    unfold getLanguageTypeLoop
    simp only
    split_ifs
    · exact Or.inr rfl
    · exact ih _
    · exact Or.inl rfl

/-- C7, the counterexample. With an unset language type and the message `[0xFF]`, one byte that
is not UTF-8, the loop over the runes of the message yields the code point U+FFFD, which is not
ASCII, and `messageToHex` of the message is "FFFD"; yet the request carries the language type
"1" and the byte as it is, `message=%FF`: `utf8.DecodeRuneInString` gives the width 1 for such
a byte and `getLanguageType` tests the width. -/
theorem buildSendSMSRequestURL_unset_counterexample :
    rangeRunes [0xFF].length [0xFF] = [0xFFFD] ∧ ¬ (0xFFFD < 0x80) ∧
    messageToHex [0xFF] = str "FFFD" ∧
    (buildSendSMSRequestURL (exampleClient (exampleResponse 200 "1"))
        { LanguageType := [], Message := [0xFF], MobileNo := [str "60123456789"] }).2
      = { LanguageType := str "1", Message := [0xFF], MobileNo := [str "60123456789"] } ∧
    (buildSendSMSRequestURL (exampleClient (exampleResponse 200 "1"))
        { LanguageType := [], Message := [0xFF], MobileNo := [str "60123456789"] }).1
      = sendSMSURL (exampleClient (exampleResponse 200 "1")) (str "1") [0xFF]
          [str "60123456789"] ∧
    QueryEscape [0xFF] = str "%FF" ∧
    ¬ (∀ (c : Client) (input : SendSMSInput), input.LanguageType = [] →
        (∃ r ∈ rangeRunes input.Message.length input.Message, 0x80 ≤ r) →
        (buildSendSMSRequestURL c input).2.LanguageType = str "2" ∧
        (buildSendSMSRequestURL c input).2.Message = messageToHex input.Message) := by
  refine ⟨by decide, by decide, by decide, by decide, ?_, by decide, ?_⟩
  · have hlt : getLanguageType [0xFF] = LanguageTypeNormal := by decide
    unfold buildSendSMSRequestURL
    simp only [if_true, hlt, if_neg LanguageTypeNormal_ne_Unicode, buildRequestURL_sendSMS]
    rfl
  intro h
  exact absurd (h (exampleClient (exampleResponse 200 "1"))
    { LanguageType := [], Message := [0xFF], MobileNo := [str "60123456789"] } rfl
    ⟨0xFFFD, by decide, by decide⟩).1 (by decide)

/-- C7, amended. For an input whose language type is unset and whose message is well-formed
UTF-8, the encoding of scalar values, the request carries the language type "1" and the message
as it is when every code point is ASCII, and the language type "2" and `messageToHex` of the
message when one code point is not ASCII.  For every message, well-formed or not: it is one of
the two; it is "1" with the message as it is when every byte is ASCII or cannot start a UTF-8
sequence, and it is "2" with `messageToHex` of the message when the message holds the encoding
of a scalar value from U+0080 on. -/
theorem buildSendSMSRequestURL_unset (c : Client) (input : SendSMSInput)
    (hunset : input.LanguageType = []) :
    (∀ runes : List Nat, (∀ r ∈ runes, isScalar r) → input.Message = encodeRunes runes →
      ((∀ r ∈ runes, r < 0x80) →
        (buildSendSMSRequestURL c input).1
          = sendSMSURL c (str "1") input.Message input.MobileNo ∧
        (buildSendSMSRequestURL c input).2
          = { input with LanguageType := LanguageTypeNormal }) ∧
      ((∃ r ∈ runes, 0x80 ≤ r) →
        (buildSendSMSRequestURL c input).1
          = sendSMSURL c (str "2") (messageToHex input.Message) input.MobileNo ∧
        (buildSendSMSRequestURL c input).2
          = { input with LanguageType := LanguageTypeUnicode,
                         Message := messageToHex input.Message })) ∧
    ((∀ b ∈ input.Message, b < 0x80 ∨ firstInfo b = none) →
      (buildSendSMSRequestURL c input).1
        = sendSMSURL c (str "1") input.Message input.MobileNo ∧
      (buildSendSMSRequestURL c input).2
        = { input with LanguageType := LanguageTypeNormal }) ∧
    ((∃ pre post : GoString, ∃ r, isScalar r ∧ 0x80 ≤ r ∧
        input.Message = pre ++ EncodeRune r ++ post) →
      (buildSendSMSRequestURL c input).1
        = sendSMSURL c (str "2") (messageToHex input.Message) input.MobileNo ∧
      (buildSendSMSRequestURL c input).2
        = { input with LanguageType := LanguageTypeUnicode,
                       Message := messageToHex input.Message }) ∧
    (((buildSendSMSRequestURL c input).1
          = sendSMSURL c (str "1") input.Message input.MobileNo ∧
        (buildSendSMSRequestURL c input).2
          = { input with LanguageType := LanguageTypeNormal }) ∨
      ((buildSendSMSRequestURL c input).1
          = sendSMSURL c (str "2") (messageToHex input.Message) input.MobileNo ∧
        (buildSendSMSRequestURL c input).2
          = { input with LanguageType := LanguageTypeUnicode,
                         Message := messageToHex input.Message })) := by
  have normal : getLanguageType input.Message = LanguageTypeNormal →
      (buildSendSMSRequestURL c input).1
        = sendSMSURL c (str "1") input.Message input.MobileNo ∧
      (buildSendSMSRequestURL c input).2
        = { input with LanguageType := LanguageTypeNormal } := by
    intro hlt
    unfold buildSendSMSRequestURL
    simp only [hunset, if_true, hlt, if_neg LanguageTypeNormal_ne_Unicode,
      buildRequestURL_sendSMS]
    exact ⟨rfl, trivial⟩
  have unicode : getLanguageType input.Message = LanguageTypeUnicode →
      (buildSendSMSRequestURL c input).1
        = sendSMSURL c (str "2") (messageToHex input.Message) input.MobileNo ∧
      (buildSendSMSRequestURL c input).2
        = { input with LanguageType := LanguageTypeUnicode,
                       Message := messageToHex input.Message } := by
    intro hlt
    unfold buildSendSMSRequestURL
    simp only [hunset, if_true, hlt, buildRequestURL_sendSMS]
    exact ⟨rfl, trivial⟩
  have multibyte : (∃ pre post : GoString, ∃ r, isScalar r ∧ 0x80 ≤ r ∧
      input.Message = pre ++ EncodeRune r ++ post) →
      getLanguageType input.Message = LanguageTypeUnicode := by
    rintro ⟨pre, post, r, hr, h80, hmsg⟩
    unfold getLanguageType
    rw [hmsg]
    apply getLanguageTypeLoop_multibyte _ _ _ _ hr h80
    have := EncodeRune_length_pos r
    simp only [List.length_append]
    omega
  refine ⟨?_, ?_, fun h => unicode (multibyte h), ?_⟩
  · intro runes hvalid hmsg
    constructor
    · intro hascii
      apply normal
      rw [hmsg]
      exact getLanguageTypeLoop_ascii _ _ (encodeRunes_ascii_bytes runes hascii)
    · rintro ⟨r, hr, h80⟩
      apply unicode
      apply multibyte
      obtain ⟨l₁, l₂, hsplit⟩ := List.append_of_mem hr
      refine ⟨encodeRunes l₁, encodeRunes l₂, r, hvalid r hr, h80, ?_⟩
      rw [hmsg, hsplit, encodeRunes_append, encodeRunes_cons, List.append_assoc]
  · intro hnarrow
    exact normal (getLanguageTypeLoop_narrow _ _ hnarrow)
  · rcases getLanguageType_cases input.Message with h | h
    · exact Or.inl (normal h)
    · exact Or.inr (unicode h)

theorem buildSendSMSRequestURL_unset_witness :
    ((buildSendSMSRequestURL (exampleClient (exampleResponse 200 "1")) exampleInput).1
        = sendSMSURL (exampleClient (exampleResponse 200 "1")) (str "1") (str "Hello World")
            [str "60123456789", str "60129876543"] ∧
      (buildSendSMSRequestURL (exampleClient (exampleResponse 200 "1")) exampleInput).2
        = { exampleInput with LanguageType := LanguageTypeNormal }) ∧
    ((buildSendSMSRequestURL (exampleClient (exampleResponse 200 "1"))
        { exampleInput with Message := str "你好" }).1
        = sendSMSURL (exampleClient (exampleResponse 200 "1")) (str "2") (str "4F60597D")
            [str "60123456789", str "60129876543"] ∧
      (buildSendSMSRequestURL (exampleClient (exampleResponse 200 "1"))
        { exampleInput with Message := str "你好" }).2
        = { exampleInput with LanguageType := LanguageTypeUnicode,
                              Message := str "4F60597D" }) ∧
    ((buildSendSMSRequestURL (exampleClient (exampleResponse 200 "1"))
        { exampleInput with Message := [0x48, 0xFF, 0x80] }).1
        = sendSMSURL (exampleClient (exampleResponse 200 "1")) (str "1") [0x48, 0xFF, 0x80]
            [str "60123456789", str "60129876543"] ∧
      (buildSendSMSRequestURL (exampleClient (exampleResponse 200 "1"))
        { exampleInput with Message := [0x48, 0xFF, 0x80] }).2
        = { exampleInput with LanguageType := LanguageTypeNormal,
                              Message := [0x48, 0xFF, 0x80] }) :=
  ⟨((buildSendSMSRequestURL_unset (exampleClient (exampleResponse 200 "1")) exampleInput
      rfl).1 [72, 101, 108, 108, 111, 32, 87, 111, 114, 108, 100] (by decide) (by decide)).1
        (by decide),
    ((buildSendSMSRequestURL_unset (exampleClient (exampleResponse 200 "1"))
      { exampleInput with Message := str "你好" } rfl).1 [0x4F60, 0x597D] (by decide)
        (by decide)).2 ⟨0x4F60, by decide, by decide⟩,
    (buildSendSMSRequestURL_unset (exampleClient (exampleResponse 200 "1"))
      { exampleInput with Message := [0x48, 0xFF, 0x80] } rfl).2.1 (by decide)⟩


/-! ## The query of the request URL -/

theorem udigit_unhex (d : Nat) (hd : d < 16) : unhex (udigit d) = some d := by
  interval_cases d <;> rfl

theorem udigit_unreserved (d : Nat) (hd : d < 16) : isUnreserved (udigit d) := by
  unfold isUnreserved udigit
  split_ifs <;> omega

theorem shouldEscape_iff (c : Nat) : shouldEscape c = false ↔ isUnreserved c := by
  simp only [shouldEscape, isUnreserved, Bool.not_eq_false', Bool.or_eq_true, Bool.and_eq_true,
    decide_eq_true_eq]
  tauto

theorem QueryEscape_nil : QueryEscape [] = [] := rfl

theorem QueryEscape_cons (c : Nat) (s : GoString) :
    QueryEscape (c :: s) = QueryEscape [c] ++ QueryEscape s := by
  simp [QueryEscape]

theorem QueryEscape_append (s t : GoString) :
    QueryEscape (s ++ t) = QueryEscape s ++ QueryEscape t := by
  simp [QueryEscape]

theorem QueryEscape_byte (c : Nat) :
    (isUnreserved c → QueryEscape [c] = [c]) ∧
    (c = 32 → QueryEscape [c] = [43]) ∧
    (¬ isUnreserved c → c ≠ 32 → c < 256 →
      QueryEscape [c] = [37, hexDigitChar (c / 16), hexDigitChar (c % 16)]) := by
  refine ⟨?_, ?_, ?_⟩
  · intro h
    have := (shouldEscape_iff c).2 h
    simp [QueryEscape, this]
  · intro h
    subst h
    rfl
  · intro h h32 h256
    have hs : shouldEscape c = true := by
      cases hc : shouldEscape c with
      | true => rfl
      | false => exact absurd ((shouldEscape_iff c).1 hc) h
    have h1 := udigit_eq_hexDigitChar (c / 16) (by omega)
    have h2 := udigit_eq_hexDigitChar (c % 16) (by omega)
    simp [QueryEscape, hs, h32, h1, h2]

theorem QueryEscape_bytes (s : GoString) (hs : isBytes s) :
    ∀ b ∈ QueryEscape s, isUnreserved b ∨ b = 37 ∨ b = 43 := by
  induction s with
  | nil => intro b hb; cases hb
  | cons c t ih =>
    intro b hb
    rw [QueryEscape_cons, List.mem_append] at hb
    rcases hb with hb | hb
    · by_cases hu : isUnreserved c
      · rw [(QueryEscape_byte c).1 hu, List.mem_singleton] at hb
        subst hb
        exact Or.inl hu
      · by_cases h32 : c = 32
        · rw [(QueryEscape_byte c).2.1 h32, List.mem_singleton] at hb
          exact Or.inr (Or.inr hb)
        · have hc : c < 256 := hs c (by simp)
          rw [(QueryEscape_byte c).2.2 hu h32 hc,
            ← udigit_eq_hexDigitChar (c / 16) (by omega),
            ← udigit_eq_hexDigitChar (c % 16) (by omega)] at hb
          simp only [List.mem_cons, List.mem_singleton, List.not_mem_nil, or_false] at hb
          rcases hb with hb | hb | hb
          · exact Or.inr (Or.inl hb)
          · subst hb
            exact Or.inl (udigit_unreserved _ (by omega))
          · subst hb
            exact Or.inl (udigit_unreserved _ (by omega))
    · exact ih (fun x hx => hs x (by simp [hx])) b hb

theorem unescapeLoop_QueryEscape (s : GoString) (hs : isBytes s) (fuel : Nat)
    (hfuel : (QueryEscape s).length ≤ fuel) : unescapeLoop fuel (QueryEscape s) = some s := by
  induction s generalizing fuel with
  | nil =>
    cases fuel <;> rfl
  | cons c t ih =>
    have ht : isBytes t := fun x hx => hs x (by simp [hx])
    rw [QueryEscape_cons] at hfuel ⊢
    by_cases hu : isUnreserved c
    · rw [(QueryEscape_byte c).1 hu] at hfuel ⊢
      cases fuel with
      | zero => simp at hfuel
      | succ f =>
        have h37 : c ≠ 37 := by unfold isUnreserved at hu; omega
        have h43 : c ≠ 43 := by unfold isUnreserved at hu; omega
        show unescapeLoop (f + 1) (c :: QueryEscape t) = some (c :: t)
        simp only [unescapeLoop, h37, h43, if_false]
        rw [ih ht f (by simpa using hfuel)]
        rfl
    · by_cases h32 : c = 32
      · rw [(QueryEscape_byte c).2.1 h32] at hfuel ⊢
        cases fuel with
        | zero => simp at hfuel
        | succ f =>
          show unescapeLoop (f + 1) (43 :: QueryEscape t) = some (c :: t)
          have e : unescapeLoop (f + 1) (43 :: QueryEscape t)
              = (unescapeLoop f (QueryEscape t)).map (fun t => 32 :: t) := by
            simp [unescapeLoop]
          rw [e, ih ht f (by simpa using hfuel), h32]
          rfl
      · have hc : c < 256 := hs c (by simp)
        rw [(QueryEscape_byte c).2.2 hu h32 hc,
          ← udigit_eq_hexDigitChar (c / 16) (by omega),
          ← udigit_eq_hexDigitChar (c % 16) (by omega)] at hfuel ⊢
        cases fuel with
        | zero => simp at hfuel
        | succ f =>
          show unescapeLoop (f + 1) (37 :: udigit (c / 16) :: udigit (c % 16) :: QueryEscape t)
            = some (c :: t)
          simp only [unescapeLoop, if_true,
            udigit_unhex (c / 16) (by omega), udigit_unhex (c % 16) (by omega)]
          rw [ih ht f (by simp at hfuel; omega)]
          simp only [Option.map_some', Option.some.injEq, List.cons.injEq, and_true]
          omega

theorem QueryUnescape_QueryEscape (s : GoString) (hs : isBytes s) :
    QueryUnescape (QueryEscape s) = some s :=
  unescapeLoop_QueryEscape s hs _ le_rfl

theorem isUnreserved_lt (b : Nat) (h : isUnreserved b) : b < 256 := by
  unfold isUnreserved at h
  omega

theorem QueryEscape_unreserved (s : GoString) (h : ∀ b ∈ s, isUnreserved b) :
    QueryEscape s = s := by
  induction s with
  | nil => rfl
  | cons c t ih =>
    rw [QueryEscape_cons, (QueryEscape_byte c).1 (h c (by simp)),
      ih (fun x hx => h x (by simp [hx]))]
    rfl

theorem takeWhile_ne_append (k e : GoString) (sep : Nat) (h : sep ∉ k) :
    (k ++ sep :: e).takeWhile (fun b => b != sep) = k := by
  induction k with
  | nil => simp
  | cons a t ih =>
    have ha : a ≠ sep := fun hh => h (by simp [hh])
    have ht : sep ∉ t := fun hh => h (by simp [hh])
    have hb : (a != sep) = true := by simpa using ha
    rw [List.cons_append, List.takeWhile_cons, hb, if_pos rfl, ih ht]

theorem dropWhile_ne_append (k e : GoString) (sep : Nat) (h : sep ∉ k) :
    (k ++ sep :: e).dropWhile (fun b => b != sep) = sep :: e := by
  induction k with
  | nil => simp
  | cons a t ih =>
    have ha : a ≠ sep := fun hh => h (by simp [hh])
    have ht : sep ∉ t := fun hh => h (by simp [hh])
    have hb : (a != sep) = true := by simpa using ha
    rw [List.cons_append, List.dropWhile_cons, hb, if_pos rfl, ih ht]

theorem piece_bytes (k v : GoString) (hk : ∀ b ∈ k, isUnreserved b) (hv : isBytes v) :
    ∀ b ∈ k ++ 61 :: QueryEscape v, isUnreserved b ∨ b = 37 ∨ b = 43 ∨ b = 61 := by
  intro b hb
  rw [List.mem_append, List.mem_cons] at hb
  rcases hb with hb | hb | hb
  · exact Or.inl (hk b hb)
  · exact Or.inr (Or.inr (Or.inr hb))
  · rcases QueryEscape_bytes v hv b hb with h | h | h
    · exact Or.inl h
    · exact Or.inr (Or.inl h)
    · exact Or.inr (Or.inr (Or.inl h))

theorem parsePair_piece (k v : GoString) (hk : ∀ b ∈ k, isUnreserved b) (hv : isBytes v) :
    parsePair (k ++ 61 :: QueryEscape v) = some (k, v) := by
  have h59 : 59 ∉ k ++ 61 :: QueryEscape v := by
    intro hh
    have := piece_bytes k v hk hv 59 hh
    unfold isUnreserved at this
    omega
  have h61 : 61 ∉ k := by
    intro hh
    have := hk 61 hh
    unfold isUnreserved at this
    omega
  have hkey : QueryUnescape k = some k := by
    have := QueryUnescape_QueryEscape k (fun b hb => isUnreserved_lt b (hk b hb))
    rwa [QueryEscape_unreserved k hk] at this
  unfold parsePair
  rw [if_neg h59, takeWhile_ne_append k _ 61 h61, dropWhile_ne_append k _ 61 h61, hkey]
  simp only [List.drop_succ_cons, List.drop_zero]
  rw [QueryUnescape_QueryEscape v hv]

theorem parsePairs_pieces (kvs : List (GoString × GoString))
    (hk : ∀ kv ∈ kvs, ∀ b ∈ kv.1, isUnreserved b) (hv : ∀ kv ∈ kvs, isBytes kv.2) :
    parsePairs (kvs.map (fun kv => kv.1 ++ 61 :: QueryEscape kv.2)) = some kvs := by
  induction kvs with
  | nil => rfl
  | cons kv t ih =>
    have hne : kv.1 ++ 61 :: QueryEscape kv.2 ≠ [] := by simp
    simp only [List.map_cons, parsePairs, if_neg hne]
    rw [parsePair_piece kv.1 kv.2 (hk kv (by simp)) (hv kv (by simp)),
      ih (fun x hx => hk x (by simp [hx])) (fun x hx => hv x (by simp [hx]))]

theorem ParseQuery_pieces (kvs : List (GoString × GoString)) (hne : kvs ≠ [])
    (hk : ∀ kv ∈ kvs, ∀ b ∈ kv.1, isUnreserved b) (hv : ∀ kv ∈ kvs, isBytes kv.2) :
    ParseQuery (Join (kvs.map (fun kv => kv.1 ++ 61 :: QueryEscape kv.2)) [38]) = some kvs := by
  unfold ParseQuery
  rw [Split_Join _ 38 (by simpa using hne), parsePairs_pieces kvs hk hv]
  intro e he
  rw [List.mem_map] at he
  obtain ⟨kv, hkv, rfl⟩ := he
  intro hh
  have := piece_bytes kv.1 kv.2 (hk kv hkv) (hv kv hkv) 38 hh
  unfold isUnreserved at this
  omega

theorem Join_bytes (es : List GoString) (sep : GoString) (hes : ∀ e ∈ es, isBytes e)
    (hsep : isBytes sep) : isBytes (Join es sep) := by
  induction es with
  | nil => intro b hb; cases hb
  | cons e t ih =>
    cases t with
    | nil => exact hes e (by simp)
    | cons e2 t2 =>
      intro b hb
      simp only [Join, List.mem_append] at hb
      rcases hb with (hb | hb) | hb
      · exact hes e (by simp) b hb
      · exact hsep b hb
      · exact ih (fun x hx => hes x (by simp [hx])) b hb

theorem messageToHex_bytes (m : GoString) : isBytes (messageToHex m) := by
  intro b hb
  have := messageToHex_chars m b hb
  omega

theorem getLanguageType_bytes (m : GoString) : isBytes (getLanguageType m) := by
  rcases getLanguageType_cases m with h | h <;> rw [h] <;> unfold isBytes <;> decide

theorem sendSMS_key_bytes :
    (∀ b ∈ str "apipassword", isUnreserved b) ∧ (∀ b ∈ str "apiusername", isUnreserved b) ∧
    (∀ b ∈ str "languagetype", isUnreserved b) ∧ (∀ b ∈ str "message", isUnreserved b) ∧
    (∀ b ∈ str "mobileno", isUnreserved b) ∧ (∀ b ∈ str "senderid", isUnreserved b) := by
  unfold isUnreserved
  decide

theorem sendSMSURL_query (c : Client) (languageType message : GoString)
    (mobileNo : List GoString) :
    sendSMSURL c languageType message mobileNo
      = c.baseURL ++ str "/api.aspx?" ++ Join
        ([ (str "apipassword", c.apiPassword), (str "apiusername", c.apiUsername),
           (str "languagetype", languageType), (str "message", message),
           (str "mobileno", Join mobileNo (str ",")), (str "senderid", c.senderID) ].map
          (fun kv => kv.1 ++ 61 :: QueryEscape kv.2)) [38] := by
  unfold sendSMSURL
  obtain ⟨_, t1, t2, t3, t4, t5, t6⟩ := sendSMS_texts
  rw [t1, t2, t3, t4, t5, t6]
  simp [Join]

theorem mem_Join (es : List GoString) (sep : GoString) :
    ∀ b ∈ Join es sep, (∃ e ∈ es, b ∈ e) ∨ b ∈ sep := by
  induction es with
  | nil => intro b hb; cases hb
  | cons e t ih =>
    cases t with
    | nil => exact fun b hb => Or.inl ⟨e, by simp, hb⟩
    | cons e2 t2 =>
      intro b hb
      simp only [Join, List.mem_append] at hb
      rcases hb with (hb | hb) | hb
      · exact Or.inl ⟨e, by simp, hb⟩
      · exact Or.inr hb
      · rcases ih b hb with ⟨x, hx, hbx⟩ | h
        · exact Or.inl ⟨x, by simp [hx], hbx⟩
        · exact Or.inr h

theorem buildSendSMSRequestURL_fst (c : Client) (input : SendSMSInput) :
    (buildSendSMSRequestURL c input).1
      = sendSMSURL c (buildSendSMSRequestURL c input).2.LanguageType
          (buildSendSMSRequestURL c input).2.Message input.MobileNo := by
  unfold buildSendSMSRequestURL
  simp only [buildRequestURL_sendSMS]
  split_ifs <;> rfl

theorem buildSendSMSRequestURL_snd (c : Client) (input : SendSMSInput) :
    (buildSendSMSRequestURL c input).2.LanguageType =
      (if input.LanguageType = [] then getLanguageType input.Message
        else input.LanguageType) ∧
    (buildSendSMSRequestURL c input).2.Message =
      (if (buildSendSMSRequestURL c input).2.LanguageType = LanguageTypeUnicode then
        messageToHex input.Message
      else input.Message) ∧
    (buildSendSMSRequestURL c input).2.MobileNo = input.MobileNo := by
  unfold buildSendSMSRequestURL
  simp only
  refine ⟨?_, ?_, ?_⟩
  · split_ifs <;> rfl
  · split_ifs <;> rfl
  · split_ifs <;> rfl

/-- C8. `buildSendSMSRequestURL` returns the base URL, "/api.aspx?" and a query that is the
URL encoding of exactly six parameters.  Read back as a server does, by cutting the query at
every `&`, each piece at its first `=`, and unescaping, the query gives the six pairs
`apipassword`, `apiusername`, `languagetype`, `message`, `mobileno` and `senderid` with the
password, the user name, the resolved language type, the message (in hexadecimal when the
resolved language type is Unicode), the recipients joined with "," in the order of the input,
and the sender.  The query holds no byte but letters, digits, `-`, `_`, `.`, `~`, `%`, `+`, `&`
and `=`, so that no value can add a parameter.  The escaping leaves these letters, digits and
four marks as they are, writes `+` for a space and `%` with two upper-case hexadecimal digits
for any other byte, and unescaping undoes it. -/
theorem buildSendSMSRequestURL_url (c : Client) (input : SendSMSInput)
    (hclient : isBytes c.apiUsername ∧ isBytes c.apiPassword ∧ isBytes c.senderID)
    (hinput : isBytes input.LanguageType ∧ isBytes input.Message ∧
      ∀ m ∈ input.MobileNo, isBytes m) :
    (∃ query : GoString,
      (buildSendSMSRequestURL c input).1 = c.baseURL ++ str "/api.aspx?" ++ query ∧
      ParseQuery query = some
        [ (str "apipassword", c.apiPassword),
          (str "apiusername", c.apiUsername),
          (str "languagetype", (buildSendSMSRequestURL c input).2.LanguageType),
          (str "message", (buildSendSMSRequestURL c input).2.Message),
          (str "mobileno", Join input.MobileNo (str ",")),
          (str "senderid", c.senderID) ] ∧
      (∀ b ∈ query, isUnreserved b ∨ b = 37 ∨ b = 43 ∨ b = 38 ∨ b = 61) ∧
      query = str "apipassword=" ++ QueryEscape c.apiPassword
        ++ str "&apiusername=" ++ QueryEscape c.apiUsername
        ++ str "&languagetype=" ++ QueryEscape (buildSendSMSRequestURL c input).2.LanguageType
        ++ str "&message=" ++ QueryEscape (buildSendSMSRequestURL c input).2.Message
        ++ str "&mobileno=" ++ QueryEscape (Join input.MobileNo (str ","))
        ++ str "&senderid=" ++ QueryEscape c.senderID) ∧
    ((buildSendSMSRequestURL c input).2.LanguageType =
      (if input.LanguageType = [] then getLanguageType input.Message
        else input.LanguageType) ∧
    (buildSendSMSRequestURL c input).2.Message =
      (if (buildSendSMSRequestURL c input).2.LanguageType = LanguageTypeUnicode then
        messageToHex input.Message
      else input.Message) ∧
    (buildSendSMSRequestURL c input).2.MobileNo = input.MobileNo) ∧
    (∀ s : GoString, isBytes s →
      QueryUnescape (QueryEscape s) = some s ∧
      ∀ b ∈ QueryEscape s, isUnreserved b ∨ b = 37 ∨ b = 43) ∧
    (∀ s t : GoString, QueryEscape (s ++ t) = QueryEscape s ++ QueryEscape t) ∧
    (∀ b : Nat, (isUnreserved b → QueryEscape [b] = [b]) ∧
      (b = 32 → QueryEscape [b] = [43]) ∧
      (¬ isUnreserved b → b ≠ 32 → b < 256 →
        QueryEscape [b] = [37, hexDigitChar (b / 16), hexDigitChar (b % 16)])) := by
  obtain ⟨hu, hp, hs⟩ := hclient
  obtain ⟨hl, hm, hn⟩ := hinput
  obtain ⟨e1, e2, e3⟩ := buildSendSMSRequestURL_snd c input
  obtain ⟨k1, k2, k3, k4, k5, k6⟩ := sendSMS_key_bytes
  have hlt : isBytes (buildSendSMSRequestURL c input).2.LanguageType := by
    rw [e1]
    split_ifs
    · exact getLanguageType_bytes _
    · exact hl
  have hmsg : isBytes (buildSendSMSRequestURL c input).2.Message := by
    rw [e2]
    split_ifs
    · exact messageToHex_bytes _
    · exact hm
  have hmob : isBytes (Join input.MobileNo (str ",")) :=
    Join_bytes _ _ hn (by unfold isBytes; decide)
  have hkeys : ∀ kv ∈
      [ (str "apipassword", c.apiPassword), (str "apiusername", c.apiUsername),
        (str "languagetype", (buildSendSMSRequestURL c input).2.LanguageType),
        (str "message", (buildSendSMSRequestURL c input).2.Message),
        (str "mobileno", Join input.MobileNo (str ",")), (str "senderid", c.senderID) ],
      ∀ b ∈ kv.1, isUnreserved b := by
    intro kv hkv
    simp only [List.mem_cons, List.mem_singleton, List.not_mem_nil, or_false] at hkv
    rcases hkv with h | h | h | h | h | h <;> rw [h] <;> assumption
  have hvals : ∀ kv ∈
      [ (str "apipassword", c.apiPassword), (str "apiusername", c.apiUsername),
        (str "languagetype", (buildSendSMSRequestURL c input).2.LanguageType),
        (str "message", (buildSendSMSRequestURL c input).2.Message),
        (str "mobileno", Join input.MobileNo (str ",")), (str "senderid", c.senderID) ],
      isBytes kv.2 := by
    intro kv hkv
    simp only [List.mem_cons, List.mem_singleton, List.not_mem_nil, or_false] at hkv
    rcases hkv with h | h | h | h | h | h <;> rw [h] <;> assumption
  refine ⟨⟨_, ?_, ParseQuery_pieces _ (by simp) hkeys hvals, ?_, ?_⟩, ⟨e1, e2, e3⟩,
    fun s hs => ⟨QueryUnescape_QueryEscape s hs, QueryEscape_bytes s hs⟩,
    QueryEscape_append, QueryEscape_byte⟩
  · rw [buildSendSMSRequestURL_fst, sendSMSURL_query]
  · intro b hb
    rcases mem_Join _ _ b hb with ⟨e, he, hbe⟩ | h
    · rw [List.mem_map] at he
      obtain ⟨kv, hkv, rfl⟩ := he
      rcases piece_bytes kv.1 kv.2 (hkeys kv hkv) (hvals kv hkv) b hbe with h | h | h | h
      · exact Or.inl h
      · exact Or.inr (Or.inl h)
      · exact Or.inr (Or.inr (Or.inl h))
      · exact Or.inr (Or.inr (Or.inr (Or.inr h)))
    · rw [List.mem_singleton] at h
      exact Or.inr (Or.inr (Or.inr (Or.inl h)))
  · obtain ⟨_, t1, t2, t3, t4, t5, t6⟩ := sendSMS_texts
    rw [t1, t2, t3, t4, t5, t6]
    simp [Join]

set_option maxRecDepth 8000 in
theorem buildSendSMSRequestURL_url_witness :
    (∃ query : GoString,
      (buildSendSMSRequestURL
        (NewClient (exampleNet (exampleResponse 200 "1")) (str "http://gw") (str "us er")
          (str "p&w=d") (str "INFO"))
        { LanguageType := [], Message := str "Hello World",
          MobileNo := [str "6012", str "6013"] }).1
        = str "http://gw" ++ str "/api.aspx?" ++ query ∧
      ParseQuery query = some
        [ (str "apipassword", str "p&w=d"), (str "apiusername", str "us er"),
          (str "languagetype", str "1"), (str "message", str "Hello World"),
          (str "mobileno", str "6012,6013"), (str "senderid", str "INFO") ]) ∧
    (buildSendSMSRequestURL
        (NewClient (exampleNet (exampleResponse 200 "1")) (str "http://gw") (str "us er")
          (str "p&w=d") (str "INFO"))
        { LanguageType := [], Message := str "Hello World",
          MobileNo := [str "6012", str "6013"] }).1
      = str ("http://gw/api.aspx?apipassword=p%26w%3Dd&apiusername=us+er&languagetype=1"
          ++ "&message=Hello+World&mobileno=6012%2C6013&senderid=INFO") ∧
    QueryEscape (str "a b&c=d/é+%~;#?") = str "a+b%26c%3Dd%2F%C3%A9%2B%25~%3B%23%3F" :=
  ⟨(buildSendSMSRequestURL_url
      (NewClient (exampleNet (exampleResponse 200 "1")) (str "http://gw") (str "us er")
        (str "p&w=d") (str "INFO"))
      { LanguageType := [], Message := str "Hello World",
        MobileNo := [str "6012", str "6013"] }
      (by unfold isBytes; decide) (by unfold isBytes; decide)).1.imp
      (fun _ h => ⟨h.1, h.2.1.trans (by decide)⟩),
    by decide, by decide⟩


/-! ## Credit balance: the floats -/

theorem two_zpow_pos (e : Int) : (0 : ℚ) < (2 : ℚ) ^ e := by positivity

theorem GoFloat.geZero_iff (v : GoFloat) :
    v.geZero = true ↔ v = GoFloat.inf false ∨ ∃ q, v.toRat = some q ∧ 0 ≤ q := by
  cases v with
  | nan => simp [GoFloat.geZero, GoFloat.toRat]
  | inf neg => cases neg <;> simp [GoFloat.geZero, GoFloat.toRat]
  | fin neg mant exp =>
    have h2 := two_zpow_pos exp
    cases neg with
    | false =>
      simp only [GoFloat.geZero, Bool.not_false, Bool.true_or, GoFloat.toRat, true_iff]
      refine Or.inr ⟨_, rfl, ?_⟩
      simp only [Bool.false_eq_true, if_false, one_mul]
      positivity
    | true =>
      simp only [GoFloat.geZero, Bool.not_true, Bool.false_or, decide_eq_true_eq, GoFloat.toRat,
        if_true, false_or, Option.some.injEq, exists_eq_left', reduceCtorEq]
      constructor
      · intro h
        subst h
        simp
      · intro h
        by_contra hm
        have hpos : (0 : ℚ) < (mant : ℚ) := by
          exact_mod_cast Nat.pos_of_ne_zero hm
        have : (-1 : ℚ) * (mant : ℚ) * (2 : ℚ) ^ exp < 0 := by
          have := mul_pos hpos h2
          linarith
        linarith

theorem GoFloat.eqNeg100_iff (v : GoFloat) :
    v.eqNeg100 = true ↔ v.toRat = some (-100) := by
  cases v with
  | nan => simp [GoFloat.eqNeg100, GoFloat.toRat]
  | inf neg => simp [GoFloat.eqNeg100, GoFloat.toRat]
  | fin neg mant exp =>
    have h2 := two_zpow_pos exp
    cases neg with
    | false =>
      simp only [GoFloat.eqNeg100, GoFloat.toRat, Bool.false_eq_true, if_false, one_mul,
        Option.some.injEq, false_iff]
      intro h
      have : (0 : ℚ) ≤ (mant : ℚ) * (2 : ℚ) ^ exp := by positivity
      linarith
    | true =>
      simp only [GoFloat.eqNeg100, GoFloat.toRat, if_true, Option.some.injEq]
      by_cases he : 0 ≤ exp
      · obtain ⟨k, rfl⟩ := Int.eq_ofNat_of_zero_le he
        simp only [he, if_true, Int.toNat_ofNat, decide_eq_true_eq, zpow_natCast]
        constructor
        · intro h
          have : ((mant * 2 ^ k : ℕ) : ℚ) = 100 := by rw [h]; norm_num
          push_cast at this
          linarith
        · intro h
          have : ((mant * 2 ^ k : ℕ) : ℚ) = ((100 : ℕ) : ℚ) := by
            push_cast
            linarith
          exact_mod_cast this
      · have hneg : exp = -((-exp).toNat : Int) := by
          rw [Int.toNat_of_nonneg (by omega)]
          omega
        generalize (-exp).toNat = k at hneg
        subst hneg
        simp only [he, if_false, decide_eq_true_eq, zpow_neg, zpow_natCast]
        have hk : (0 : ℚ) < (2 : ℚ) ^ k := by positivity
        constructor
        · intro h
          rw [h]
          push_cast
          field_simp
        · intro h
          have : (mant : ℚ) = 100 * 2 ^ k := by
            field_simp at h
            linarith
          exact_mod_cast this


/-! ## Rounding to `float32` -/

theorem bitLengthLoop_spec (fuel n : Nat) (hn : n ≠ 0) (hfuel : n ≤ fuel) :
    2 ^ (bitLengthLoop fuel n - 1) ≤ n ∧ n < 2 ^ bitLengthLoop fuel n ∧
      1 ≤ bitLengthLoop fuel n := by
  induction fuel generalizing n with
  | zero => omega
  | succ f ih =>
    unfold bitLengthLoop
    rw [if_neg hn]
    by_cases h1 : n / 2 = 0
    · have hn1 : n = 1 := by omega
      subst hn1
      cases f <;> simp [bitLengthLoop]
    · obtain ⟨a, b, c⟩ := ih (n / 2) h1 (by omega)
      refine ⟨?_, ?_, by omega⟩
      · have : bitLengthLoop f (n / 2) + 1 - 1 = (bitLengthLoop f (n / 2) - 1) + 1 := by omega
        rw [this, pow_succ]
        omega
      · rw [pow_succ]
        omega

theorem bitLength_spec (n : Nat) (hn : n ≠ 0) :
    2 ^ (bitLength n - 1) ≤ n ∧ n < 2 ^ bitLength n ∧ 1 ≤ bitLength n :=
  bitLengthLoop_spec n n hn le_rfl

theorem scaleBy_pos (num den : Nat) (ex : Int) (hden : 0 < den) : 0 < (scaleBy num den ex).2 := by
  unfold scaleBy
  split_ifs
  · exact Nat.mul_pos hden (by positivity)
  · exact hden

theorem scaleBy_val (num den : Nat) (ex : Int) (hden : 0 < den) :
    (((scaleBy num den ex).1 : ℕ) : ℚ) / (((scaleBy num den ex).2 : ℕ) : ℚ)
      = (num : ℚ) / (den : ℚ) / (2 : ℚ) ^ ex := by
  have hd : (den : ℚ) ≠ 0 := by exact_mod_cast hden.ne'
  unfold scaleBy
  by_cases he : 0 ≤ ex
  · obtain ⟨k, rfl⟩ := Int.eq_ofNat_of_zero_le he
    simp only [he, if_true, Int.toNat_ofNat, zpow_natCast]
    push_cast
    field_simp
  · have hneg : ex = -((-ex).toNat : Int) := by
      rw [Int.toNat_of_nonneg (by omega)]
      omega
    generalize (-ex).toNat = k at hneg
    subst hneg
    simp only [he, if_false, zpow_neg, zpow_natCast]
    push_cast
    field_simp

theorem floorLog2_eq (num den : Nat) :
    floorLog2 num den =
      if (scaleBy num den ((bitLength num : Int) - (bitLength den : Int))).2
          ≤ (scaleBy num den ((bitLength num : Int) - (bitLength den : Int))).1
      then (bitLength num : Int) - (bitLength den : Int)
      else (bitLength num : Int) - (bitLength den : Int) - 1 := by
  unfold floorLog2 scaleBy
  simp only
  split_ifs <;> rfl

theorem le_iff_scaleBy (num den : Nat) (ex : Int) (hden : 0 < den) :
    (scaleBy num den ex).2 ≤ (scaleBy num den ex).1 ↔ (2 : ℚ) ^ ex ≤ (num : ℚ) / (den : ℚ) := by
  have hv := scaleBy_val num den ex hden
  have hp : (0 : ℚ) < (((scaleBy num den ex).2 : ℕ) : ℚ) := by
    exact_mod_cast scaleBy_pos num den ex hden
  have h2 := two_zpow_pos ex
  rw [← Nat.cast_le (α := ℚ), ← one_le_div hp, hv, le_div_iff₀ h2, one_mul]

theorem natCast_bounds (n : Nat) (hn : n ≠ 0) :
    (2 : ℚ) ^ ((bitLength n : Int) - 1) ≤ (n : ℚ) ∧ (n : ℚ) < (2 : ℚ) ^ (bitLength n : Int) := by
  obtain ⟨h1, h2, h3⟩ := bitLength_spec n hn
  have e : (bitLength n : Int) - 1 = ((bitLength n - 1 : ℕ) : Int) := by omega
  rw [e, zpow_natCast, zpow_natCast]
  constructor
  · exact_mod_cast h1
  · exact_mod_cast h2

theorem floorLog2_spec (num den : Nat) (hnum : num ≠ 0) (hden : 0 < den) :
    (2 : ℚ) ^ floorLog2 num den ≤ (num : ℚ) / (den : ℚ) ∧
    (num : ℚ) / (den : ℚ) < (2 : ℚ) ^ (floorLog2 num den + 1) := by
  obtain ⟨n1, n2⟩ := natCast_bounds num hnum
  obtain ⟨d1, d2⟩ := natCast_bounds den hden.ne'
  have hd : (0 : ℚ) < (den : ℚ) := by exact_mod_cast hden
  have hn : (0 : ℚ) < (num : ℚ) := by exact_mod_cast Nat.pos_of_ne_zero hnum
  set a : Int := (bitLength num : Int)
  set b : Int := (bitLength den : Int)
  have hlt : (num : ℚ) / (den : ℚ) < (2 : ℚ) ^ (a - b + 1) := by
    rw [div_lt_iff₀ hd]
    have e : (2 : ℚ) ^ (a - b + 1) = (2 : ℚ) ^ a / (2 : ℚ) ^ (b - 1) := by
      rw [← zpow_sub₀ (by norm_num : (2 : ℚ) ≠ 0)]
      congr 1
      ring
    rw [e, div_mul_eq_mul_div, lt_div_iff₀ (two_zpow_pos _)]
    calc (num : ℚ) * (2 : ℚ) ^ (b - 1) ≤ (num : ℚ) * (den : ℚ) :=
          mul_le_mul_of_nonneg_left d1 hn.le
      _ < (2 : ℚ) ^ a * (den : ℚ) := mul_lt_mul_of_pos_right n2 hd
  have hge : (2 : ℚ) ^ (a - b - 1) ≤ (num : ℚ) / (den : ℚ) := by
    rw [le_div_iff₀ hd]
    have e : (2 : ℚ) ^ (a - b - 1) = (2 : ℚ) ^ (a - 1) / (2 : ℚ) ^ b := by
      rw [← zpow_sub₀ (by norm_num : (2 : ℚ) ≠ 0)]
      congr 1
      ring
    rw [e, div_mul_eq_mul_div, div_le_iff₀ (two_zpow_pos _)]
    calc (2 : ℚ) ^ (a - 1) * (den : ℚ) ≤ (num : ℚ) * (den : ℚ) :=
          mul_le_mul_of_nonneg_right n1 hd.le
      _ ≤ (num : ℚ) * (2 : ℚ) ^ b := mul_le_mul_of_nonneg_left d2.le hn.le
  rw [floorLog2_eq]
  split_ifs with h
  · exact ⟨(le_iff_scaleBy num den _ hden).1 h, hlt⟩
  · refine ⟨hge, ?_⟩
    have := mt (le_iff_scaleBy num den (a - b) hden).2 h
    rw [sub_add_cancel]
    exact lt_of_not_le this

theorem roundHalfEven_bounds (n d : Nat) (hd : 0 < d) :
    2 * n ≤ (2 * roundHalfEven n d + 1) * d ∧ 2 * roundHalfEven n d * d ≤ 2 * n + d := by
  have key : d * (n / d) + n % d = n := Nat.div_add_mod n d
  have hr : n % d < d := Nat.mod_lt n hd
  unfold roundHalfEven
  generalize n / d = q at key ⊢
  generalize n % d = r at key hr ⊢
  subst key
  split_ifs with h
  · constructor
    · nlinarith
    · rcases h with h | ⟨h, _⟩ <;> nlinarith
  · have h1 : ¬ d < 2 * r := fun hh => h (Or.inl hh)
    constructor <;> nlinarith

theorem roundHalfEven_near (n d : Nat) (hd : 0 < d) :
    |((roundHalfEven n d : ℕ) : ℚ) - (n : ℚ) / (d : ℚ)| ≤ 1 / 2 := by
  obtain ⟨h1, h2⟩ := roundHalfEven_bounds n d hd
  have hdq : (0 : ℚ) < (d : ℚ) := by exact_mod_cast hd
  have h1q : (2 : ℚ) * n ≤ (2 * (roundHalfEven n d : ℕ) + 1) * d := by exact_mod_cast h1
  have h2q : (2 : ℚ) * (roundHalfEven n d : ℕ) * d ≤ 2 * n + d := by exact_mod_cast h2
  have hx : (n : ℚ) = (n : ℚ) / (d : ℚ) * d := by field_simp
  generalize (n : ℚ) / (d : ℚ) = x at hx ⊢
  generalize ((roundHalfEven n d : ℕ) : ℚ) = m at h1q h2q ⊢
  rw [hx] at h1q h2q
  have a1 : 2 * x ≤ 2 * m + 1 := by
    by_contra hc
    push_neg at hc
    nlinarith
  have a2 : 2 * m ≤ 2 * x + 1 := by
    by_contra hc
    push_neg at hc
    nlinarith
  rw [abs_le]
  constructor <;> linarith

theorem roundHalfEven_exact (m d : Nat) (hd : 0 < d) : roundHalfEven (m * d) d = m := by
  unfold roundHalfEven
  rw [Nat.mul_mod_left, Nat.mul_div_cancel m hd]
  rw [if_neg]
  omega


theorem round32_eq (neg : Bool) (num den : Nat) (hnum : num ≠ 0) :
    round32 neg num den =
      if roundHalfEven (scaleBy num den (max (floorLog2 num den - 23) (-149))).1
          (scaleBy num den (max (floorLog2 num den - 23) (-149))).2 = 0 then
        (GoFloat.fin neg 0 0, false)
      else if roundHalfEven (scaleBy num den (max (floorLog2 num den - 23) (-149))).1
          (scaleBy num den (max (floorLog2 num den - 23) (-149))).2 = 2 ^ 24 then
        (if 104 < max (floorLog2 num den - 23) (-149) + 1 then (GoFloat.inf neg, true)
          else (GoFloat.fin neg (2 ^ 23) (max (floorLog2 num den - 23) (-149) + 1), false))
      else if 104 < max (floorLog2 num den - 23) (-149) then (GoFloat.inf neg, true)
      else (GoFloat.fin neg
        (roundHalfEven (scaleBy num den (max (floorLog2 num den - 23) (-149))).1
          (scaleBy num den (max (floorLog2 num den - 23) (-149))).2)
        (max (floorLog2 num den - 23) (-149)), false) := by
  unfold round32
  rw [if_neg hnum]

theorem round32_facts (num den : Nat) (hnum : num ≠ 0) (hden : 0 < den) :
    -149 ≤ max (floorLog2 num den - 23) (-149) ∧
    |((roundHalfEven (scaleBy num den (max (floorLog2 num den - 23) (-149))).1
          (scaleBy num den (max (floorLog2 num den - 23) (-149))).2 : ℕ) : ℚ)
        - (num : ℚ) / (den : ℚ) / (2 : ℚ) ^ max (floorLog2 num den - 23) (-149)| ≤ 1 / 2 ∧
    roundHalfEven (scaleBy num den (max (floorLog2 num den - 23) (-149))).1
      (scaleBy num den (max (floorLog2 num den - 23) (-149))).2 ≤ 2 ^ 24 ∧
    (max (floorLog2 num den - 23) (-149) ≠ -149 →
      2 ^ 23 ≤ roundHalfEven (scaleBy num den (max (floorLog2 num den - 23) (-149))).1
        (scaleBy num den (max (floorLog2 num den - 23) (-149))).2) ∧
    (104 < max (floorLog2 num den - 23) (-149) → (2 : ℚ) ^ (128 : ℤ) ≤ (num : ℚ) / (den : ℚ)) := by
  obtain ⟨hlo, hhi⟩ := floorLog2_spec num den hnum hden
  have hnear := roundHalfEven_near (scaleBy num den (max (floorLog2 num den - 23) (-149))).1
    (scaleBy num den (max (floorLog2 num den - 23) (-149))).2 (scaleBy_pos _ _ _ hden)
  rw [scaleBy_val num den _ hden] at hnear
  generalize floorLog2 num den = e at hlo hhi hnear ⊢
  generalize (num : ℚ) / (den : ℚ) = q at hlo hhi hnear ⊢
  have hex1 : e - 23 ≤ max (e - 23) (-149) := le_max_left _ _
  have hex2 : (-149 : ℤ) ≤ max (e - 23) (-149) := le_max_right _ _
  have hex3 : max (e - 23) (-149) = e - 23 ∨ max (e - 23) (-149) = -149 := by
    rcases le_total (e - 23) (-149) with h | h
    · exact Or.inr (max_eq_right h)
    · exact Or.inl (max_eq_left h)
  generalize max (e - 23) (-149) = ex at hex1 hex2 hex3 hnear ⊢
  generalize roundHalfEven (scaleBy num den ex).1 (scaleBy num den ex).2 = m at hnear ⊢
  have h2 := two_zpow_pos ex
  have two : (2 : ℚ) ≠ 0 := by norm_num
  rw [abs_le] at hnear
  obtain ⟨hn1, hn2⟩ := hnear
  have hx24 : q / (2 : ℚ) ^ ex < (2 : ℚ) ^ (24 : ℕ) := by
    rw [div_lt_iff₀ h2]
    calc q < (2 : ℚ) ^ (e + 1) := hhi
      _ ≤ (2 : ℚ) ^ (ex + 24) := zpow_le_zpow_right₀ (by norm_num) (by omega)
      _ = (2 : ℚ) ^ (24 : ℕ) * (2 : ℚ) ^ ex := by
        rw [zpow_add₀ two, zpow_ofNat, mul_comm]
  refine ⟨hex2, abs_le.2 ⟨hn1, hn2⟩, ?_, ?_, ?_⟩
  · have : (m : ℚ) < (2 : ℚ) ^ (24 : ℕ) + 1 := by linarith
    have : (m : ℚ) < ((2 ^ 24 + 1 : ℕ) : ℚ) := by
      push_cast
      linarith
    have := Nat.cast_lt.1 this
    omega
  · intro hne
    have hex : ex = e - 23 := by
      rcases hex3 with h | h
      · exact h
      · exact absurd h hne
    have hx23 : (2 : ℚ) ^ (23 : ℕ) ≤ q / (2 : ℚ) ^ ex := by
      rw [le_div_iff₀ h2]
      calc (2 : ℚ) ^ (23 : ℕ) * (2 : ℚ) ^ ex = (2 : ℚ) ^ (ex + 23) := by
            rw [zpow_add₀ two, zpow_ofNat, mul_comm]
        _ = (2 : ℚ) ^ e := by rw [hex]; congr 1; ring
        _ ≤ q := hlo
    have : ((2 ^ 23 - 1 : ℕ) : ℚ) < (m : ℚ) := by
      push_cast
      linarith
    have := Nat.cast_lt.1 this
    omega
  · intro h104
    calc (2 : ℚ) ^ (128 : ℤ) ≤ (2 : ℚ) ^ e := zpow_le_zpow_right₀ (by norm_num) (by omega)
      _ ≤ q := hlo

theorem round32_zero (neg : Bool) (den : Nat) :
    round32 neg 0 den = (GoFloat.fin neg 0 0, false) := by
  unfold round32
  rw [if_pos rfl]

theorem round32_spec (neg : Bool) (num den : Nat) (hnum : num ≠ 0) (hden : 0 < den) :
    ((round32 neg num den).2 = false →
      ∃ m e, (round32 neg num den).1 = GoFloat.fin neg m e ∧
        (GoFloat.fin neg m e).isFloat32 ∧
        (m ≠ 0 → |(m : ℚ) * (2 : ℚ) ^ e - (num : ℚ) / (den : ℚ)| ≤ (2 : ℚ) ^ e / 2) ∧
        (m = 0 → (num : ℚ) / (den : ℚ) ≤ (2 : ℚ) ^ (-150 : ℤ)) ∧
        (num : ℚ) / (den : ℚ) ≤ (2 : ℚ) ^ (128 : ℤ) - (2 : ℚ) ^ (103 : ℤ)) ∧
    ((round32 neg num den).2 = true →
      (round32 neg num den).1 = GoFloat.inf neg ∧
      (2 : ℚ) ^ (128 : ℤ) - (2 : ℚ) ^ (103 : ℤ) ≤ (num : ℚ) / (den : ℚ)) := by
  obtain ⟨hex, hnear, hm24, hm23, hbig⟩ := round32_facts num den hnum hden
  rw [round32_eq neg num den hnum]
  generalize max (floorLog2 num den - 23) (-149) = ex at hex hnear hm24 hm23 hbig ⊢
  generalize roundHalfEven (scaleBy num den ex).1 (scaleBy num den ex).2 = m
    at hnear hm24 hm23 ⊢
  generalize (num : ℚ) / (den : ℚ) = q at hnear hbig ⊢
  have h2 := two_zpow_pos ex
  have two : (2 : ℚ) ≠ 0 := by norm_num
  rw [abs_le] at hnear
  obtain ⟨hn1, hn2⟩ := hnear
  have e128 : (2 : ℚ) ^ (128 : ℤ) = (2 : ℚ) ^ (24 : ℕ) * (2 : ℚ) ^ (104 : ℤ) := by
    rw [← zpow_natCast, ← zpow_add₀ two]
    norm_num
  have e103 : (2 : ℚ) ^ (103 : ℤ) = (2 : ℚ) ^ (104 : ℤ) / 2 := by
    rw [show (104 : ℤ) = 103 + 1 by norm_num, zpow_add₀ two]
    simp
  have hx : q = q / (2 : ℚ) ^ ex * (2 : ℚ) ^ ex := by field_simp
  generalize q / (2 : ℚ) ^ ex = x at hx hn1 hn2
  have hmono : ∀ a b : ℤ, a ≤ b → (2 : ℚ) ^ a ≤ (2 : ℚ) ^ b :=
    fun a b hab => zpow_le_zpow_right₀ (by norm_num) hab
  by_cases h0 : m = 0
  · rw [if_pos h0]
    subst h0
    refine ⟨fun _ => ⟨0, 0, rfl, ?_, fun h => absurd rfl h, fun _ => ?_, ?_⟩,
      fun h => absurd h (by simp)⟩
    · simp [GoFloat.isFloat32]
    · have hx2 : x ≤ 1 / 2 := by
        simp only [Nat.cast_zero] at hn1
        linarith
      by_cases hex149 : ex = -149
      · subst hex149
        rw [hx]
        have : (2 : ℚ) ^ (-150 : ℤ) = 1 / 2 * (2 : ℚ) ^ (-149 : ℤ) := by
          rw [show (-149 : ℤ) = -150 + 1 by norm_num, zpow_add₀ two]
          simp
          ring
        rw [this]
        exact mul_le_mul_of_nonneg_right hx2 h2.le
      · have := hm23 hex149
        omega
    · have hx2 : x ≤ 1 / 2 := by
        simp only [Nat.cast_zero] at hn1
        linarith
      by_cases hex149 : ex = -149
      · subst hex149
        rw [hx]
        have h149 : (2 : ℚ) ^ (-149 : ℤ) ≤ (2 : ℚ) ^ (103 : ℤ) := hmono _ _ (by norm_num)
        have h103 := two_zpow_pos 103
        have h128 : (2 : ℚ) ^ (103 : ℤ) * 2 ≤ (2 : ℚ) ^ (128 : ℤ) := by
          have := hmono 104 128 (by norm_num)
          rw [e103]
          linarith
        nlinarith
      · have := hm23 hex149
        omega
  · rw [if_neg h0]
    by_cases h24 : m = 2 ^ 24
    · rw [if_pos h24]
      subst h24
      have hxlo : (2 : ℚ) ^ (24 : ℕ) - 1 / 2 ≤ x := by
        have : ((2 ^ 24 : ℕ) : ℚ) = (2 : ℚ) ^ (24 : ℕ) := by norm_num
        rw [this] at hn2
        linarith
      by_cases hov : 104 < ex + 1
      · rw [if_pos hov]
        refine ⟨fun h => absurd h (by simp), fun _ => ⟨rfl, ?_⟩⟩
        have h104 : (2 : ℚ) ^ (104 : ℤ) ≤ (2 : ℚ) ^ ex := hmono _ _ (by omega)
        have h104p := two_zpow_pos 104
        rw [hx, e128, e103]
        have hxpos : (0 : ℚ) ≤ (2 : ℚ) ^ (24 : ℕ) - 1 / 2 := by norm_num
        calc (2 : ℚ) ^ (24 : ℕ) * (2 : ℚ) ^ (104 : ℤ) - (2 : ℚ) ^ (104 : ℤ) / 2
            = ((2 : ℚ) ^ (24 : ℕ) - 1 / 2) * (2 : ℚ) ^ (104 : ℤ) := by ring
          _ ≤ ((2 : ℚ) ^ (24 : ℕ) - 1 / 2) * (2 : ℚ) ^ ex :=
            mul_le_mul_of_nonneg_left h104 hxpos
          _ ≤ x * (2 : ℚ) ^ ex := mul_le_mul_of_nonneg_right hxlo h2.le
      · rw [if_neg hov]
        have hxhi : x ≤ (2 : ℚ) ^ (24 : ℕ) + 1 / 2 := by
          have : ((2 ^ 24 : ℕ) : ℚ) = (2 : ℚ) ^ (24 : ℕ) := by norm_num
          rw [this] at hn1
          linarith
        have e1 : (2 : ℚ) ^ (ex + 1) = 2 * (2 : ℚ) ^ ex := by
          rw [zpow_add₀ two]
          simp
          ring
        refine ⟨fun _ => ⟨2 ^ 23, ex + 1, rfl, ?_, fun _ => ?_, fun h => absurd h (by norm_num),
          ?_⟩, fun h => absurd h (by simp)⟩
        · simp only [GoFloat.isFloat32]
          refine ⟨by norm_num, by omega, by omega, fun h => absurd h (by norm_num),
            fun _ => Or.inl le_rfl⟩
        · rw [e1, hx, abs_le]
          have : ((2 ^ 23 : ℕ) : ℚ) = (2 : ℚ) ^ (23 : ℕ) := by norm_num
          rw [this]
          constructor
          · nlinarith
          · nlinarith
        · have hle : (2 : ℚ) ^ ex ≤ (2 : ℚ) ^ (103 : ℤ) := hmono _ _ (by omega)
          have h103 := two_zpow_pos 103
          rw [hx, e128, e103]
          have h104 : (2 : ℚ) ^ (104 : ℤ) = 2 * (2 : ℚ) ^ (103 : ℤ) := by
            rw [show (104 : ℤ) = 103 + 1 by norm_num, zpow_add₀ two]
            simp
            ring
          rw [h104]
          have : x * (2 : ℚ) ^ ex ≤ ((2 : ℚ) ^ (24 : ℕ) + 1 / 2) * (2 : ℚ) ^ (103 : ℤ) :=
            mul_le_mul hxhi hle h2.le (by norm_num)
          nlinarith
    · rw [if_neg h24]
      by_cases hov : 104 < ex
      · rw [if_pos hov]
        refine ⟨fun h => absurd h (by simp), fun _ => ⟨rfl, ?_⟩⟩
        have := hbig hov
        have h103 := two_zpow_pos 103
        linarith
      · rw [if_neg hov]
        have hmlt : m < 2 ^ 24 := lt_of_le_of_ne hm24 h24
        refine ⟨fun _ => ⟨m, ex, rfl, ?_, fun _ => ?_, fun h => absurd h h0, ?_⟩,
          fun h => absurd h (by simp)⟩
        · simp only [GoFloat.isFloat32]
          refine ⟨hmlt, hex, by omega, fun h => absurd h h0, fun _ => ?_⟩
          by_cases hex149 : ex = -149
          · exact Or.inr hex149
          · exact Or.inl (hm23 hex149)
        · rw [hx, abs_le]
          constructor
          · nlinarith
          · nlinarith
        · have hle : (2 : ℚ) ^ ex ≤ (2 : ℚ) ^ (104 : ℤ) := hmono _ _ (by omega)
          have h104 := two_zpow_pos 104
          have hmq : (m : ℚ) ≤ (2 : ℚ) ^ (24 : ℕ) - 1 := by
            have : (m : ℚ) ≤ ((2 ^ 24 - 1 : ℕ) : ℚ) := Nat.cast_le.2 (by omega)
            push_cast at this
            linarith
          have hxhi : x ≤ (2 : ℚ) ^ (24 : ℕ) - 1 / 2 := by linarith
          have hxpos : (0 : ℚ) ≤ (2 : ℚ) ^ (24 : ℕ) - 1 / 2 := by norm_num
          rw [hx, e128, e103]
          have : x * (2 : ℚ) ^ ex ≤ ((2 : ℚ) ^ (24 : ℕ) - 1 / 2) * (2 : ℚ) ^ (104 : ℤ) :=
            mul_le_mul hxhi hle h2.le hxpos
          linarith


theorem scaleBy_ne_zero (num den : Nat) (ex : Int) (hnum : num ≠ 0) :
    (scaleBy num den ex).1 ≠ 0 := by
  unfold scaleBy
  split_ifs
  · exact hnum
  · exact Nat.mul_ne_zero hnum (by positivity)

theorem round32_exact (neg : Bool) (num den : Nat) (m : Nat) (e : Int) (hden : 0 < den)
    (hval : (num : ℚ) / (den : ℚ) = (m : ℚ) * (2 : ℚ) ^ e)
    (hm : m ≠ 0) (h : (GoFloat.fin neg m e).isFloat32) :
    round32 neg num den = (GoFloat.fin neg m e, false) := by
  obtain ⟨hm24, he1, he2, _, hnorm⟩ := h
  have two : (2 : ℚ) ≠ 0 := by norm_num
  have hmq : (0 : ℚ) < (m : ℚ) := by exact_mod_cast Nat.pos_of_ne_zero hm
  have hnum : num ≠ 0 := by
    intro h0
    subst h0
    have h2 := two_zpow_pos e
    have : (0 : ℚ) < (m : ℚ) * (2 : ℚ) ^ e := mul_pos hmq h2
    simp at hval
    rcases hval with h | h
    · exact hm h
    · exact absurd h h2.ne'
  obtain ⟨hlo, hhi⟩ := floorLog2_spec num den hnum hden
  rw [hval] at hlo hhi
  have hmono : ∀ a b : ℤ, a ≤ b → (2 : ℚ) ^ a ≤ (2 : ℚ) ^ b :=
    fun a b hab => zpow_le_zpow_right₀ (by norm_num) hab
  have hmlt : (m : ℚ) < (2 : ℚ) ^ (24 : ℤ) := by
    have : (m : ℚ) < ((2 ^ 24 : ℕ) : ℚ) := Nat.cast_lt.2 hm24
    rw [zpow_ofNat]
    exact_mod_cast this
  have hE1 : floorLog2 num den < 24 + e := by
    by_contra hc
    push_neg at hc
    have h1 := hmono _ _ hc
    have h2 : (m : ℚ) * (2 : ℚ) ^ e < (2 : ℚ) ^ (24 + e) := by
      rw [zpow_add₀ two]
      exact mul_lt_mul_of_pos_right hmlt (two_zpow_pos e)
    linarith
  have hmax : max (floorLog2 num den - 23) (-149) = e := by
    rcases hnorm hm with h23 | h149
    · have hmge : (2 : ℚ) ^ (23 : ℤ) ≤ (m : ℚ) := by
        have : ((2 ^ 23 : ℕ) : ℚ) ≤ (m : ℚ) := Nat.cast_le.2 h23
        rw [zpow_ofNat]
        exact_mod_cast this
      have hE2 : 23 + e < floorLog2 num den + 1 := by
        by_contra hc
        push_neg at hc
        have h1 := hmono _ _ hc
        have h2 : (2 : ℚ) ^ (23 + e) ≤ (m : ℚ) * (2 : ℚ) ^ e := by
          rw [zpow_add₀ two]
          exact mul_le_mul_of_nonneg_right hmge (two_zpow_pos e).le
        linarith
      have : floorLog2 num den - 23 = e := by omega
      rw [this]
      exact max_eq_left he1
    · subst h149
      exact max_eq_right (by omega)
  rw [round32_eq neg num den hnum, hmax]
  have hd2 := scaleBy_pos num den e hden
  have hv := scaleBy_val num den e hden
  rw [hval] at hv
  have hn2 : (scaleBy num den e).1 = m * (scaleBy num den e).2 := by
    have hd2q : ((scaleBy num den e).2 : ℚ) ≠ 0 := by exact_mod_cast hd2.ne'
    have : ((scaleBy num den e).1 : ℚ) = (m : ℚ) * ((scaleBy num den e).2 : ℚ) := by
      have h2 := (two_zpow_pos e).ne'
      field_simp at hv
      linarith
    exact_mod_cast this
  rw [hn2, roundHalfEven_exact m _ hd2, if_neg hm, if_neg (by omega), if_neg (by omega)]

theorem GoFloat.toFloat32_of_isFloat32 (v : GoFloat) (h : v.isFloat32) : v.toFloat32 = v := by
  cases v with
  | nan => rfl
  | inf neg => rfl
  | fin neg m e =>
    by_cases hm : m = 0
    · subst hm
      have he : e = 0 := h.2.2.2.1 rfl
      subst he
      rfl
    · have hv := scaleBy_val m 1 (-e) Nat.one_pos
      have hd := scaleBy_pos m 1 (-e) Nat.one_pos
      have := round32_exact neg (scaleBy m 1 (-e)).1 (scaleBy m 1 (-e)).2 m e hd
        (by rw [hv, zpow_neg]; simp) hm h
      simp only [GoFloat.toFloat32, this]


theorem round32_isFloat32 (neg : Bool) (num den : Nat) (hden : 0 < den)
    (h : (round32 neg num den).2 = false) : (round32 neg num den).1.isFloat32 := by
  by_cases hnum : num = 0
  · subst hnum
    rw [round32_zero]
    simp [GoFloat.isFloat32]
  · obtain ⟨m, e, h1, h2, _⟩ := (round32_spec neg num den hnum hden).1 h
    rw [h1]
    exact h2

theorem special_isFloat32 (s : GoString) (v : GoFloat) (n : Nat)
    (h : special s = some (v, n)) : v.isFloat32 := by
  cases v with
  | nan => trivial
  | inf neg => trivial
  | fin neg m e =>
    exfalso
    unfold special at h
    split at h
    · cases h
    · split_ifs at h <;> simp at h

theorem ParseFloat32_isFloat32 (s : GoString) (v : GoFloat) (h : ParseFloat32 s = some v) :
    v.isFloat32 := by
  unfold ParseFloat32 at h
  split at h
  · rename_i v' n hs
    split_ifs at h
    cases h
    exact special_isFloat32 s v n hs
  · split at h
    · cases h
    · rename_i r _
      simp only at h
      split_ifs at h with h1 h2 h3 h4 h5 h6
      all_goals try cases h
      · exact round32_isFloat32 _ _ _ (scaleBy_pos _ _ _ Nat.one_pos) (by simpa using h3)
      · exact round32_isFloat32 _ _ _ Nat.one_pos (by simpa using h5)
      · exact round32_isFloat32 _ _ _ (by positivity) (by simpa using h6)

theorem ParseFloat32_toFloat32 (s : GoString) (v : GoFloat) (h : ParseFloat32 s = some v) :
    v.toFloat32 = v :=
  GoFloat.toFloat32_of_isFloat32 v (ParseFloat32_isFloat32 s v h)


/-! ## `ParseFloat` on the plain decimal numerals -/

theorem readDigits_digits (ds tail : GoString) (st : ReadState)
    (hds : ∀ c ∈ ds, 48 ≤ c ∧ c ≤ 57) (hinv : st.nd = 0 → st.mantissa = 0) :
    ∃ nd : Nat, ∃ dp : Int,
      readDigits false (ds ++ tail) st = readDigits false tail
        ⟨st.sawdot, st.sawdigits || !ds.isEmpty, nd, dp,
          ds.foldl (fun n c => n * 10 + (c - 48)) st.mantissa, st.underscores⟩ ∧
      dp - nd = st.dp - st.nd - ds.length ∧
      (nd = 0 → ds.foldl (fun n c => n * 10 + (c - 48)) st.mantissa = 0) := by
  induction ds generalizing st with
  | nil =>
    refine ⟨st.nd, st.dp, ?_, by simp, hinv⟩
    simp
  | cons c t ih =>
    obtain ⟨hc1, hc2⟩ := hds c (by simp)
    have ht : ∀ x ∈ t, 48 ≤ x ∧ x ≤ 57 := fun x hx => hds x (by simp [hx])
    have h95 : c ≠ 95 := by omega
    have h46 : c ≠ 46 := by omega
    by_cases hz : c = 48 ∧ st.nd = 0
    · obtain ⟨nd, dp, h1, h2, h3⟩ := ih { st with sawdigits := true, dp := st.dp - 1 } ht hinv
      have hm : st.mantissa * 10 + (c - 48) = st.mantissa := by
        rw [hinv hz.2, hz.1]
      refine ⟨nd, dp, ?_, ?_, ?_⟩
      · rw [List.cons_append, readDigits, if_neg h95, if_neg h46, if_pos ⟨hc1, hc2⟩, if_pos hz,
          h1]
        simp [hm]
      · simp only [List.length_cons, Nat.cast_add, Nat.cast_one] at h2 ⊢
        omega
      · simpa [hm] using h3
    · obtain ⟨nd, dp, h1, h2, h3⟩ := ih
        { st with sawdigits := true, nd := st.nd + 1,
                  mantissa := st.mantissa * (if false = true then 16 else 10) + (c - 48) } ht
        (by simp)
      refine ⟨nd, dp, ?_, ?_, ?_⟩
      · rw [List.cons_append, readDigits, if_neg h95, if_neg h46, if_pos ⟨hc1, hc2⟩, if_neg hz,
          h1]
        simp
      · simp only [List.length_cons, Nat.cast_add, Nat.cast_one] at h2 ⊢
        omega
      · simpa using h3

theorem lower_plain (c : Nat) (h : c = 46 ∨ (48 ≤ c ∧ c ≤ 57)) : lower c = c := by
  rcases h with h | ⟨h1, h2⟩
  · subst h
    rfl
  · interval_cases c <;> rfl

theorem not_hex_plain (b : GoString) (hb : ∀ c ∈ b, c = 46 ∨ (48 ≤ c ∧ c ≤ 57)) :
    decide (2 < b.length ∧ b.head? = some 48 ∧ (b.drop 1).head?.map lower = some 120)
      = false := by
  rw [decide_eq_false_iff_not]
  rintro ⟨_, _, h3⟩
  cases b with
  | nil => simp at h3
  | cons c rest =>
    cases rest with
    | nil => simp at h3
    | cons d rest2 =>
      have hd := hb d (by simp)
      simp only [List.drop_succ_cons, List.drop_zero, List.head?_cons, Option.map_some',
        Option.some.injEq] at h3
      rw [lower_plain d hd] at h3
      omega

theorem readFloat_body (b : GoString) (neg : Bool) (s : GoString) (st : ReadState)
    (hs : s ≠ []) (hneg : decide (s.head? = some 45) = neg)
    (hs1 : (if s.head? = some 43 ∨ s.head? = some 45 then s.drop 1 else s) = b)
    (hb : ∀ c ∈ b, c = 46 ∨ (48 ≤ c ∧ c ≤ 57))
    (hread : readDigits false b ⟨false, false, 0, 0, 0, false⟩ = (st, []))
    (hsaw : st.sawdigits = true) (hund : st.underscores = false) :
    readFloat s = some ⟨st.mantissa,
      if st.mantissa ≠ 0 then (if st.sawdot then st.dp else (st.nd : Int)) - st.nd else 0,
      neg, false, s.length⟩ := by
  unfold readFloat
  rw [if_neg hs]
  simp only [hneg, hs1, not_hex_plain b hb, Bool.false_eq_true, if_false, hread, hsaw, hund,
    false_and, List.length_nil, Nat.sub_zero]
  rw [if_neg (by decide)]

theorem foldl_digits_zero (ds : GoString) (h : ds.foldl (fun n c => n * 10 + (c - 48)) 0 = 0) :
    ∀ m : Nat, m = 0 → ds.foldl (fun n c => n * 10 + (c - 48)) m = 0 := by
  intro m hm
  rw [hm, h]

theorem commonPrefix_plain (c : Nat) (rest pre : GoString) (p : Nat)
    (hc : c = 46 ∨ (48 ≤ c ∧ c ≤ 57)) (hp : 97 ≤ p) :
    commonPrefixLenIgnoreCase (c :: rest) (p :: pre) = 0 := by
  have h1 : (if 65 ≤ c ∧ c ≤ 90 then c + 32 else c) = c := if_neg (by omega)
  unfold commonPrefixLenIgnoreCase
  rw [h1, if_pos (by omega)]

theorem special_plain (sign b : GoString) (hsign : sign = [] ∨ sign = [43] ∨ sign = [45])
    (hb : ∀ c ∈ b, c = 46 ∨ (48 ≤ c ∧ c ≤ 57)) (hne : b ≠ []) :
    special (sign ++ b) = none := by
  have hinf : str "infinity" = 105 :: [110, 102, 105, 110, 105, 116, 121] := by decide
  cases b with
  | nil => exact absurd rfl hne
  | cons c rest =>
    have hc := hb c (by simp)
    rcases hsign with h | h | h <;> subst h
    · simp only [List.nil_append, special]
      rw [if_neg (by omega), if_neg (by omega), if_neg (by omega)]
    · simp [special, hinf, commonPrefix_plain c rest _ 105 hc (by norm_num)]
    · simp [special, hinf, commonPrefix_plain c rest _ 105 hc (by norm_num)]

theorem readFloat_plain (sign b : GoString) (st : ReadState)
    (hsign : sign = [] ∨ sign = [43] ∨ sign = [45])
    (hb : ∀ c ∈ b, c = 46 ∨ (48 ≤ c ∧ c ≤ 57)) (hne : b ≠ [])
    (hread : readDigits false b ⟨false, false, 0, 0, 0, false⟩ = (st, []))
    (hsaw : st.sawdigits = true) (hund : st.underscores = false) :
    readFloat (sign ++ b) = some ⟨st.mantissa,
      if st.mantissa ≠ 0 then (if st.sawdot then st.dp else (st.nd : Int)) - st.nd else 0,
      decide (sign = [45]), false, (sign ++ b).length⟩ := by
  cases b with
  | nil => exact absurd rfl hne
  | cons c rest =>
    have hc := hb c (by simp)
    have h43 : c ≠ 43 := by omega
    have h45 : c ≠ 45 := by omega
    apply readFloat_body (c :: rest) _ _ st _ _ _ hb hread hsaw hund
    · rcases hsign with h | h | h <;> subst h <;> simp
    · rcases hsign with h | h | h <;> subst h <;> simp [h45]
    · rcases hsign with h | h | h <;> subst h <;> simp [h43, h45]

theorem ParseFloat32_of_readFloat (s : GoString) (r : ReadFloat) (hspecial : special s = none)
    (hread : readFloat s = some r) (hn : r.n = s.length) (hhex : r.hex = false) :
    ParseFloat32 s =
      (if (if 0 ≤ r.exp then round32 r.neg (r.mantissa * 10 ^ r.exp.toNat) 1
            else round32 r.neg r.mantissa (10 ^ (-r.exp).toNat)).2 then none
        else some (if 0 ≤ r.exp then round32 r.neg (r.mantissa * 10 ^ r.exp.toNat) 1
            else round32 r.neg r.mantissa (10 ^ (-r.exp).toNat)).1) := by
  unfold ParseFloat32
  simp only [hspecial, hread, hn, ne_eq, not_true_eq_false, if_false, hhex, Bool.false_eq_true]

theorem round32_decimal (neg : Bool) (m : Nat) (k : Nat) :
    (if (0 : Int) ≤ (if m ≠ 0 then -(k : Int) else 0)
      then round32 neg (m * 10 ^ (if m ≠ 0 then -(k : Int) else 0).toNat) 1
      else round32 neg m (10 ^ (-(if m ≠ 0 then -(k : Int) else 0)).toNat))
    = round32 neg m (10 ^ k) := by
  by_cases hm : m = 0
  · subst hm
    simp [round32_zero]
  · simp only [ne_eq, hm, not_false_eq_true, if_true]
    by_cases hk : k = 0
    · subst hk
      simp
    · have : ¬ (0 : Int) ≤ -(k : Int) := by omega
      rw [if_neg this]
      simp

/-- The plain decimal numerals: an optional sign, digits, and an optional point followed by
digits, with one digit at least.  `ParseFloat32` gives the `float32` nearest to the value
`digitsValue (whole ++ frac) / 10 ^ frac.length`, negated after the sign `-`, and an error when
the value overflows. -/
theorem ParseFloat32_plain (sign whole frac : GoString)
    (hsign : sign = [] ∨ sign = [43] ∨ sign = [45])
    (hwhole : ∀ c ∈ whole, 48 ≤ c ∧ c ≤ 57) (hfrac : ∀ c ∈ frac, 48 ≤ c ∧ c ≤ 57)
    (hne : whole ++ frac ≠ []) :
    ParseFloat32 (sign ++ whole ++ 46 :: frac) =
      (if (round32 (decide (sign = [45])) (digitsValue (whole ++ frac)) (10 ^ frac.length)).2
        then none
        else some
          (round32 (decide (sign = [45])) (digitsValue (whole ++ frac)) (10 ^ frac.length)).1) ∧
    (whole ≠ [] →
      ParseFloat32 (sign ++ whole) =
        (if (round32 (decide (sign = [45])) (digitsValue whole) 1).2 then none
          else some (round32 (decide (sign = [45])) (digitsValue whole) 1).1)) := by
  have hbw : ∀ c ∈ whole, c = 46 ∨ (48 ≤ c ∧ c ≤ 57) := fun c hc => Or.inr (hwhole c hc)
  have hbf : ∀ c ∈ frac, c = 46 ∨ (48 ≤ c ∧ c ≤ 57) := fun c hc => Or.inr (hfrac c hc)
  constructor
  · have hb : ∀ c ∈ whole ++ 46 :: frac, c = 46 ∨ (48 ≤ c ∧ c ≤ 57) := by
      intro c hc
      rw [List.mem_append, List.mem_cons] at hc
      rcases hc with h | h | h
      · exact hbw c h
      · exact Or.inl h
      · exact hbf c h
    obtain ⟨nd1, dp1, r1, _, _⟩ := readDigits_digits whole (46 :: frac)
      ⟨false, false, 0, 0, 0, false⟩ hwhole (fun _ => rfl)
    obtain ⟨nd2, dp2, r2, e2, _⟩ := readDigits_digits frac []
      ⟨true, false || !whole.isEmpty, nd1, (nd1 : Int),
        whole.foldl (fun n c => n * 10 + (c - 48)) 0, false⟩ hfrac
      (by
        intro h0
        exact ‹(nd1 = 0 → _)› h0)
    simp only [List.append_nil] at r1 r2
    have hread : readDigits false (whole ++ 46 :: frac) ⟨false, false, 0, 0, 0, false⟩
        = (⟨true, (false || !whole.isEmpty) || !frac.isEmpty, nd2, dp2,
            digitsValue (whole ++ frac), false⟩, []) := by
      rw [r1, readDigits, if_neg (by norm_num), if_pos rfl]
      simp only [Bool.false_eq_true, if_false]
      rw [r2]
      simp only [digitsValue, List.foldl_append]
      rfl
    have hsaw : ((false || !whole.isEmpty) || !frac.isEmpty) = true := by
      cases whole with
      | nil =>
        cases frac with
        | nil => exact absurd rfl hne
        | cons _ _ => rfl
      | cons _ _ => rfl
    have hrf := readFloat_plain sign (whole ++ 46 :: frac) _ hsign hb (by simp) hread hsaw rfl
    rw [List.append_assoc,
      ParseFloat32_of_readFloat _ _ (special_plain sign _ hsign hb (by simp)) hrf rfl rfl]
    simp only [if_true]
    have hexp : dp2 - (nd2 : Int) = -(frac.length : Int) := by
      simp only at e2
      omega
    rw [hexp, round32_decimal]
  · intro hw
    obtain ⟨nd1, dp1, r1, _, _⟩ := readDigits_digits whole []
      ⟨false, false, 0, 0, 0, false⟩ hwhole (fun _ => rfl)
    have hread : readDigits false whole ⟨false, false, 0, 0, 0, false⟩
        = (⟨false, false || !whole.isEmpty, nd1, dp1, digitsValue whole, false⟩, []) := by
      simp only [List.append_nil] at r1
      rw [r1]
      rfl
    have hsaw : (false || !whole.isEmpty) = true := by
      cases whole with
      | nil => exact absurd rfl hw
      | cons _ _ => rfl
    have hrf := readFloat_plain sign whole _ hsign hbw hw hread hsaw rfl
    rw [ParseFloat32_of_readFloat _ _ (special_plain sign _ hsign hbw hw) hrf rfl rfl]
    simp only [Bool.false_eq_true, if_false, sub_self]
    have := round32_decimal (decide (sign = [45])) (digitsValue whole) 0
    simp only [Nat.cast_zero, neg_zero, ite_self, le_refl, if_true, Int.toNat_zero, pow_zero,
      mul_one] at this ⊢


theorem ParseFloat32_decimal (text : GoString) (neg : Bool) (num scale : Nat)
    (h : IsDecimalNumeral text neg num scale) :
    ParseFloat32 text =
      (if (round32 neg num (10 ^ scale)).2 then none
        else some (round32 neg num (10 ^ scale)).1) := by
  obtain ⟨sign, whole, frac, hsign, hneg, hw, hf, hne, htext, hnum, hscale⟩ := h
  subst hneg hnum hscale
  obtain ⟨h1, h2⟩ := ParseFloat32_plain sign whole frac hsign hw hf hne
  rcases htext with ht | ⟨hfr, ht⟩
  · rw [ht, h1]
  · subst hfr
    rw [List.append_nil] at hne ⊢
    rw [ht, h2 hne]
    simp

theorem round32_threshold (neg : Bool) (num den : Nat) (hden : 0 < den) :
    ((num : ℚ) / (den : ℚ) < (2 : ℚ) ^ (128 : ℤ) - (2 : ℚ) ^ (103 : ℤ) →
      (round32 neg num den).2 = false ∧
      ∃ m e, (round32 neg num den).1 = GoFloat.fin neg m e ∧
        (GoFloat.fin neg m e).isFloat32 ∧
        (m ≠ 0 → |(m : ℚ) * (2 : ℚ) ^ e - (num : ℚ) / (den : ℚ)| ≤ (2 : ℚ) ^ e / 2) ∧
        (m = 0 → (num : ℚ) / (den : ℚ) ≤ (2 : ℚ) ^ (-150 : ℤ)) ∧
        ((num : ℚ) / (den : ℚ) < (2 : ℚ) ^ (-150 : ℤ) → m = 0)) ∧
    ((2 : ℚ) ^ (128 : ℤ) - (2 : ℚ) ^ (103 : ℤ) < (num : ℚ) / (den : ℚ) →
      (round32 neg num den).2 = true ∧ (round32 neg num den).1 = GoFloat.inf neg) := by
  have hB : (0 : ℚ) < (2 : ℚ) ^ (128 : ℤ) - (2 : ℚ) ^ (103 : ℤ) := by
    have : (2 : ℚ) ^ (103 : ℤ) < (2 : ℚ) ^ (128 : ℤ) :=
      zpow_lt_zpow_right₀ (by norm_num) (by norm_num)
    linarith
  by_cases hnum : num = 0
  · subst hnum
    rw [round32_zero]
    refine ⟨fun _ => ⟨rfl, 0, 0, rfl, by simp [GoFloat.isFloat32], fun h => absurd rfl h,
      fun _ => ?_, fun _ => rfl⟩, fun h => ?_⟩
    · simp only [Nat.cast_zero, zero_div]
      exact (two_zpow_pos _).le
    · simp only [Nat.cast_zero, zero_div] at h
      linarith
  · obtain ⟨s1, s2⟩ := round32_spec neg num den hnum hden
    cases hov : (round32 neg num den).2 with
    | false =>
      obtain ⟨m, e, h1, h2, h3, h4, h5⟩ := s1 hov
      refine ⟨fun _ => ⟨rfl, m, e, h1, h2, h3, h4, fun hq => ?_⟩, fun h => ?_⟩
      · by_contra hm
        have hb := h3 hm
        rw [abs_le] at hb
        obtain ⟨_, he, _, _, _⟩ := h2
        have hm1 : (1 : ℚ) ≤ (m : ℚ) := by exact_mod_cast Nat.pos_of_ne_zero hm
        have h2e := two_zpow_pos e
        have hmono : (2 : ℚ) ^ (-149 : ℤ) ≤ (2 : ℚ) ^ e :=
          zpow_le_zpow_right₀ (by norm_num) he
        have h150 : (2 : ℚ) ^ (-150 : ℤ) = (2 : ℚ) ^ (-149 : ℤ) / 2 := by
          rw [show (-149 : ℤ) = -150 + 1 by norm_num, zpow_add₀ (by norm_num : (2 : ℚ) ≠ 0)]
          simp
        rw [h150] at hq
        have hme : (2 : ℚ) ^ e ≤ (m : ℚ) * (2 : ℚ) ^ e := by
          have := mul_le_mul_of_nonneg_right hm1 h2e.le
          linarith
        obtain ⟨_, hb2⟩ := hb
        generalize (m : ℚ) * (2 : ℚ) ^ e = M at hme hb2
        generalize (2 : ℚ) ^ e = A at hme hb2 hmono h2e
        generalize (num : ℚ) / (den : ℚ) = Q at hq hb2
        generalize (2 : ℚ) ^ (-149 : ℤ) = B at hq hmono
        linarith
      · linarith
    | true =>
      obtain ⟨h1, h2⟩ := s2 hov
      exact ⟨fun h => absurd h (not_lt.2 h2), fun _ => ⟨rfl, h1⟩⟩

theorem CheckCreditBalance_go (net : Net) (c : Client) (resp : Response) (b : GoString)
    (hresp : getRequest net c (buildCheckCreditBalanceRequestURL c) = Except.ok resp)
    (hbody : resp.Body = Except.ok b) :
    CheckCreditBalance goFloats net c =
      match ParseFloat32 (TrimSpace b) with
      | none =>
        ⟨none, some resp,
          some (owerr.New owerr.UnknownError (str "unknown error") resp.StatusCode)⟩
      | some v =>
        if v.geZero then ⟨some ⟨v.toFloat32⟩, some resp, none⟩
        else if v.eqNeg100 then
          ⟨none, some resp, some (owerr.New owerr.InvalidCredentials
            (str "apiusername or apipassword is invalid") resp.StatusCode)⟩
        else
          ⟨none, some resp,
            some (owerr.New owerr.UnknownError (str "unknown error") resp.StatusCode)⟩ := by
  unfold CheckCreditBalance
  simp only [hresp, hbody, goFloats]
  cases ParseFloat32 (TrimSpace b) <;> rfl

theorem CheckCreditBalance_parsed (net : Net) (c : Client) (resp : Response) (b : GoString)
    (v : GoFloat)
    (hresp : getRequest net c (buildCheckCreditBalanceRequestURL c) = Except.ok resp)
    (hbody : resp.Body = Except.ok b) (hparse : ParseFloat32 (TrimSpace b) = some v) :
    CheckCreditBalance goFloats net c =
      if v.geZero then ⟨some ⟨v⟩, some resp, none⟩
      else if v.eqNeg100 then
        ⟨none, some resp, some (owerr.New owerr.InvalidCredentials
          (str "apiusername or apipassword is invalid") resp.StatusCode)⟩
      else
        ⟨none, some resp,
          some (owerr.New owerr.UnknownError (str "unknown error") resp.StatusCode)⟩ := by
  rw [CheckCreditBalance_go net c resp b hresp hbody, hparse]
  simp only [ParseFloat32_toFloat32 _ v hparse]

theorem CheckCreditBalance_rejected (net : Net) (c : Client) (resp : Response) (b : GoString)
    (hresp : getRequest net c (buildCheckCreditBalanceRequestURL c) = Except.ok resp)
    (hbody : resp.Body = Except.ok b) (hparse : ParseFloat32 (TrimSpace b) = none) :
    CheckCreditBalance goFloats net c =
      ⟨none, some resp,
        some (owerr.New owerr.UnknownError (str "unknown error") resp.StatusCode)⟩ := by
  rw [CheckCreditBalance_go net c resp b hresp hbody, hparse]

theorem GoFloat.geZero_false_iff (v : GoFloat) :
    v.geZero = false ↔
      v = GoFloat.nan ∨ v = GoFloat.inf true ∨ ∃ q, v.toRat = some q ∧ q < 0 := by
  cases v with
  | nan => simp [GoFloat.geZero]
  | inf neg => cases neg <;> simp [GoFloat.geZero, GoFloat.toRat]
  | fin neg mant exp =>
    have h2 := two_zpow_pos exp
    cases neg with
    | false =>
      simp only [GoFloat.geZero, Bool.not_false, Bool.true_or, Bool.true_eq_false,
        GoFloat.toRat, reduceCtorEq, false_or, Option.some.injEq, exists_eq_left', false_iff,
        not_lt, Bool.false_eq_true, if_false, one_mul]
      positivity
    | true =>
      simp only [GoFloat.geZero, Bool.not_true, Bool.false_or, decide_eq_false_iff_not,
        GoFloat.toRat, reduceCtorEq, false_or, Option.some.injEq, exists_eq_left', if_true]
      constructor
      · intro hm
        have hpos : (0 : ℚ) < (mant : ℚ) := by exact_mod_cast Nat.pos_of_ne_zero hm
        have := mul_pos hpos h2
        linarith
      · intro h hm
        subst hm
        simp at h


/-! ## Credit balance: the claims -/

set_option maxRecDepth 8000 in
/-- C10, the counterexample. The body "1e39" is a decimal number above zero, ten to the power
39 (`readFloat` reads the mantissa 1 and the exponent 39), and so is the body of a 1 followed by
39 zeros; both are beyond the range of `float32`, `strconv.ParseFloat(s, 32)` returns an error
of range for them, and `CheckCreditBalance` returns no output and the gateway error
`UnknownError`. -/
theorem CheckCreditBalance_success_counterexample :
    readFloat (str "1e39") = some ⟨1, 39, false, false, 4⟩ ∧
    ParseFloat32 (TrimSpace (str "1e39")) = none ∧
    (CheckCreditBalance goFloats (exampleNet (exampleResponse 200 "1e39"))
      (exampleClient (exampleResponse 200 "1e39"))).output.isNone = true ∧
    (CheckCreditBalance goFloats (exampleNet (exampleResponse 200 "1e39"))
      (exampleClient (exampleResponse 200 "1e39"))).err
      = some (owerr.New owerr.UnknownError (str "unknown error") 200) ∧
    IsDecimalNumeral (TrimSpace (str "1000000000000000000000000000000000000000")) false
      (10 ^ 39) 0 ∧
    (CheckCreditBalance goFloats
      (exampleNet (exampleResponse 200 "1000000000000000000000000000000000000000"))
      (exampleClient (exampleResponse 200 "1000000000000000000000000000000000000000"))).err
      = some (owerr.New owerr.UnknownError (str "unknown error") 200) := by
  refine ⟨by decide, by decide, by decide, by decide, ?_, by decide⟩
  refine ⟨[], str "1000000000000000000000000000000000000000", [], Or.inl rfl, by decide,
    by decide, by decide, by decide, Or.inr ⟨rfl, by decide⟩, by decide, rfl⟩

/-- C10, amended. `CheckCreditBalance` on a response whose trimmed body
`strconv.ParseFloat(s, 32)` reads without error as the 32-bit float `v` with `v >= 0`: no
error, and the output's `CreditBalance` is `v`; so every output has a balance that is the
positive infinity or a number from zero on; on a body that `ParseFloat` rejects: no output, and
the gateway error `UnknownError` with the status code of the response.  For a plain decimal
numeral without the sign `-`, of value `q`: below `2 ^ 128 - 2 ^ 103` the body is read, and `v`
is a `float32` within half a unit in its last place of `q`, the zero for `q` below
`2 ^ (-150)`; above `2 ^ 128 - 2 ^ 103` the body is rejected, as any number beyond the range
of `float32`. -/
theorem CheckCreditBalance_success (net : Net) (c : Client) (resp : Response) (b : GoString)
    (hresp : getRequest net c (buildCheckCreditBalanceRequestURL c) = Except.ok resp)
    (hbody : resp.Body = Except.ok b) :
    (∀ v, ParseFloat32 (TrimSpace b) = some v → v.geZero = true →
      (CheckCreditBalance goFloats net c).output.map (fun o => o.CreditBalance) = some v ∧
      (CheckCreditBalance goFloats net c).err = none ∧ v.isFloat32) ∧
    (∀ o, (CheckCreditBalance goFloats net c).output = some o →
      (o.CreditBalance = GoFloat.inf false ∨ ∃ q, o.CreditBalance.toRat = some q ∧ 0 ≤ q) ∧
      (CheckCreditBalance goFloats net c).err = none) ∧
    (ParseFloat32 (TrimSpace b) = none →
      (CheckCreditBalance goFloats net c).output.isNone = true ∧
      (CheckCreditBalance goFloats net c).err =
        some (owerr.New owerr.UnknownError (str "unknown error") resp.StatusCode)) ∧
    (∀ num scale : Nat, IsDecimalNumeral (TrimSpace b) false num scale →
      ((num : ℚ) / ((10 ^ scale : ℕ) : ℚ) < (2 : ℚ) ^ (128 : ℤ) - (2 : ℚ) ^ (103 : ℤ) →
        ∃ m e, (CheckCreditBalance goFloats net c).output.map (fun o => o.CreditBalance)
            = some (GoFloat.fin false m e) ∧
          (CheckCreditBalance goFloats net c).err = none ∧
          (GoFloat.fin false m e).isFloat32 ∧
          (m ≠ 0 →
            |(m : ℚ) * (2 : ℚ) ^ e - (num : ℚ) / ((10 ^ scale : ℕ) : ℚ)| ≤ (2 : ℚ) ^ e / 2) ∧
          (m = 0 → (num : ℚ) / ((10 ^ scale : ℕ) : ℚ) ≤ (2 : ℚ) ^ (-150 : ℤ)) ∧
          ((num : ℚ) / ((10 ^ scale : ℕ) : ℚ) < (2 : ℚ) ^ (-150 : ℤ) → m = 0)) ∧
      ((2 : ℚ) ^ (128 : ℤ) - (2 : ℚ) ^ (103 : ℤ) < (num : ℚ) / ((10 ^ scale : ℕ) : ℚ) →
        (CheckCreditBalance goFloats net c).output.isNone = true ∧
        (CheckCreditBalance goFloats net c).err =
          some (owerr.New owerr.UnknownError (str "unknown error") resp.StatusCode))) := by
  refine ⟨?_, ?_, ?_, ?_⟩
  · intro v hv hge
    rw [CheckCreditBalance_parsed net c resp b v hresp hbody hv, if_pos hge]
    exact ⟨rfl, rfl, ParseFloat32_isFloat32 _ v hv⟩
  · intro o ho
    cases hp : ParseFloat32 (TrimSpace b) with
    | none =>
      rw [CheckCreditBalance_rejected net c resp b hresp hbody hp] at ho
      cases ho
    | some v =>
      rw [CheckCreditBalance_parsed net c resp b v hresp hbody hp] at ho ⊢
      by_cases hge : v.geZero = true
      · rw [if_pos hge] at ho ⊢
        simp only [Option.some.injEq] at ho
        subst ho
        exact ⟨(GoFloat.geZero_iff v).1 hge, rfl⟩
      · rw [if_neg hge] at ho
        split_ifs at ho
  · intro hp
    rw [CheckCreditBalance_rejected net c resp b hresp hbody hp]
    exact ⟨rfl, rfl⟩
  · intro num scale hnumeral
    have hparse := ParseFloat32_decimal _ _ _ _ hnumeral
    obtain ⟨t1, t2⟩ := round32_threshold false num (10 ^ scale) (by positivity)
    constructor
    · intro hq
      obtain ⟨hov, m, e, h1, h2, h3, h4, h5⟩ := t1 hq
      rw [hov, h1] at hparse
      simp only [Bool.false_eq_true, if_false] at hparse
      rw [CheckCreditBalance_parsed net c resp b _ hresp hbody hparse]
      have hge : (GoFloat.fin false m e).geZero = true := rfl
      rw [if_pos hge]
      exact ⟨m, e, rfl, rfl, h2, h3, h4, h5⟩
    · intro hq
      obtain ⟨hov, _⟩ := t2 hq
      rw [hov] at hparse
      simp only [if_true] at hparse
      rw [CheckCreditBalance_rejected net c resp b hresp hbody hparse]
      exact ⟨rfl, rfl⟩

theorem CheckCreditBalance_success_witness :
    (CheckCreditBalance goFloats (exampleNet (exampleResponse 200 "6500.5\n"))
        (exampleClient (exampleResponse 200 "6500.5\n"))).output.map
        (fun o => o.CreditBalance) = some (GoFloat.fin false 13313024 (-11)) ∧
    (CheckCreditBalance goFloats (exampleNet (exampleResponse 200 "6500.5\n"))
        (exampleClient (exampleResponse 200 "6500.5\n"))).err = none ∧
    (GoFloat.fin false 13313024 (-11)).toRat = some (13001 / 2) ∧
    ((CheckCreditBalance goFloats (exampleNet (exampleResponse 404 "abc"))
        (exampleClient (exampleResponse 404 "abc"))).output.isNone = true ∧
      (CheckCreditBalance goFloats (exampleNet (exampleResponse 404 "abc"))
        (exampleClient (exampleResponse 404 "abc"))).err
        = some (owerr.New owerr.UnknownError (str "unknown error") 404)) :=
  have h := (CheckCreditBalance_success (exampleNet (exampleResponse 200 "6500.5\n"))
    (exampleClient (exampleResponse 200 "6500.5\n")) (exampleResponse 200 "6500.5\n")
    (str "6500.5\n") rfl rfl).1 (GoFloat.fin false 13313024 (-11)) (by decide) (by decide)
  ⟨h.1, h.2.1, by norm_num [GoFloat.toRat],
    (CheckCreditBalance_success (exampleNet (exampleResponse 404 "abc"))
      (exampleClient (exampleResponse 404 "abc")) (exampleResponse 404 "abc")
      (str "abc") rfl rfl).2.2.1 (by decide)⟩

set_option maxRecDepth 8000 in
/-- C11, the counterexample. The body "-1e-51" is a negative number; `strconv.ParseFloat(s, 32)`
rounds it to the negative zero, which is not below zero, and `CheckCreditBalance` returns an
output, of balance the negative zero, and no error.  The body "-99.9999999" is a negative decimal
number other than -100; `strconv.ParseFloat(s, 32)` rounds it to the `float32` -100, and
`CheckCreditBalance` returns the gateway error `InvalidCredentials`. -/
theorem CheckCreditBalance_negative_counterexample :
    readFloat (str "-1e-51") = some ⟨1, -51, true, false, 6⟩ ∧
    (CheckCreditBalance goFloats (exampleNet (exampleResponse 200 "-1e-51"))
      (exampleClient (exampleResponse 200 "-1e-51"))).output.map (fun o => o.CreditBalance)
      = some (GoFloat.fin true 0 0) ∧
    (CheckCreditBalance goFloats (exampleNet (exampleResponse 200 "-1e-51"))
      (exampleClient (exampleResponse 200 "-1e-51"))).err = none ∧
    IsDecimalNumeral (TrimSpace (str "-99.9999999")) true 999999999 7 ∧
    ParseFloat32 (TrimSpace (str "-99.9999999")) = some (GoFloat.fin true 13107200 (-17)) ∧
    (GoFloat.fin true 13107200 (-17)).toRat = some (-100) ∧
    (CheckCreditBalance goFloats (exampleNet (exampleResponse 200 "-99.9999999"))
      (exampleClient (exampleResponse 200 "-99.9999999"))).err
      = some (owerr.New owerr.InvalidCredentials (str "apiusername or apipassword is invalid")
          200) := by
  refine ⟨by decide, by decide, by decide, ?_, by decide, ?_, by decide⟩
  · exact ⟨str "-", str "99", str "9999999", Or.inr (Or.inr rfl), by decide,
      by decide, by decide, by decide, Or.inl (by decide), by decide, rfl⟩
  · norm_num [GoFloat.toRat]

/-- C11, amended. `CheckCreditBalance` on a response whose trimmed body
`strconv.ParseFloat(s, 32)` reads without error as the 32-bit float `v`, with `v >= 0` false:
no output, and a gateway error with the status code of the response, of code
`InvalidCredentials` when `v` is -100 and of code `UnknownError` otherwise; such a `v` is a
number below zero, the negative infinity or the NaN.  For a plain decimal numeral with the sign
`-`, of absolute value `q`: below `2 ^ (-150)` the body is read as the negative zero, and the
call returns an output and no error; between `2 ^ (-150)` and `2 ^ 128 - 2 ^ 103` the body is
read as a `float32` below zero within half a unit in its last place of `-q`, and the code of the
error is `InvalidCredentials` exactly when that `float32` is -100; above `2 ^ 128 - 2 ^ 103` the
body is rejected, and the error is `UnknownError`. -/
theorem CheckCreditBalance_negative (net : Net) (c : Client) (resp : Response) (b : GoString)
    (hresp : getRequest net c (buildCheckCreditBalanceRequestURL c) = Except.ok resp)
    (hbody : resp.Body = Except.ok b) :
    (∀ v, ParseFloat32 (TrimSpace b) = some v → v.geZero = false →
      (CheckCreditBalance goFloats net c).output.isNone = true ∧
      (CheckCreditBalance goFloats net c).resp = some resp ∧
      (v.toRat = some (-100) →
        (CheckCreditBalance goFloats net c).err =
          some (owerr.New owerr.InvalidCredentials
            (str "apiusername or apipassword is invalid") resp.StatusCode)) ∧
      (v.toRat ≠ some (-100) →
        (CheckCreditBalance goFloats net c).err =
          some (owerr.New owerr.UnknownError (str "unknown error") resp.StatusCode)) ∧
      (v = GoFloat.nan ∨ v = GoFloat.inf true ∨ ∃ q, v.toRat = some q ∧ q < 0)) ∧
    (∀ num scale : Nat, IsDecimalNumeral (TrimSpace b) true num scale →
      ((num : ℚ) / ((10 ^ scale : ℕ) : ℚ) < (2 : ℚ) ^ (-150 : ℤ) →
        (CheckCreditBalance goFloats net c).output.map (fun o => o.CreditBalance)
          = some (GoFloat.fin true 0 0) ∧
        (CheckCreditBalance goFloats net c).err = none) ∧
      ((2 : ℚ) ^ (-150 : ℤ) < (num : ℚ) / ((10 ^ scale : ℕ) : ℚ) →
        (num : ℚ) / ((10 ^ scale : ℕ) : ℚ) < (2 : ℚ) ^ (128 : ℤ) - (2 : ℚ) ^ (103 : ℤ) →
        ∃ m e, ParseFloat32 (TrimSpace b) = some (GoFloat.fin true m e) ∧
          (GoFloat.fin true m e).isFloat32 ∧ m ≠ 0 ∧
          |(m : ℚ) * (2 : ℚ) ^ e - (num : ℚ) / ((10 ^ scale : ℕ) : ℚ)| ≤ (2 : ℚ) ^ e / 2 ∧
          (CheckCreditBalance goFloats net c).output.isNone = true ∧
          (CheckCreditBalance goFloats net c).err =
            (if (m : ℚ) * (2 : ℚ) ^ e = 100 then
              some (owerr.New owerr.InvalidCredentials
                (str "apiusername or apipassword is invalid") resp.StatusCode)
            else some (owerr.New owerr.UnknownError (str "unknown error") resp.StatusCode))) ∧
      ((2 : ℚ) ^ (128 : ℤ) - (2 : ℚ) ^ (103 : ℤ) < (num : ℚ) / ((10 ^ scale : ℕ) : ℚ) →
        (CheckCreditBalance goFloats net c).output.isNone = true ∧
        (CheckCreditBalance goFloats net c).err =
          some (owerr.New owerr.UnknownError (str "unknown error") resp.StatusCode))) := by
  refine ⟨?_, ?_⟩
  · intro v hv hge
    rw [CheckCreditBalance_parsed net c resp b v hresp hbody hv]
    have hge1 : ¬ v.geZero = true := by simp [hge]
    rw [if_neg hge1]
    refine ⟨by split_ifs <;> rfl, by split_ifs <;> rfl, ?_, ?_, (GoFloat.geZero_false_iff v).1 hge⟩
    · intro h100
      rw [if_pos ((GoFloat.eqNeg100_iff v).2 h100)]
    · intro h100
      rw [if_neg (fun h => h100 ((GoFloat.eqNeg100_iff v).1 h))]
  · intro num scale hnumeral
    have hparse := ParseFloat32_decimal _ _ _ _ hnumeral
    obtain ⟨t1, t2⟩ := round32_threshold true num (10 ^ scale) (by positivity)
    have hsmall : (2 : ℚ) ^ (-150 : ℤ) < (2 : ℚ) ^ (128 : ℤ) - (2 : ℚ) ^ (103 : ℤ) := by
      norm_num
    refine ⟨?_, ?_, ?_⟩
    · intro hq
      obtain ⟨hov, m, e, h1, h2, h3, h4, h5⟩ := t1 (lt_trans hq hsmall)
      have hm := h5 hq
      subst hm
      have he : e = 0 := by
        simp only [GoFloat.isFloat32] at h2
        exact h2.2.2.2.1 trivial
      subst he
      rw [hov, h1] at hparse
      simp only [Bool.false_eq_true, if_false] at hparse
      rw [CheckCreditBalance_parsed net c resp b _ hresp hbody hparse]
      exact ⟨rfl, rfl⟩
    · intro hlo hq
      obtain ⟨hov, m, e, h1, h2, h3, h4, h5⟩ := t1 hq
      have hm : m ≠ 0 := fun h0 => absurd (h4 h0) (not_le.2 hlo)
      rw [hov, h1] at hparse
      simp only [Bool.false_eq_true, if_false] at hparse
      rw [CheckCreditBalance_parsed net c resp b _ hresp hbody hparse]
      have hge : ¬ (GoFloat.fin true m e).geZero = true := by
        simp [GoFloat.geZero, hm]
      rw [if_neg hge]
      refine ⟨m, e, hparse, h2, hm, h3 hm, by split_ifs <;> rfl, ?_⟩
      by_cases h100 : (m : ℚ) * (2 : ℚ) ^ e = 100
      · have : (GoFloat.fin true m e).eqNeg100 = true :=
          (GoFloat.eqNeg100_iff _).2 (by simp only [GoFloat.toRat, if_true, Option.some.injEq]; linarith)
        rw [if_pos this, if_pos h100]
      · have : ¬ (GoFloat.fin true m e).eqNeg100 = true := by
          intro h
          have := (GoFloat.eqNeg100_iff _).1 h
          simp only [GoFloat.toRat, if_true, Option.some.injEq] at this
          exact h100 (by linarith)
        rw [if_neg this, if_neg h100]
    · intro hq
      obtain ⟨hov, _⟩ := t2 hq
      rw [hov] at hparse
      simp only [if_true] at hparse
      rw [CheckCreditBalance_rejected net c resp b hresp hbody hparse]
      exact ⟨rfl, rfl⟩

theorem CheckCreditBalance_negative_witness :
    ((CheckCreditBalance goFloats (exampleNet (exampleResponse 200 "-100\n"))
        (exampleClient (exampleResponse 200 "-100\n"))).output.isNone = true ∧
      (CheckCreditBalance goFloats (exampleNet (exampleResponse 200 "-100\n"))
        (exampleClient (exampleResponse 200 "-100\n"))).err
        = some (owerr.New owerr.InvalidCredentials
            (str "apiusername or apipassword is invalid") 200)) ∧
    ((CheckCreditBalance goFloats (exampleNet (exampleResponse 503 "-100.5"))
        (exampleClient (exampleResponse 503 "-100.5"))).output.isNone = true ∧
      (CheckCreditBalance goFloats (exampleNet (exampleResponse 503 "-100.5"))
        (exampleClient (exampleResponse 503 "-100.5"))).err
        = some (owerr.New owerr.UnknownError (str "unknown error") 503)) :=
  have h1 := (CheckCreditBalance_negative (exampleNet (exampleResponse 200 "-100\n"))
    (exampleClient (exampleResponse 200 "-100\n")) (exampleResponse 200 "-100\n")
    (str "-100\n") rfl rfl).1 (GoFloat.fin true 13107200 (-17)) (by decide) (by decide)
  have h2 := (CheckCreditBalance_negative (exampleNet (exampleResponse 503 "-100.5"))
    (exampleClient (exampleResponse 503 "-100.5")) (exampleResponse 503 "-100.5")
    (str "-100.5") rfl rfl).1 (GoFloat.fin true 13172736 (-17)) (by decide) (by decide)
  ⟨⟨h1.1, h1.2.2.1 (by norm_num [GoFloat.toRat])⟩,
    ⟨h2.1, h2.2.2.2.1 (by norm_num [GoFloat.toRat])⟩⟩

end OneWaySMS
